import Mathlib

/-!
# Arrangement and persistence engine of the portal page

A shallow embedding of the reorder / pickup / persistence logic of
`script.js`, `script2.js`, `script4.js` and `script7.js`.

The document is modelled as a heap of `.portal-section` elements
(`State.sections`, an element is named by its index) together with the two
child lists the scripts move elements between: the children of `#portal-grid`
and the children appended to `document.body` after the grid.  `localStorage`
is represented by what `JSON.parse` makes of the stored string; reading and
writing it succeed (no quota, no blocked storage).  Strings are sequences of
Unicode scalar values.

The scripts find a section by splicing its identifier, unescaped, into the
selector text `.portal-section[data-id="..."]`.  For an identifier without
double quote, backslash, line feed, carriage return, form feed and NUL the text
is the attribute test "`data-id` equals the identifier" (`plainId`,
`selectSection`).  Any other identifier rewrites the selector: the call throws
a `DOMException` or selects by another selector; the embedding reports
`Error.selector` there and follows the run no further.

Pointer and layout coordinates are IEEE 754 doubles, kept as integer
multiples of the least positive double `2^-1074`; the subtraction and the
halving of `getDragAfterElement` round to nearest, ties to even (`nearest`,
`sub`, `halve`).
-/

namespace Portal

/-! ## Data model -/

/-- A portal section element: the attributes the scripts read and write. -/
structure Section where
  /-- The value of `dataset.id`, `none` when the attribute is absent. -/
  id : Option String
  /-- The `textContent` of the element's `.section-title`. -/
  title : String
  /-- Whether the class `is-picked-up` is set. -/
  pickedUp : Bool
  /-- Whether the class `dragging` is set. -/
  dragging : Bool
  /-- The value of the `draggable` attribute. -/
  draggable : Bool
  deriving DecidableEq, Repr

/-- A child reference in the document tree: a section element of the heap or a
`div.placeholder` created by `togglePickup`. -/
inductive Node where
  | panel (k : Nat)
  | placeholder (p : Nat)
  deriving DecidableEq, Repr

/-- What `loadState` reads off a parsed value `savedState` that is not `null`.

`titles` is `none` when `savedState.titles` is falsy (missing, `null`,
`false`, `0`, `""`); otherwise it lists the keys `for (const id in titles)`
visits, in that order, each with the text that `textContent = titles[id]`
leaves in the title (the value itself when it is a string).

`order` lists the entries of `savedState.order` when that is an array, an
entry that is not a string (`null`, which is what `JSON.stringify` writes for
`undefined`, a number, an object) being `none`; it is `none` when
`savedState.order` is falsy, and when it is not an array and has no `length`
greater than `0`, so that the guard `order && order.length > 0` fails.  A
parsed value that is not an object (a number, a string, `true`) has neither
key. -/
structure SavedState where
  order : Option (List (Option String))
  titles : Option (List (String × String))
  deriving DecidableEq, Repr

/-- The content of `localStorage.getItem('businessPortalState')`. -/
inductive Stored where
  /-- The key is unset or holds the empty string: `!savedStateJSON`. -/
  | absent
  /-- A non-empty string on which `JSON.parse` throws. -/
  | malformed
  /-- A string that parses to `null` (the text `null`). -/
  | null
  /-- A string that parses to an object whose `order` is truthy and has a
  `length` greater than `0` but is not an array (a non-empty string, an object
  with a key `length`), so that it has no method `forEach`; `titles` as in
  `SavedState`. -/
  | orderNotArray (titles : Option (List (String × String)))
  /-- Any other string that parses: `loadState` reads `v` off the value. -/
  | record (v : SavedState)
  deriving DecidableEq, Repr

/-- Exceptions a handler can end with. -/
inductive Error where
  /-- The `SyntaxError` of `JSON.parse`. -/
  | syntaxError
  /-- A `TypeError`: a property read on `null`, a call of `undefined`. -/
  | typeError
  /-- The identifier spliced into a selector rewrote the selector text:
  `querySelector` throws a `DOMException` (as for `a"b`, where the text
  `.portal-section[data-id="a"b"]` is no selector) or selects by a selector
  other than the attribute test. -/
  | selector
  deriving DecidableEq, Repr

/-- The page: the section elements, the children of `#portal-grid`, the
children of `document.body` that follow the grid, the module variable
`placeholder`, the overlay's `is-active` class and the storage. -/
structure State where
  sections : List Section
  grid : List Node
  body : List Node
  placeholder : Option Nat
  overlay : Bool
  storage : Stored
  deriving DecidableEq, Repr

/-- The result of running a function that may throw: the page as the function
left it and the exception, if any. -/
structure Outcome where
  state : State
  error : Option Error
  deriving DecidableEq, Repr

/-- A finite double, as its multiple of `2^-1074`: the double `x` is kept as
the integer `x * 2^1074`.  The doubles are the integers `m * 2^e` with
`|m| < 2^53` and `e ≤ 2045`; the two zeros are not told apart, which no
comparison and no result below depends on. -/
abbrev Double := Int

/-- A double that may be infinite: `⊥` is `-Infinity`, `⊤` is `Infinity`.
(`NaN` does not arise: no operation below takes two infinite arguments.) -/
abbrev Value := WithBot (WithTop Int)

/-- The layout box `getBoundingClientRect` reports for an element. -/
structure Box where
  top : Double
  height : Double

/-- Where `togglePickup` relocates a lifted section: `portalGrid.appendChild`
in `script2.js`, `document.body.appendChild` in `script4.js` and `script7.js`. -/
inductive Target where
  | grid
  | body
  deriving DecidableEq, Repr

/-! ## Document queries -/

/-- An inert section, read for a reference that names no element. -/
def blank : Section :=
  { id := none, title := "", pickedUp := false, dragging := false, draggable := false }

/-- The element a reference names. -/
def State.get (s : State) (k : Nat) : Section := s.sections.getD k blank

/-- Update the element `k` in the heap. -/
def State.modify (s : State) (k : Nat) (f : Section → Section) : State :=
  { s with sections := s.sections.set k (f (s.get k)) }

/-- The section elements among a list of children, in order. -/
def panelsOf (s : State) (l : List Node) : List Nat :=
  l.filterMap fun n =>
    match n with
    | .panel k => if k < s.sections.length then some k else none
    | .placeholder _ => none

/-- The sections of the document in document order:
`document.querySelectorAll('.portal-section')`. -/
def State.docPanels (s : State) : List Nat := panelsOf s (s.grid ++ s.body)

/-- JavaScript truthiness of a `dataset.id`. -/
def truthy : Option String → Bool
  | some i => i != ""
  | none => false

/-- The first section of the document whose `data-id` equals the identifier:
what the attribute test `.portal-section[data-id="..."]` selects. -/
def querySection (s : State) (id : String) : Option Nat :=
  s.docPanels.find? fun k => decide ((s.get k).id = some id)

/-- Whether the identifier, spliced between the double quotes of
`[data-id="..."]`, stands for itself: it has no double quote (34), which ends
the quoted string, no backslash (92), which starts an escape, no line feed
(10), carriage return (13) or form feed (12), which break the string off, and
no NUL (0), which the selector text replaces. -/
def plainId (id : String) : Bool :=
  id.data.all fun c => !([0, 10, 12, 13, 34, 92].contains c.toNat)

/-- The identifier of a section is absent or stands for itself in a selector. -/
def plainOpt : Option String → Bool
  | some id => plainId id
  | none => true

/-- The call
`document.querySelector('.portal-section[data-id="' + id + '"]')`: for an
identifier that stands for itself, the first section carrying it or `null`;
for any other identifier the selector text is not the attribute test, see
`Error.selector`. -/
def selectSection (s : State) (id : String) : Except Error (Option Nat) :=
  if plainId id then .ok (querySection s id) else .error .selector

/-- The first lifted element: `document.querySelector('.is-picked-up')`. -/
def pickedUpElement (s : State) : Option Nat :=
  s.docPanels.find? fun k => (s.get k).pickedUp

/-- Removal of one child from a child list. -/
def detach (a : Node) (l : List Node) : List Node := l.filter fun n => n != a

/-- Append the section `k` as last child of the grid, removing it from
wherever it was: `portalGrid.appendChild(section)`. -/
def appendToGrid (k : Nat) (s : State) : State :=
  { s with grid := detach (.panel k) s.grid ++ [.panel k], body := detach (.panel k) s.body }

/-- Append the section `k` as last child of the body:
`document.body.appendChild(section)`. -/
def appendToBody (k : Nat) (s : State) : State :=
  { s with grid := detach (.panel k) s.grid, body := detach (.panel k) s.body ++ [.panel k] }

/-- Insert `new` right after the child `a`, if `a` is in the list: `a.after(new)`. -/
def insertAfter (a new : Node) : List Node → List Node
  | [] => []
  | n :: rest => if n = a then n :: new :: rest else n :: insertAfter a new rest

/-- Put `new` in the place of the child `a`. -/
def replaceNode (a new : Node) (l : List Node) : List Node :=
  l.map fun n => if n = a then new else n

/-- The call `placeholder.replaceWith(section)`: when the placeholder has a
parent the section leaves its place and takes the placeholder's; a placeholder
without parent is left alone. -/
def replaceWith (p k : Nat) (s : State) : State :=
  if Node.placeholder p ∈ s.grid ++ s.body then
    { s with
      grid := replaceNode (.placeholder p) (.panel k) (detach (.panel k) s.grid)
      body := replaceNode (.placeholder p) (.panel k) (detach (.panel k) s.body) }
  else s

/-- A name for the element `document.createElement('div')` returns: one that
no placeholder of the document bears. -/
def freshPlaceholder (s : State) : Nat :=
  (s.grid ++ s.body).foldl
    (fun m n =>
      match n with
      | .placeholder p => max m (p + 1)
      | .panel _ => m) 0

/-! ## Pickup (`togglePickup`) -/

/-- The function `togglePickup(section)`, with the relocation target of the
script as parameter.  A reference that names no element is ignored. -/
def togglePickupTo (t : Target) (s : State) (k : Nat) : State :=
  if k < s.sections.length then
    if (s.get k).pickedUp then
      -- classList.remove('is-picked-up'); overlay.classList.remove('is-active')
      let s1 := { s.modify k (fun x => { x with pickedUp := false }) with overlay := false }
      -- if (placeholder) { placeholder.replaceWith(section); placeholder = null }
      let s2 :=
        match s1.placeholder with
        | some p => { replaceWith p k s1 with placeholder := none }
        | none => s1
      -- section.setAttribute('draggable', 'true')
      s2.modify k fun x => { x with draggable := true }
    else
      -- placeholder = document.createElement('div'); section.after(placeholder)
      let p := freshPlaceholder s
      let s1 :=
        { s with
          placeholder := some p
          grid := insertAfter (.panel k) (.placeholder p) s.grid
          body := insertAfter (.panel k) (.placeholder p) s.body }
      -- classList.add('is-picked-up'); overlay.classList.add('is-active')
      let s2 := { s1.modify k (fun x => { x with pickedUp := true }) with overlay := true }
      -- appendChild(section)
      let s3 :=
        match t with
        | .grid => appendToGrid k s2
        | .body => appendToBody k s2
      -- section.setAttribute('draggable', 'false')
      s3.modify k fun x => { x with draggable := false }
  else s

/-- A sequence of `togglePickup` calls. -/
def toggleAll (t : Target) (s : State) (ks : List Nat) : State :=
  ks.foldl (togglePickupTo t) s

/-- The number of section elements that are lifted. -/
def liftedCount (s : State) : Nat := s.sections.countP fun x => x.pickedUp

/-- The calls the overlay leaves reachable: while a section is lifted, only
that section can be toggled. -/
def Guarded (t : Target) : State → List Nat → Prop
  | _, [] => True
  | s, k :: ks =>
    (liftedCount s ≠ 0 → (s.get k).pickedUp = true) ∧ Guarded t (togglePickupTo t s k) ks

/-! ## Drag target (`getDragAfterElement`) -/

/-- The candidates of `getDragAfterElement`:
`container.querySelectorAll('.portal-section:not(.dragging):not(.is-picked-up)')`. -/
def draggableElements (s : State) : List Nat :=
  (panelsOf s s.grid).filter fun k => !(s.get k).dragging && !(s.get k).pickedUp

/-- The number of binary digits of `n`, given `n < 2 ^ 2 ^ j`, by halving the
window. -/
def bits : Nat → Nat → Nat
  | 0, n => n
  | j + 1, n => if n < 2 ^ 2 ^ j then bits j n else 2 ^ j + bits j (n / 2 ^ 2 ^ j)

/-- The least `i ≥ j` with `n < 2 ^ 2 ^ i` (the fuel `n` is enough). -/
def width : Nat → Nat → Nat → Nat
  | 0, j, _ => j
  | fuel + 1, j, n => if n < 2 ^ 2 ^ j then j else width fuel (j + 1) n

/-- The number of binary digits of `n`; `0` for `0`. -/
def bitLength (n : Nat) : Nat := bits (width n 0 n) n

/-- Rounding to the nearest double, ties to even, with unbounded exponent: the
double nearest to `x / 2 ^ d` (in units of `2^-1074`).  The magnitude keeps its
53 leading binary digits, or what lies above the unit when it has fewer. -/
def nearest (d : Nat) (x : Int) : Int :=
  let a := x.natAbs
  let sh := max (bitLength a - 53) d
  let q := a / 2 ^ sh
  let r := a % 2 ^ sh
  let q' := if 2 ^ sh < 2 * r ∨ (2 * r = 2 ^ sh ∧ q % 2 = 1) then q + 1 else q
  let mag : Int := ((q' * 2 ^ (sh - d) : Nat) : Int)
  if x < 0 then -mag else mag

/-- Overflow: a rounded magnitude of `2^1024` or more is infinite. -/
def toValue (x : Int) : Value :=
  if ((2 ^ 2098 : Nat) : Int) ≤ x then ((⊤ : WithTop Int) : WithBot (WithTop Int))
  else if x ≤ -((2 ^ 2098 : Nat) : Int) then ⊥
  else ((x : WithTop Int) : WithBot (WithTop Int))

/-- The difference `a - b` of two finite doubles. -/
def sub (a b : Double) : Value := toValue (nearest 0 (a - b))

/-- The quotient `h / 2` of a finite double; it is finite. -/
def halve (h : Double) : Double := nearest 1 h

/-- The difference `v - b` for a finite `b`: an infinite `v` stays what it is. -/
def subValue (v : Value) (b : Double) : Value :=
  match v with
  | none => ⊥
  | some none => ((⊤ : WithTop Int) : WithBot (WithTop Int))
  | some (some a) => sub a b

/-- The double for a whole number of pixels. -/
def px (n : Int) : Double := n * ((2 ^ 1074 : Nat) : Int)

/-- The offset `y - box.top - box.height / 2` of the pointer from a child, as
the script computes it: `(y - box.top) - (box.height / 2)`, each operation
rounded. -/
def offset (rect : Nat → Box) (y : Double) (k : Nat) : Value :=
  subValue (sub y (rect k).top) (halve (rect k).height)

/-- The callback of the reduction: `closest` is the accumulator, an object
with the field `offset` and, once a child was taken, the field `element`. -/
def closer (rect : Nat → Box) (y : Double) (closest : Value × Option Nat) (child : Nat) :
    Value × Option Nat :=
  let off := offset rect y child
  if off < 0 ∧ off > closest.1 then (off, some child) else closest

/-- The sum `a + b` of two finite doubles. -/
def add (a b : Double) : Value := toValue (nearest 0 (a + b))

/-- The offset in the wording of the specification, `y - (top + height / 2)`,
when that expression is evaluated in double arithmetic: the midpoint is
rounded before it is subtracted.  It is compared with `offset`, which is what
the script computes. -/
def midpointOffset (rect : Nat → Box) (y : Double) (k : Nat) : Value :=
  match add (rect k).top (halve (rect k).height) with
  | none => ((⊤ : WithTop Int) : WithBot (WithTop Int))
  | some none => ⊥
  | some (some m) => sub y m

/-- The function `getDragAfterElement(container, y)`: the reduction starts from
`{ offset: Number.NEGATIVE_INFINITY }`; `none` is `undefined`, the field
`element` of an accumulator that never took a child. -/
def getDragAfterElement (rect : Nat → Box) (s : State) (y : Double) : Option Nat :=
  ((draggableElements s).foldl (closer rect y) (⊥, none)).2

/-! ## Persistence (`saveState`, `loadState`) -/

/-- The array index a property key spells, if it spells one: the keys `"0"`,
`"1"`, ... up to `2^32 - 2`.  An object enumerates these keys first, in
ascending order, and the other keys after them in the order of creation. -/
def arrayIndex (k : String) : Option Nat :=
  if k.data ≠ [] ∧ k.data.all Char.isDigit then
    let n := k.data.foldl (fun a c => 10 * a + (c.toNat - 48)) 0
    if toString n = k ∧ n < 4294967295 then some n else none
  else none

/-- A new entry, put where the enumeration of the object finds it. -/
def insertKey (e : String × String) : List (String × String) → List (String × String)
  | [] => [e]
  | x :: rest =>
    match arrayIndex e.1, arrayIndex x.1 with
    | some n, some m => if n < m then e :: x :: rest else x :: insertKey e rest
    | some _, none => e :: x :: rest
    | none, _ => x :: insertKey e rest

/-- The assignment `titles[id] = title` on the object `titles` of `saveState`,
kept as its list of entries in enumeration order: an existing key keeps its
place, a new key is created.  The key `__proto__` creates no entry: the
assignment calls the setter of `Object.prototype`, which ignores a string. -/
def setTitle (ts : List (String × String)) (id title : String) : List (String × String) :=
  if id = "__proto__" then ts
  else if ts.any (fun e => e.1 == id) then ts.map fun e => if e.1 == id then (id, title) else e
  else insertKey (id, title) ts

/-- The first-run loop
`forEach((section, index) => { if (!section.dataset.id) section.dataset.id = 'section-' + index })`
over `document.querySelectorAll('.portal-section')`. -/
def assignIds (s : State) : State :=
  s.docPanels.enum.foldl
    (fun st ik =>
      if truthy (st.get ik.2).id then st
      else st.modify ik.2 fun x => { x with id := some ("section-" ++ toString ik.1) })
    s

/-- The loop `for (const id in savedState.titles)`: the section the selector
finds gets the stored title, a key for which it finds none is passed over; an
exception of `querySelector` ends the loop and leaves the titles already set. -/
def titleLoop : List (String × String) → State → Outcome
  | [], s => { state := s, error := none }
  | e :: rest, s =>
    match selectSection s e.1 with
    | .error err => { state := s, error := some err }
    | .ok (some k) => titleLoop rest (s.modify k fun x => { x with title := e.2 })
    | .ok none => titleLoop rest s

/-- The page the title loop leaves when every key stands for itself in the
selector (`titleLoop_eq`): the first section carrying the key gets the stored
title, a key no section carries is passed over. -/
def restoreTitles (ts : List (String × String)) (s : State) : State :=
  ts.foldl
    (fun st e =>
      match querySection st e.1 with
      | some k => st.modify k fun x => { x with title := e.2 }
      | none => st)
    s

/-- The map `currentSections` after the loop
`forEach(section => currentSections.set(section.dataset.id, section))`, read
at a string key: the last section of the document carrying it. -/
def currentSections (s : State) (id : String) : Option Nat :=
  s.docPanels.reverse.find? fun k => decide ((s.get k).id = some id)

/-- The section a stored entry resolves to; an entry that is not a string
resolves to nothing. -/
def resolve (s : State) (e : Option String) : Option Nat := e.bind (currentSections s)

/-- The reordering: build `currentSections`, empty the grid
(`portalGrid.innerHTML = ''`), then append every resolved section in stored
order. -/
def restoreOrder (order : List (Option String)) (s : State) : State :=
  order.foldl
    (fun st e =>
      match resolve s e with
      | some k => appendToGrid k st
      | none => st)
    { s with grid := [] }

/-- The statement `if (savedState.titles) { for (const id in ...) ... }`. -/
def applyTitles (ts : Option (List (String × String))) (s : State) : Outcome :=
  match ts with
  | some ts => titleLoop ts s
  | none => { state := s, error := none }

/-- The part of `loadState` that follows `JSON.parse`, the same text in all
four scripts, on a parsed value read as `v`: `if (savedState.titles)` the title
loop, then `if (savedState.order && savedState.order.length > 0)` the
reordering. -/
def applySaved (v : SavedState) (s : State) : Outcome :=
  let r := applyTitles v.titles s
  match r.error with
  | some _ => r
  | none =>
    match v.order with
    | some (e :: es) => { state := restoreOrder (e :: es) r.state, error := none }
    | _ => r

/-- The same part on a parsed value whose `order` passes the guard without
being an array: after the title loop the grid is emptied
(`portalGrid.innerHTML = ''`), then `savedState.order.forEach` is not a
function. -/
def applyNotArray (ts : Option (List (String × String))) (s : State) : Outcome :=
  let r := applyTitles ts s
  match r.error with
  | some _ => r
  | none => { state := { r.state with grid := [] }, error := some .typeError }

/-- The page `applySaved` leaves when every key of `titles` stands for itself
in the selector (`applySaved_eq`). -/
def restore (v : SavedState) (s : State) : State :=
  let s1 :=
    match v.titles with
    | some ts => restoreTitles ts s
    | none => s
  match v.order with
  | some (e :: es) => restoreOrder (e :: es) s1
  | _ => s1

namespace Script7

/-- The elements `saveState` walks:
`portalGrid.querySelectorAll('.portal-section:not(.is-picked-up), .placeholder')`. -/
def sectionsOnGrid (s : State) : List Node :=
  s.grid.filter fun n =>
    match n with
    | .panel k => decide (k < s.sections.length) && !(s.get k).pickedUp
    | .placeholder _ => true

/-- The identifier `saveState` reads for a walked element: the lifted
section's for a placeholder, the element's own otherwise. -/
def idFor (s : State) : Node → Option String
  | .placeholder _ => (pickedUpElement s).bind fun k => (s.get k).id
  | .panel k => (s.get k).id

/-- The body of the `forEach` of `saveState`, on the pair `(order, titles)`
built so far.  The title is read from `originalSection`, what the selector
finds for the identifier; reading it off `null` is a `TypeError`. -/
def visit (s : State) (st : List String × List (String × String)) (el : Node) :
    Except Error (List String × List (String × String)) :=
  if truthy (idFor s el) then
    let id := (idFor s el).getD ""
    match selectSection s id with
    | .error err => .error err
    | .ok none => .error .typeError
    | .ok (some o) => .ok (st.1 ++ [id], setTitle st.2 id (s.get o).title)
  else .ok st

/-- The loop `sectionsOnGrid.forEach(...)`: an exception ends it. -/
def walk (s : State) : List Node → List String × List (String × String) →
    Except Error (List String × List (String × String))
  | [], st => .ok st
  | el :: rest, st =>
    match visit s st el with
    | .error err => .error err
    | .ok st' => walk s rest st'

/-- The function `saveState()` of `script2.js`, `script4.js` and `script7.js`:
when the walk ends with an exception, `localStorage.setItem` is not reached. -/
def saveState (s : State) : Outcome :=
  match walk s (sectionsOnGrid s) ([], []) with
  | .error err => { state := s, error := some err }
  | .ok st =>
    { state := { s with storage := .record { order := some (st.1.map some), titles := some st.2 } }
      error := none }

/-- The step of the walk when the selector finds a section (`walk_eq`). -/
def record (s : State) (st : List String × List (String × String)) (el : Node) :
    List String × List (String × String) :=
  if truthy (idFor s el) then
    let id := (idFor s el).getD ""
    let title := ((querySection s id).map fun o => (s.get o).title).getD ""
    (st.1 ++ [id], setTitle st.2 id title)
  else st

/-- The object `state` at the end of a walk without exception
(`saveState_eq`). -/
def serialize (s : State) : SavedState :=
  let st := (sectionsOnGrid s).foldl (record s) ([], [])
  { order := some (st.1.map some), titles := some st.2 }

/-- The function `loadState()` of `script2.js`, `script4.js` and `script7.js`. -/
def loadState (s : State) : Outcome :=
  match s.storage with
  | .absent => { state := assignIds s, error := none }
  | .malformed => { state := s, error := some .syntaxError }
  | .null => { state := s, error := some .typeError }
  | .orderNotArray ts => applyNotArray ts s
  | .record v => applySaved v s

/-- The part of the `DOMContentLoaded` handler that touches the arrangement:
it starts with `loadState()`; an exception ends the handler. -/
def startup (s : State) : Outcome := loadState s

/-- The function `togglePickup` of `script4.js` and `script7.js`. -/
def togglePickup (s : State) (k : Nat) : State := togglePickupTo .body s k

end Script7

namespace Script2

/-- The function `togglePickup` of `script2.js`. -/
def togglePickup (s : State) (k : Nat) : State := togglePickupTo .grid s k

end Script2

namespace Script

/-- The body of the `forEach` of `saveState` in `script.js`: every section is
recorded; an `undefined` identifier is written as `null` in the order and
names the key `"undefined"`. -/
def record (s : State) (st : List (Option String) × List (String × String)) (k : Nat) :
    List (Option String) × List (String × String) :=
  (st.1 ++ [(s.get k).id], setTitle st.2 ((s.get k).id.getD "undefined") (s.get k).title)

/-- The object `state` at the end of `saveState` in `script.js`. -/
def serialize (s : State) : SavedState :=
  let st := s.docPanels.foldl (record s) ([], [])
  { order := some st.1, titles := some st.2 }

/-- The function `saveState()` of `script.js`. -/
def saveState (s : State) : State := { s with storage := .record (serialize s) }

/-- The function `loadState()` of `script.js`. -/
def loadState (s : State) : Outcome :=
  match s.storage with
  | .absent => { state := s, error := none }
  | .malformed => { state := s, error := some .syntaxError }
  | .null => { state := s, error := some .typeError }
  | .orderNotArray ts => applyNotArray ts s
  | .record v => applySaved v s

/-- The start of the `DOMContentLoaded` handler of `script.js`: the identifier
loop, then `loadState()`. -/
def startup (s : State) : Outcome := loadState (assignIds s)

end Script

/-! ## Drag events -/

/-- The element being dragged: `document.querySelector('.dragging')`. -/
def draggingItem (s : State) : Option Nat :=
  s.docPanels.find? fun k => (s.get k).dragging

/-- Insert `new` right before the child `ref`: `insertBefore(new, ref)`.  The
handler passes a reference that is a child of the grid. -/
def insertBefore (new ref : Node) : List Node → List Node
  | [] => []
  | n :: rest => if n = ref then new :: n :: rest else n :: insertBefore new ref rest

namespace Script7

/-- The `dragstart` listener of a section in `script2.js`, `script4.js` and
`script7.js`: a lifted section returns at once. -/
def dragstart (s : State) (k : Nat) : State :=
  if (s.get k).pickedUp then s else s.modify k fun x => { x with dragging := true }

/-- The `dragend` listener of a section: `classList.remove('dragging')`. -/
def dragend (s : State) (k : Nat) : State :=
  s.modify k fun x => { x with dragging := false }

/-- The `dragover` listener of the grid in `script2.js`, `script4.js` and
`script7.js`, for a pointer at height `y` under the layout `rect`. -/
def dragover (rect : Nat → Box) (s : State) (y : Double) : State :=
  match draggingItem s with
  | none => s
  | some d =>
    match getDragAfterElement rect s y with
    | none => appendToGrid d s
    | some a =>
      { s with
        grid := insertBefore (.panel d) (.panel a) (detach (.panel d) s.grid)
        body := detach (.panel d) s.body }

/-- The `drop` listener of the grid in `script2.js`, `script4.js` and
`script7.js`: `if (document.querySelector('.dragging')) saveState()`. -/
def drop (s : State) : Outcome :=
  if (draggingItem s).isSome then saveState s else { state := s, error := none }

end Script7

namespace Script

/-- The `dragend` listener of a section in `script.js`. -/
def dragend (s : State) (k : Nat) : State :=
  s.modify k fun x => { x with dragging := false }

/-- The `drop` listener of the grid in `script.js`: `saveState()`. -/
def drop (s : State) : State := saveState s

end Script

/-! ## Predicates on pages and sample pages -/

/-- Whether a child is a section of the heap. -/
def Node.isPanelOf (s : State) : Node → Bool
  | .panel k => decide (k < s.sections.length)
  | .placeholder _ => false

/-- Whether a child reference names something: a section reference names an
element of the heap, a placeholder is its own element. -/
def Node.named (s : State) : Node → Bool
  | .panel k => decide (k < s.sections.length)
  | .placeholder _ => true

/-- Tree shape: no element is a child twice and every section reference names
an element. -/
def State.WellFormed (s : State) : Prop :=
  (s.grid ++ s.body).Nodup ∧ ∀ n ∈ s.grid ++ s.body, n.named s = true

/-- No section is lifted: the grid holds sections only, nothing was relocated
behind it, no section bears `is-picked-up` and `placeholder` is `null`. -/
def State.Unlifted (s : State) : Prop :=
  s.body = [] ∧ s.placeholder = none ∧ (∀ n ∈ s.grid, n.isPanelOf s = true) ∧
    ∀ x ∈ s.sections, x.pickedUp = false

/-- Whether a child is a placeholder. -/
def Node.isPlaceholder : Node → Bool
  | .placeholder _ => true
  | .panel _ => false

/-- The section whose identifier `saveState` reads at a walked element: the
element itself, or for a placeholder the first lifted section. -/
def sectionFor (s : State) : Node → Option Nat
  | .placeholder _ => pickedUpElement s
  | .panel k => some k

/-- Every section has one slot in the grid: a section that is not lifted is a
child of the grid, at most one section is lifted, and while one is lifted the
grid holds exactly one placeholder. -/
def State.Slotted (s : State) : Prop :=
  (∀ k ∈ s.docPanels, (s.get k).pickedUp = false → Node.panel k ∈ s.grid) ∧
    ((s.docPanels.filter fun k => (s.get k).pickedUp) = [] ∨
      ((s.docPanels.filter fun k => (s.get k).pickedUp).length = 1 ∧
        (s.grid.filter Node.isPlaceholder).length = 1))

/-- The outcome of a `saveState` that raised nothing and stored an order of
length `n` in which no identifier stands twice. -/
def Outcome.IntactOrder (r : Outcome) (n : Nat) : Prop :=
  r.error = none ∧
    ∃ o ts, r.state.storage = .record { order := some o, titles := some ts } ∧
      o.Nodup ∧ o.length = n

/-- Every identifier on the page stands for itself in a selector. -/
def State.PlainIds (s : State) : Prop :=
  ∀ k ∈ s.docPanels, plainOpt (s.get k).id = true

/-- Every key of the stored titles stands for itself in a selector. -/
def plainKeys : Option (List (String × String)) → Bool
  | some ts => ts.all fun e => plainId e.1
  | none => true

/-- A valid registry: every section of the document has a non-empty
identifier and no two share one. -/
def State.ValidIds (s : State) : Prop :=
  (∀ k ∈ s.docPanels, truthy (s.get k).id = true) ∧
    (s.docPanels.map fun k => (s.get k).id).Nodup

/-- Whether some section of the document carries the identifier. -/
def carried (s : State) (id : String) : Bool :=
  s.docPanels.any fun k => decide ((s.get k).id = some id)

/-- The stored record without the identifiers no section carries. -/
def prune (s : State) (v : SavedState) : SavedState :=
  { order := v.order.map fun o =>
      o.filter fun e =>
        match e with
        | some id => carried s id
        | none => false
    titles := v.titles.map fun ts => ts.filter fun e => carried s e.1 }

/-- The section as the identifier loop leaves it when it visits it at index
`i`: a section with a truthy identifier is kept, any other is named
`section-i`. -/
def assigned (i : Nat) (x : Section) : Section :=
  if truthy x.id then x else { x with id := some ("section-" ++ toString i) }

/-- The identifiers of the document's sections are pairwise distinct. -/
def State.DistinctIds (s : State) : Prop :=
  (s.docPanels.map fun k => (s.get k).id).Nodup

/-- The identifiers already present are pairwise distinct; sections that lack
one are left aside. -/
def State.DistinctPreset (s : State) : Prop :=
  ((s.docPanels.filter fun k => truthy (s.get k).id).map fun k => (s.get k).id).Nodup

/-- No identifier already present is a name the identifier loop hands out on
this page: `section-i` for the index `i` of a section that lacks one. -/
def State.NamesFree (s : State) : Prop :=
  ∀ ik ∈ s.docPanels.enum, truthy (s.get ik.2).id = false →
    ∀ j ∈ s.docPanels, (s.get j).id ≠ some ("section-" ++ toString ik.1)

/-- A section as the markup declares it. -/
def plain (id : Option String) (title : String) : Section :=
  { id := id, title := title, pickedUp := false, dragging := false, draggable := true }

/-- A freshly loaded page whose grid holds the given sections. -/
def page (secs : List Section) (storage : Stored) : State :=
  { sections := secs
    grid := (List.range secs.length).map Node.panel
    body := []
    placeholder := none
    overlay := false
    storage := storage }

/-- Three sections A, B, C with identifiers of their own. -/
def abc : List Section := [plain (some "A") "Alpha", plain (some "B") "Beta", plain (some "C") "Gamma"]

/-- One section whose markup sets no identifier. -/
def bare : List Section := [plain none "Tasks"]

/-- Two sections: the first has no identifier, the markup names the second
`section-0`. -/
def clash : List Section := [plain none "Tasks", plain (some "section-0") "Notes"]

/-- Three sections of which only the second has an identifier in the markup. -/
def mixed : List Section := [plain none "Tasks", plain (some "notes") "Notes", plain (some "") "Links"]

/-- The page A, B, C after a drag of B has started. -/
def abcDragging : State := Script7.dragstart (page abc .absent) 1

/-- The page A, B, C, saved, after B was dragged below C by `dragover`. -/
def abcMoved : State :=
  { Script7.dragstart (Script7.saveState (page abc .absent)).state 1 with
    grid := [.panel 0, .panel 2, .panel 1] }

/-- Three sections whose first identifier holds a double quote: `a"b`, B, C.
The identifiers are non-empty and pairwise distinct. -/
def quoted : List Section :=
  [plain (some "a\"b") "Alpha", plain (some "B") "Beta", plain (some "C") "Gamma"]

/-- Boxes 10 pixels high with vertical midpoints at 10, 50 and 90 pixels. -/
def rows : Nat → Box := fun k => { top := px (40 * (k : Int) + 5), height := px 10 }

/-- The greatest finite double, `(2^53 - 1) * 2^971`. -/
def maxDouble : Double := ((2 ^ 2098 - 2 ^ 2045 : Nat) : Int)

/-- One box 10 pixels high whose top is at the greatest double. -/
def far : Nat → Box := fun _ => { top := maxDouble, height := px 10 }

/-- One box of height `2^-59` whose top is at 1: its midpoint is `1 + 2^-60`. -/
def thin : Nat → Box := fun _ => { top := px 1, height := ((2 ^ 1015 : Nat) : Int) }

/-- One box of height 2 whose top is at `2^-60`: its midpoint is `1 + 2^-60`. -/
def sliver : Nat → Box := fun _ => { top := ((2 ^ 1014 : Nat) : Int), height := px 2 }

/-! ## The heap -/

theorem length_modify (s : State) (k : Nat) (f : Section → Section) :
    (s.modify k f).sections.length = s.sections.length := by
  simp [State.modify]

theorem grid_modify (s : State) (k : Nat) (f : Section → Section) :
    (s.modify k f).grid = s.grid := rfl

theorem body_modify (s : State) (k : Nat) (f : Section → Section) :
    (s.modify k f).body = s.body := rfl

theorem get_modify_self (s : State) (k : Nat) (f : Section → Section)
    (hk : k < s.sections.length) : (s.modify k f).get k = f (s.get k) := by
  simp [State.modify, State.get, List.getD_eq_getElem?_getD, List.getElem?_set, hk]

theorem get_modify_ne (s : State) (k j : Nat) (f : Section → Section) (h : j ≠ k) :
    (s.modify k f).get j = s.get j := by
  simp [State.modify, State.get, List.getD_eq_getElem?_getD, List.getElem?_set, Ne.symm h]

theorem panelsOf_congr (s s' : State) (h : s'.sections.length = s.sections.length)
    (l : List Node) : panelsOf s' l = panelsOf s l := by
  simp [panelsOf, h]

theorem countP_set_add {α : Type} (p : α → Bool) (d : α) :
    ∀ (l : List α) (k : Nat) (v : α), k < l.length →
      (l.set k v).countP p + (if p (l.getD k d) then 1 else 0) =
        l.countP p + (if p v then 1 else 0)
  | [], k, v, hk => by simp at hk
  | a :: l, 0, v, _ => by
    simp [List.countP_cons]
    omega
  | a :: l, k + 1, v, hk => by
    have ih := countP_set_add p d l k v (by simpa using hk)
    simp [List.countP_cons] at ih ⊢
    omega

theorem sections_togglePickupTo (t : Target) (s : State) (k : Nat)
    (hk : k < s.sections.length) :
    (togglePickupTo t s k).sections =
      s.sections.set k
        (if (s.get k).pickedUp then { s.get k with pickedUp := false, draggable := true }
         else { s.get k with pickedUp := true, draggable := false }) := by
  unfold togglePickupTo
  rw [if_pos hk]
  by_cases hp : (s.get k).pickedUp = true
  · rw [if_pos hp, if_pos hp]
    cases hph : s.placeholder with
    | none =>
      simp [State.modify, State.get, hph, List.getD_eq_getElem?_getD, List.getElem?_set, hk]
    | some p =>
      simp only [State.modify, State.get, hph, replaceWith]
      split <;> simp [List.getD_eq_getElem?_getD, List.getElem?_set, hk]
  · rw [if_neg hp, if_neg hp]
    cases t <;>
      simp [State.modify, State.get, appendToGrid, appendToBody, List.getD_eq_getElem?_getD,
        List.getElem?_set, hk]

/-! ## Pickup: how many sections are lifted -/

theorem lt_of_pickedUp (s : State) (k : Nat) (h : (s.get k).pickedUp = true) :
    k < s.sections.length := by
  by_contra hk
  have : s.get k = blank := by
    simp [State.get, List.getD_eq_getElem?_getD, List.getElem?_eq_none (Nat.le_of_not_lt hk)]
  rw [this] at h
  simp [blank] at h

theorem get_of_set (s s' : State) (k : Nat) (v : Section) (hk : k < s.sections.length)
    (h : s'.sections = s.sections.set k v) (j : Nat) :
    s'.get j = if j = k then v else s.get j := by
  unfold State.get
  rw [h]
  by_cases hj : j = k
  · subst hj
    simp [List.getD_eq_getElem?_getD, hk]
  · have hj' : k ≠ j := fun e => hj e.symm
    simp [List.getD_eq_getElem?_getD, List.getElem?_set, hj, hj']

theorem get_togglePickupTo (t : Target) (s : State) (k : Nat) (hk : k < s.sections.length)
    (j : Nat) :
    (togglePickupTo t s k).get j =
      if j = k then
        (if (s.get k).pickedUp then { s.get k with pickedUp := false, draggable := true }
         else { s.get k with pickedUp := true, draggable := false })
      else s.get j :=
  get_of_set s _ k _ hk (sections_togglePickupTo t s k hk) j

theorem togglePickupTo_of_not_lt (t : Target) (s : State) (k : Nat)
    (hk : ¬ k < s.sections.length) : togglePickupTo t s k = s := by
  unfold togglePickupTo
  rw [if_neg hk]

theorem liftedCount_lift (t : Target) (s : State) (k : Nat) (hk : k < s.sections.length)
    (hp : (s.get k).pickedUp = false) :
    liftedCount (togglePickupTo t s k) = liftedCount s + 1 := by
  have h := countP_set_add (fun x : Section => x.pickedUp) blank s.sections k
    { s.get k with pickedUp := true, draggable := false } hk
  have hp' : (s.sections.getD k blank).pickedUp = false := hp
  simp only [hp'] at h
  simp only [liftedCount, sections_togglePickupTo t s k hk, hp]
  simpa using h

theorem liftedCount_unlift (t : Target) (s : State) (k : Nat)
    (hp : (s.get k).pickedUp = true) :
    liftedCount (togglePickupTo t s k) + 1 = liftedCount s := by
  have hk := lt_of_pickedUp s k hp
  have h := countP_set_add (fun x : Section => x.pickedUp) blank s.sections k
    { s.get k with pickedUp := false, draggable := true } hk
  have hp' : (s.sections.getD k blank).pickedUp = true := hp
  simp only [hp'] at h
  simp only [liftedCount, sections_togglePickupTo t s k hk, hp]
  simpa using h

theorem liftedCount_toggleAll_le (t : Target) :
    ∀ (ks : List Nat) (s : State), liftedCount s ≤ 1 → Guarded t s ks →
      liftedCount (toggleAll t s ks) ≤ 1
  | [], s, h, _ => by simpa [toggleAll] using h
  | k :: ks, s, h, hg => by
    have hstep : liftedCount (togglePickupTo t s k) ≤ 1 := by
      by_cases hp : (s.get k).pickedUp = true
      · have := liftedCount_unlift t s k hp
        omega
      · have hp' : (s.get k).pickedUp = false := by simpa using hp
        have h0 : liftedCount s = 0 := by
          by_contra hne
          exact hp (hg.1 hne)
        by_cases hk : k < s.sections.length
        · have := liftedCount_lift t s k hk hp'
          omega
        · rw [togglePickupTo_of_not_lt t s k hk]
          exact h
    have := liftedCount_toggleAll_le t ks (togglePickupTo t s k) hstep hg.2
    simpa [toggleAll] using this

/-- C6 (counterexample).  On the page A, B, C with nothing lifted,
`togglePickup(A)` followed by `togglePickup(B)` leaves both A and B lifted:
two sections bear `is-picked-up`. -/
theorem pickup_two_lifted :
    ((Script7.togglePickup (Script7.togglePickup (page abc .absent) 0) 1).get 0).pickedUp = true ∧
    ((Script7.togglePickup (Script7.togglePickup (page abc .absent) 0) 1).get 1).pickedUp = true ∧
    ((Script2.togglePickup (Script2.togglePickup (page abc .absent) 0) 1).get 0).pickedUp = true ∧
    ((Script2.togglePickup (Script2.togglePickup (page abc .absent) 0) 1).get 1).pickedUp = true ∧
    ¬ liftedCount (Script7.togglePickup (Script7.togglePickup (page abc .absent) 0) 1) ≤ 1 := by
  decide

/-- C6 (amended).  From a state with no lifted section, after every sequence
of `togglePickup` calls in which each call made while a section is lifted
targets that lifted section, at most one section is lifted; and `togglePickup`
itself does not check for another lifted section: called on two distinct
unlifted sections in a row it leaves both lifted.  Holds for both relocation
targets (`script2.js` and `script7.js`). -/
theorem pickup_exclusive_when_guarded (t : Target) (s : State) (h0 : liftedCount s = 0) :
    (∀ ks : List Nat, Guarded t s ks → liftedCount (toggleAll t s ks) ≤ 1) ∧
    ∀ x y : Nat, x ≠ y → x < s.sections.length → y < s.sections.length →
      ((togglePickupTo t (togglePickupTo t s x) y).get x).pickedUp = true ∧
      ((togglePickupTo t (togglePickupTo t s x) y).get y).pickedUp = true := by
  have hall : ∀ j, (s.get j).pickedUp = false := by
    intro j
    by_contra hj
    have hj' : (s.get j).pickedUp = true := by simpa using hj
    have := liftedCount_unlift t s j hj'
    omega
  refine ⟨fun ks hg => liftedCount_toggleAll_le t ks s (by omega) hg, ?_⟩
  intro x y hxy hx hy
  have hy1 : y < (togglePickupTo t s x).sections.length := by
    rw [sections_togglePickupTo t s x hx]; simpa using hy
  have gy : (togglePickupTo t s x).get y = s.get y := by
    rw [get_togglePickupTo t s x hx]; simp [Ne.symm hxy]
  have hpy : ((togglePickupTo t s x).get y).pickedUp = false := by rw [gy]; exact hall y
  constructor
  · rw [get_togglePickupTo t _ y hy1, if_neg hxy, get_togglePickupTo t s x hx]
    simp [hall x]
  · rw [get_togglePickupTo t _ y hy1]
    simp [hpy]

/-- Witness for C6: on the page A, B, C the calls lift B, unlift B, lift C. -/
theorem pickup_exclusive_when_guarded_witness :
    liftedCount (page abc .absent) = 0 ∧
      liftedCount (toggleAll .body (page abc .absent) [1, 1, 2]) ≤ 1 :=
  ⟨by decide,
    (pickup_exclusive_when_guarded .body (page abc .absent) (by decide)).1 [1, 1, 2]
      (by simp only [Guarded]; decide)⟩

/-! ## Malformed storage -/

/-- C3 (counterexample).  With the stored string `"not json"` on the page
A, B, C, `loadState` does not complete: it ends with the `SyntaxError` of
`JSON.parse`. -/
theorem loadState_not_json_raises :
    ¬ ((Script7.loadState (page abc .malformed)).error = none) ∧
    ¬ ((Script.loadState (page abc .malformed)).error = none) := by
  decide

/-- C3 (amended).  For every page and every stored non-empty string that
`JSON.parse` rejects, `loadState` leaves the arrangement and all titles (the
whole page) as they were and ends with the `SyntaxError`, which nothing
catches; the absent-storage path, by contrast, completes.  Holds for
`script7.js` and `script.js`. -/
theorem loadState_malformed (s : State) (h : s.storage = .malformed) :
    Script7.loadState s = { state := s, error := some .syntaxError } ∧
    Script.loadState s = { state := s, error := some .syntaxError } ∧
    (Script7.loadState { s with storage := .absent }).error = none ∧
    (Script.loadState { s with storage := .absent }).error = none := by
  simp [Script7.loadState, Script.loadState, h]

/-- Witness for C3 on the page A, B, C. -/
theorem loadState_malformed_witness :
    Script7.loadState (page abc .malformed) =
      { state := page abc .malformed, error := some .syntaxError } :=
  (loadState_malformed (page abc .malformed) rfl).1

/-! ## Identifiers at startup -/

/-- C10 (the code at the failing input).  A page whose only section has no
identifier in the markup.  On the first visit (storage absent) `script7.js`
names it `section-0` and `saveState` stores that name.  On the next visit the
stored record is present, so `loadState` of `script7.js` skips the identifier
loop: the section still has no identifier when the stored order is resolved,
nothing resolves, and the grid ends up empty.  The handler of `script.js`
runs the identifier loop before `loadState` and restores the section. -/
theorem startup_second_visit_without_ids :
    (Script7.saveState (Script7.startup (page bare .absent)).state).state.storage =
      .record { order := some [some "section-0"], titles := some [("section-0", "Tasks")] } ∧
    (Script7.startup (page bare (.record
        { order := some [some "section-0"], titles := some [("section-0", "Tasks")] }))).state.sections
      = [plain none "Tasks"] ∧
    (Script7.startup (page bare (.record
        { order := some [some "section-0"], titles := some [("section-0", "Tasks")] }))).state.grid
      = [] ∧
    (Script.startup (page bare (.record
        { order := some [some "section-0"], titles := some [("section-0", "Tasks")] }))).state.sections
      = [plain (some "section-0") "Tasks"] ∧
    (Script.startup (page bare (.record
        { order := some [some "section-0"], titles := some [("section-0", "Tasks")] }))).state.grid
      = [.panel 0] := by
  decide

/-! ## The drag target -/

theorem bits_spec : ∀ (j n : Nat), n < 2 ^ 2 ^ j →
    n < 2 ^ bits j n ∧ (n ≠ 0 → 2 ^ (bits j n - 1) ≤ n)
  | 0, n, h => by
    have h2 : n < 2 := by simpa using h
    have : n = 0 ∨ n = 1 := by omega
    rcases this with rfl | rfl <;> simp [bits]
  | j + 1, n, h => by
    unfold bits
    have hpos : 0 < 2 ^ 2 ^ j := by positivity
    have hsq : 2 ^ 2 ^ (j + 1) = 2 ^ 2 ^ j * 2 ^ 2 ^ j := by
      rw [← pow_add, pow_succ]
      congr 1
      omega
    by_cases hlt : n < 2 ^ 2 ^ j
    · rw [if_pos hlt]
      exact bits_spec j n hlt
    · rw [if_neg hlt]
      have hge : 2 ^ 2 ^ j ≤ n := Nat.le_of_not_lt hlt
      have hq : n / 2 ^ 2 ^ j < 2 ^ 2 ^ j := by
        rw [Nat.div_lt_iff_lt_mul hpos, ← hsq]
        exact h
      have hq0 : n / 2 ^ 2 ^ j ≠ 0 := Nat.pos_iff_ne_zero.1 (Nat.div_pos hge hpos)
      obtain ⟨h1, h2⟩ := bits_spec j (n / 2 ^ 2 ^ j) hq
      have hb : 0 < bits j (n / 2 ^ 2 ^ j) := by
        by_contra h0
        have : bits j (n / 2 ^ 2 ^ j) = 0 := by omega
        rw [this] at h1
        simp at h1
        exact hq0 h1
      constructor
      · rw [pow_add, mul_comm]
        exact (Nat.div_lt_iff_lt_mul hpos).1 h1
      · intro _
        have h3 := h2 hq0
        have key : ∀ B e : Nat, 0 < B → e + B - 1 = (B - 1) + e := by
          intro B e hB
          omega
        have := key _ (2 ^ j) hb
        rw [this, pow_add]
        calc 2 ^ (bits j (n / 2 ^ 2 ^ j) - 1) * 2 ^ 2 ^ j
            ≤ n / 2 ^ 2 ^ j * 2 ^ 2 ^ j := Nat.mul_le_mul_right _ h3
          _ ≤ n := Nat.div_mul_le_self n _

theorem width_spec : ∀ (fuel j n : Nat), n < 2 ^ 2 ^ (j + fuel) → n < 2 ^ 2 ^ width fuel j n
  | 0, j, n, h => by simpa [width] using h
  | fuel + 1, j, n, h => by
    unfold width
    by_cases hlt : n < 2 ^ 2 ^ j
    · rw [if_pos hlt]; exact hlt
    · rw [if_neg hlt]
      apply width_spec fuel (j + 1) n
      have : j + 1 + fuel = j + (fuel + 1) := by omega
      rw [this]
      exact h

/-- The number `bitLength n` is the number of binary digits of `n`. -/
theorem bitLength_spec (n : Nat) :
    n < 2 ^ bitLength n ∧ (n ≠ 0 → 2 ^ (bitLength n - 1) ≤ n) := by
  unfold bitLength
  apply bits_spec
  apply width_spec
  rw [Nat.zero_add]
  calc n < 2 ^ n := Nat.lt_two_pow n
    _ ≤ 2 ^ 2 ^ n := Nat.pow_le_pow_right (by norm_num) (le_of_lt (Nat.lt_two_pow n))

set_option exponentiation.threshold 5000 in
/-- Rounding on small cases: a magnitude of at most 53 binary digits stands
for itself; a tie goes to the even neighbour (`2^53 + 1` to `2^53`, `2^53 + 3`
to `2^53 + 4`); half the least positive double is `0`, half of three times it
is twice it; the difference of the greatest double and its negation
overflows. -/
theorem nearest_examples :
    nearest 0 5 = 5 ∧ nearest 0 (-5) = -5 ∧
    nearest 0 9007199254740993 = 9007199254740992 ∧
    nearest 0 9007199254740995 = 9007199254740996 ∧
    nearest 0 (-9007199254740995) = -9007199254740996 ∧
    nearest 0 9007199254740994 = 9007199254740994 ∧
    halve 1 = 0 ∧ halve 3 = 2 ∧ halve 6 = 3 ∧ halve (px 10) = px 5 := by
  decide

set_option exponentiation.threshold 5000 in
/-- Overflow on small cases: the greatest double minus its negation is
`Infinity`, the reverse `-Infinity`, and `-Infinity` minus a finite double
stays `-Infinity`. -/
theorem overflow_examples :
    sub maxDouble (-maxDouble) = ⊤ ∧ sub (-maxDouble) maxDouble = ⊥ ∧
    sub maxDouble 0 = ((maxDouble : WithTop Int) : WithBot (WithTop Int)) ∧
    subValue ⊥ (px 5) = ⊥ := by
  decide
/-- What the reduction of `getDragAfterElement` has found after a run of
candidates: as long as no child was taken the accumulator still holds
`-Infinity`; a child that was taken is the first among those of greatest
negative offset. -/
theorem foldl_closer_spec (rect : Nat → Box) (y : Double) (l : List Nat) :
    match l.foldl (closer rect y) (⊥, none) with
    | (o, none) => o = ⊥ ∧ ∀ c ∈ l, ¬ (offset rect y c < 0 ∧ ⊥ < offset rect y c)
    | (o, some k) =>
      o = offset rect y k ∧ o < 0 ∧ ⊥ < o ∧
        (∀ d ∈ l, offset rect y d < 0 → offset rect y d ≤ o) ∧
        ∃ i : Nat, l[i]? = some k ∧
          ∀ (j : Nat) (d : Nat), j < i → l[j]? = some d → offset rect y d < 0 → offset rect y d < o := by
  induction l using List.reverseRecOn with
  | nil => simp
  | append_singleton l x ih =>
    rw [List.foldl_append]
    simp only [List.foldl_cons, List.foldl_nil]
    rcases hacc : l.foldl (closer rect y) (⊥, none) with ⟨o, e⟩
    rw [hacc] at ih
    cases e with
    | none =>
      obtain ⟨ho, ih⟩ : o = ⊥ ∧ ∀ c ∈ l, ¬ (offset rect y c < 0 ∧ ⊥ < offset rect y c) := ih
      subst ho
      have hlow : ∀ d ∈ l, offset rect y d < 0 → offset rect y d ≤ ⊥ := by
        intro d hd hdneg
        exact not_lt.1 fun hb => ih d hd ⟨hdneg, hb⟩
      by_cases hx : offset rect y x < 0 ∧ offset rect y x > ⊥
      · have hc : closer rect y (⊥, none) x = (offset rect y x, some x) := by
          simp only [closer]; rw [if_pos hx]
        rw [hc]
        refine ⟨rfl, hx.1, hx.2, ?_, l.length, by simp, ?_⟩
        · intro d hd hdneg
          rcases List.mem_append.1 hd with hd | hd
          · exact le_trans (hlow d hd hdneg) bot_le
          · simp at hd; subst hd; exact le_refl _
        · intro j d hj hjd hdneg
          have : d ∈ l := by
            rw [List.getElem?_append_left hj] at hjd
            exact List.getElem?_mem hjd
          exact lt_of_le_of_lt (hlow d this hdneg) hx.2
      · have hc : closer rect y (⊥, none) x = (⊥, none) := by
          simp only [closer]; rw [if_neg hx]
        rw [hc]
        refine ⟨rfl, ?_⟩
        intro c hc
        rcases List.mem_append.1 hc with hc | hc
        · exact ih c hc
        · simp at hc; subst hc; exact hx
    | some k =>
      obtain ⟨hr, hneg, hbot, hmax, i, hi, hfirst⟩ :
          o = offset rect y k ∧ o < 0 ∧ ⊥ < o ∧
            (∀ d ∈ l, offset rect y d < 0 → offset rect y d ≤ o) ∧
            ∃ i : Nat, l[i]? = some k ∧
              ∀ (j : Nat) (d : Nat), j < i → l[j]? = some d → offset rect y d < 0 →
                offset rect y d < o := ih
      have hil : i < l.length := by
        by_contra h
        rw [List.getElem?_eq_none (Nat.le_of_not_lt h)] at hi
        exact absurd hi (by simp)
      by_cases hx : offset rect y x < 0 ∧ offset rect y x > o
      · have hc : closer rect y (o, some k) x = (offset rect y x, some x) := by
          simp only [closer]; rw [if_pos hx]
        rw [hc]
        refine ⟨rfl, hx.1, lt_trans hbot hx.2, ?_, l.length, by simp, ?_⟩
        · intro d hd hdneg
          rcases List.mem_append.1 hd with hd | hd
          · exact le_of_lt (lt_of_le_of_lt (hmax d hd hdneg) hx.2)
          · simp at hd; subst hd; exact le_refl _
        · intro j d hj hjd hdneg
          have : d ∈ l := by
            rw [List.getElem?_append_left hj] at hjd
            exact List.getElem?_mem hjd
          exact lt_of_le_of_lt (hmax d this hdneg) hx.2
      · have hc : closer rect y (o, some k) x = (o, some k) := by
          simp only [closer]; rw [if_neg hx]
        rw [hc]
        refine ⟨hr, hneg, hbot, ?_, i, ?_, ?_⟩
        · intro d hd hdneg
          rcases List.mem_append.1 hd with hd | hd
          · exact hmax d hd hdneg
          · simp at hd; subst hd
            by_contra hgt
            exact hx ⟨hdneg, lt_of_not_le hgt⟩
        · rw [List.getElem?_append_left hil]; exact hi
        · intro j d hj hjd hdneg
          rw [List.getElem?_append_left (lt_trans hj hil)] at hjd
          exact hfirst j d hj hjd hdneg

set_option exponentiation.threshold 5000 in
/-- With midpoints at 10, 50 and 90 pixels a pointer at 45 gives the section
at 50, a pointer at 95 gives end of list. -/
theorem getDragAfterElement_rows :
    getDragAfterElement rows (page abc .absent) (px 45) = some 1 ∧
    getDragAfterElement rows (page abc .absent) (px 95) = none := by
  decide

set_option exponentiation.threshold 5000 in
/-- C4 (counterexample).  Three pages with a single candidate.

A box of height 2 with its top at `2^-60` and a pointer at `y = 1`: the offset
`y - (top + height / 2)` is `-2^-60`, negative, so the candidate should be
returned; the script computes `y - top` first, which rounds to `1`, gets the
offset `0` and returns end of list.

A box of height `2^-59` with its top at 1 and a pointer at `y = 1`: evaluated
in double arithmetic, `top + height / 2` rounds to `1` and
`y - (top + height / 2)` is `0`, not negative, so end of list should be
returned; the script computes `(y - top) - height / 2`, which is `-2^-60`, and
returns the candidate.

A box with its top at the greatest double and a pointer at its negation: the
script's `y - top` is `-Infinity` and so is its offset, which is negative; it
is not greater than the initial `-Infinity`, and the script returns end of
list. -/
theorem getDragAfterElement_rounded_offset :
    (draggableElements (page [plain (some "A") "Alpha"] .absent) = [0] ∧
      px 1 - ((sliver 0).top + (sliver 0).height / 2) = -((2 ^ 1014 : Nat) : Int) ∧
      px 1 - ((sliver 0).top + (sliver 0).height / 2) < 0 ∧
      offset sliver (px 1) 0 = 0 ∧
      getDragAfterElement sliver (page [plain (some "A") "Alpha"] .absent) (px 1) = none) ∧
    (midpointOffset thin (px 1) 0 = 0 ∧
      offset thin (px 1) 0 = ((((-((2 ^ 1014 : Nat) : Int)) : Int) : WithTop Int) :
        WithBot (WithTop Int)) ∧
      getDragAfterElement thin (page [plain (some "A") "Alpha"] .absent) (px 1) = some 0) ∧
    (offset far (-maxDouble) 0 = ⊥ ∧
      offset far (-maxDouble) 0 < 0 ∧
      getDragAfterElement far (page [plain (some "A") "Alpha"] .absent) (-maxDouble) = none) := by
  decide

/-- C4 (amended).  For every page, layout and pointer height `y`, with the
offset of a candidate as the script computes it in double arithmetic,
`(y - top) - height / 2` rounded at each operation: `getDragAfterElement`
returns end-of-list (`undefined`) exactly when no candidate has an offset that
is negative and not `-Infinity` (an empty candidate list included), and
otherwise returns a candidate whose offset is negative, not `-Infinity`, and
greatest among all negative offsets, and which is the first such candidate in
current order.  With midpoints at 10, 50 and 90 a pointer at 45 gives the
section at 50 and a pointer at 95 gives end of list. -/
theorem getDragAfterElement_spec (rect : Nat → Box) (s : State) (y : Double) :
    (getDragAfterElement rows (page abc .absent) (px 45) = some 1 ∧
      getDragAfterElement rows (page abc .absent) (px 95) = none) ∧
    (getDragAfterElement rect s y = none ↔
      ∀ c ∈ draggableElements s, ¬ (offset rect y c < 0 ∧ ⊥ < offset rect y c)) ∧
    ∀ c, getDragAfterElement rect s y = some c →
      offset rect y c < 0 ∧ ⊥ < offset rect y c ∧
      (∀ d ∈ draggableElements s, offset rect y d < 0 →
        offset rect y d ≤ offset rect y c) ∧
      ∃ i : Nat, (draggableElements s)[i]? = some c ∧
        ∀ (j : Nat) (d : Nat), j < i → (draggableElements s)[j]? = some d →
          offset rect y d < 0 → offset rect y d < offset rect y c := by
  refine ⟨getDragAfterElement_rows, ?_⟩
  have h := foldl_closer_spec rect y (draggableElements s)
  unfold getDragAfterElement
  rcases hacc : (draggableElements s).foldl (closer rect y) (⊥, none) with ⟨o, e⟩
  rw [hacc] at h
  cases e with
  | none =>
    obtain ⟨_, h⟩ :
        o = ⊥ ∧ ∀ c ∈ draggableElements s, ¬ (offset rect y c < 0 ∧ ⊥ < offset rect y c) := h
    exact ⟨⟨fun _ => h, fun _ => rfl⟩, fun c hc => by simp at hc⟩
  | some k =>
    obtain ⟨hr, hneg, hbot, hmax, i, hi, hfirst⟩ :
        o = offset rect y k ∧ o < 0 ∧ ⊥ < o ∧
          (∀ d ∈ draggableElements s, offset rect y d < 0 → offset rect y d ≤ o) ∧
          ∃ i : Nat, (draggableElements s)[i]? = some k ∧
            ∀ (j : Nat) (d : Nat), j < i → (draggableElements s)[j]? = some d →
              offset rect y d < 0 → offset rect y d < o := h
    refine ⟨⟨fun hn => by simp at hn, fun hall => ?_⟩, ?_⟩
    · exact absurd (⟨hr ▸ hneg, hr ▸ hbot⟩ : offset rect y k < 0 ∧ ⊥ < offset rect y k)
        (hall k (List.getElem?_mem hi))
    · intro c hc
      have hc' : k = c := by simpa using hc
      subst hc'
      rw [← hr]
      exact ⟨hneg, hbot, hmax, i, hi, hfirst⟩

/-! ## Restoring titles and order -/

theorem map_set_of_eq {α β : Type} (f : α → β) :
    ∀ (l : List α) (k : Nat) (v : α), (∀ x, l[k]? = some x → f v = f x) →
      (l.set k v).map f = l.map f
  | [], _, _, _ => by simp
  | a :: l, 0, v, h => by
    have := h a (by simp)
    simp [this]
  | a :: l, k + 1, v, h => by
    have ih := map_set_of_eq f l k v (fun x hx => h x (by simpa using hx))
    simp [ih]

theorem get_of_getElem? (s : State) (k : Nat) (x : Section) (h : s.sections[k]? = some x) :
    s.get k = x := by
  simp [State.get, List.getD_eq_getElem?_getD, h]

theorem ids_modify (s : State) (k : Nat) (f : Section → Section)
    (hf : ∀ x, (f x).id = x.id) :
    (s.modify k f).sections.map (fun x => x.id) = s.sections.map (fun x => x.id) := by
  unfold State.modify
  apply map_set_of_eq
  intro x hx
  rw [get_of_getElem? s k x hx]
  exact hf x

theorem id_get (s : State) (k : Nat) :
    (s.get k).id = ((s.sections.map fun x => x.id)[k]?).getD none := by
  unfold State.get
  rw [List.getD_eq_getElem?_getD, List.getElem?_map]
  cases s.sections[k]? <;> simp [blank]

/-- Two pages with the same tree and the same identifiers. -/
theorem docPanels_congr (s s' : State) (hg : s'.grid = s.grid) (hb : s'.body = s.body)
    (hi : s'.sections.map (fun x => x.id) = s.sections.map (fun x => x.id)) :
    s'.docPanels = s.docPanels := by
  have hl : s'.sections.length = s.sections.length := by
    have := congrArg List.length hi
    simpa using this
  unfold State.docPanels
  rw [hg, hb, panelsOf_congr s s' hl]

theorem id_get_congr (s s' : State)
    (hi : s'.sections.map (fun x => x.id) = s.sections.map (fun x => x.id)) (k : Nat) :
    (s'.get k).id = (s.get k).id := by
  rw [id_get, id_get, hi]

theorem querySection_congr (s s' : State) (hg : s'.grid = s.grid) (hb : s'.body = s.body)
    (hi : s'.sections.map (fun x => x.id) = s.sections.map (fun x => x.id)) (id : String) :
    querySection s' id = querySection s id := by
  unfold querySection
  rw [docPanels_congr s s' hg hb hi]
  congr 1
  funext k
  rw [id_get_congr s s' hi]

theorem currentSections_congr (s s' : State) (hg : s'.grid = s.grid) (hb : s'.body = s.body)
    (hi : s'.sections.map (fun x => x.id) = s.sections.map (fun x => x.id)) (id : String) :
    currentSections s' id = currentSections s id := by
  unfold currentSections
  rw [docPanels_congr s s' hg hb hi]
  congr 1
  funext k
  rw [id_get_congr s s' hi]

theorem resolve_congr (s s' : State) (hg : s'.grid = s.grid) (hb : s'.body = s.body)
    (hi : s'.sections.map (fun x => x.id) = s.sections.map (fun x => x.id))
    (e : Option String) : resolve s' e = resolve s e := by
  cases e with
  | none => rfl
  | some id => exact currentSections_congr s s' hg hb hi id

/-- The title loop moves nothing and renames nothing. -/
theorem restoreTitles_frame (ts : List (String × String)) :
    ∀ s : State,
      (restoreTitles ts s).grid = s.grid ∧ (restoreTitles ts s).body = s.body ∧
      (restoreTitles ts s).sections.map (fun x => x.id) = s.sections.map (fun x => x.id) := by
  induction ts with
  | nil => intro s; exact ⟨rfl, rfl, rfl⟩
  | cons e ts ih =>
    intro s
    simp only [restoreTitles, List.foldl_cons]
    cases hq : querySection s e.1 with
    | none => exact ih s
    | some k =>
      have h := ih (s.modify k fun x => { x with title := e.2 })
      simp only [restoreTitles] at h
      refine ⟨h.1, h.2.1, ?_⟩
      rw [h.2.2]
      exact ids_modify s k _ (fun _ => rfl)

theorem dedup_append_singleton (k : Nat) :
    ∀ R : List Nat, (R ++ [k]).dedup = R.dedup.filter (fun x => x != k) ++ [k]
  | [] => by simp
  | a :: R => by
    have ih := dedup_append_singleton k R
    by_cases hak : a = k
    · subst hak
      have h1 : a ∈ R ++ [a] := by simp
      rw [List.cons_append, List.dedup_cons_of_mem h1, ih]
      by_cases haR : a ∈ R
      · rw [List.dedup_cons_of_mem haR]
      · rw [List.dedup_cons_of_not_mem haR]
        simp
    · by_cases haR : a ∈ R
      · have h1 : a ∈ R ++ [k] := by simp [haR]
        rw [List.cons_append, List.dedup_cons_of_mem h1, ih, List.dedup_cons_of_mem haR]
      · have h1 : a ∉ R ++ [k] := by simp [haR, hak]
        rw [List.cons_append, List.dedup_cons_of_not_mem h1, ih,
          List.dedup_cons_of_not_mem haR]
        simp [hak]

theorem detach_map_panel (k : Nat) (l : List Nat) :
    detach (.panel k) (l.map Node.panel) = (l.filter fun x => x != k).map Node.panel := by
  unfold detach
  induction l with
  | nil => rfl
  | cons a l ih =>
    by_cases h : a = k
    · subst h; simp [List.filter_cons, ih]
    · simp [List.filter_cons, ih, h]

theorem foldl_append_grid (res : Option String → Option Nat) :
    ∀ (order : List (Option String)) (st : State) (R : List Nat),
      st.grid = R.dedup.map Node.panel →
      (order.foldl
        (fun st e =>
          match res e with
          | some k => appendToGrid k st
          | none => st) st).grid
        = (R ++ order.filterMap res).dedup.map Node.panel
  | [], st, R, h => by simpa using h
  | e :: order, st, R, h => by
    simp only [List.foldl_cons]
    cases hr : res e with
    | none =>
      have := foldl_append_grid res order st R h
      simpa [List.filterMap_cons, hr] using this
    | some k =>
      have hg : (appendToGrid k st).grid = (R ++ [k]).dedup.map Node.panel := by
        simp only [appendToGrid, h, detach_map_panel, dedup_append_singleton]
        simp
      have := foldl_append_grid res order (appendToGrid k st) (R ++ [k]) hg
      simpa [List.filterMap_cons, hr] using this

theorem restoreOrder_grid (order : List (Option String)) (s : State) :
    (restoreOrder order s).grid = (order.filterMap (resolve s)).dedup.map Node.panel := by
  have := foldl_append_grid (resolve s) order { s with grid := [] } [] (by simp)
  simpa [restoreOrder] using this

/-- The grid after a non-empty stored order has been applied. -/
theorem restore_grid (s : State) (v : SavedState) (e : Option String)
    (es : List (Option String)) (ho : v.order = some (e :: es)) :
    (restore v s).grid = ((e :: es).filterMap (resolve s)).dedup.map Node.panel := by
  unfold restore
  rw [ho]
  cases ht : v.titles with
  | none => exact restoreOrder_grid _ s
  | some ts =>
    have hf := restoreTitles_frame ts s
    simp only []
    rw [restoreOrder_grid]
    congr 2
    apply List.filterMap_congr
    intro x _
    exact resolve_congr s _ hf.1 hf.2.1 hf.2.2 x

/-- The title loop raises nothing when every key stands for itself in the
selector. -/
theorem titleLoop_eq (ts : List (String × String)) :
    ∀ s : State, (∀ e ∈ ts, plainId e.1 = true) →
      titleLoop ts s = { state := restoreTitles ts s, error := none } := by
  induction ts with
  | nil => intro s _; rfl
  | cons e ts ih =>
    intro s h
    have he : plainId e.1 = true := h e (List.mem_cons_self _ _)
    have hts : ∀ e' ∈ ts, plainId e'.1 = true := fun e' he' => h e' (List.mem_cons_of_mem _ he')
    simp only [titleLoop, selectSection, he, if_true, restoreTitles, List.foldl_cons]
    cases hq : querySection s e.1 with
    | none => exact ih s hts
    | some k => exact ih _ hts

theorem applySaved_eq (v : SavedState) (s : State) (h : plainKeys v.titles = true) :
    applySaved v s = { state := restore v s, error := none } := by
  unfold applySaved applyTitles restore
  cases ht : v.titles with
  | none => cases ho : v.order with
    | none => rfl
    | some l => cases l <;> rfl
  | some ts =>
    have hts : ∀ e ∈ ts, plainId e.1 = true := by
      rw [ht] at h
      simpa [plainKeys] using h
    simp only [titleLoop_eq ts s hts]
    cases ho : v.order with
    | none => rfl
    | some l => cases l <;> rfl

/-- With a stored record whose title keys stand for themselves `loadState`
raises nothing, in `script7.js` and in `script.js`. -/
theorem loadState_record (s : State) (v : SavedState) (hs : s.storage = .record v)
    (h : plainKeys v.titles = true) :
    Script7.loadState s = { state := restore v s, error := none } ∧
    Script.loadState s = { state := restore v s, error := none } := by
  simp only [Script7.loadState, Script.loadState, hs, applySaved_eq v s h, and_self]

/-- C2 (counterexample).  On the page A, B, C with the stored order `["B"]`
`loadState` leaves B alone in the grid: A and C are not appended.  With the
same order and a stored title under the key `x"y`, the title loop, which runs
first, ends `loadState` with an exception and the grid stays A, B, C.  With the
stored `order` the string `"B"` the grid is emptied and `order.forEach` raises
a `TypeError`. -/
theorem loadState_stale_order_drops :
    ((Script7.loadState (page abc (.record { order := some [some "B"], titles := none }))).state.grid
      = [.panel 1] ∧
    (Script7.loadState (page abc (.record { order := some [some "B"], titles := none }))).state.grid
      ≠ [.panel 1, .panel 0, .panel 2] ∧
    (Script.loadState (page abc (.record { order := some [some "B"], titles := none }))).state.grid
      = [.panel 1]) ∧
    ((Script7.loadState (page abc (.record
        { order := some [some "B"], titles := some [("x\"y", "Q")] }))).error = some .selector ∧
      (Script7.loadState (page abc (.record
        { order := some [some "B"], titles := some [("x\"y", "Q")] }))).state.grid
        = [.panel 0, .panel 1, .panel 2]) ∧
    ((Script7.loadState (page abc (.orderNotArray none))).error = some .typeError ∧
      (Script7.loadState (page abc (.orderNotArray none))).state.grid = []) := by
  decide

/-- C2 (amended).  For every page and every stored record whose `order` is a
non-empty array and whose title keys stand for themselves in the selector (no
double quote, backslash, line feed, carriage return, form feed or NUL), after
`loadState` the grid consists of exactly the sections resolved from the stored
order, each once, in stored order (a section named more than once stands where
its last mention puts it); a section whose identifier is absent from the
stored order is not appended: it is in the grid afterwards only if some stored
entry resolves to it.  No error is raised.  Holds for `script7.js` and
`script.js`. -/
theorem loadState_order (s : State) (v : SavedState) (e : Option String)
    (es : List (Option String)) (hs : s.storage = .record v) (ho : v.order = some (e :: es))
    (hk : plainKeys v.titles = true) :
    (Script7.loadState s).error = none ∧
    (Script7.loadState s).state.grid =
      ((e :: es).filterMap (resolve s)).dedup.map Node.panel ∧
    (∀ n, n ∈ (Script7.loadState s).state.grid ↔
      ∃ k, n = .panel k ∧ ∃ x ∈ e :: es, resolve s x = some k) ∧
    Script.loadState s = Script7.loadState s := by
  have hgrid := restore_grid s v e es ho
  obtain ⟨h7, h1⟩ := loadState_record s v hs hk
  rw [h1, h7]
  refine ⟨rfl, hgrid, ?_, rfl⟩
  intro n
  show n ∈ (restore v s).grid ↔ _
  rw [hgrid]
  simp only [List.mem_map, List.mem_dedup, List.mem_filterMap]
  constructor
  · rintro ⟨k, ⟨x, hx, hk⟩, rfl⟩
    exact ⟨k, rfl, x, hx, hk⟩
  · rintro ⟨k, rfl, x, hx, hk⟩
    exact ⟨k, ⟨x, hx, hk⟩, rfl⟩

/-- Witness for C2: the page A, B, C with the stored order `["B"]`. -/
theorem loadState_order_witness :
    (Script7.loadState (page abc (.record { order := some [some "B"], titles := none }))).state.grid
      = ([some "B"].filterMap
          (resolve (page abc (.record { order := some [some "B"], titles := none })))).dedup.map
            Node.panel :=
  (loadState_order (page abc (.record { order := some [some "B"], titles := none }))
    { order := some [some "B"], titles := none } (some "B") [] rfl rfl rfl).2.1

/-! ## Stored identifiers that no section carries -/

theorem querySection_of_not_carried (s : State) (id : String) (h : carried s id = false) :
    querySection s id = none := by
  unfold querySection
  rw [List.find?_eq_none]
  intro k hk
  unfold carried at h
  rw [List.any_eq_false] at h
  exact h k hk

theorem currentSections_of_not_carried (s : State) (id : String) (h : carried s id = false) :
    currentSections s id = none := by
  unfold currentSections
  rw [List.find?_eq_none]
  intro k hk
  unfold carried at h
  rw [List.any_eq_false] at h
  exact h k (List.mem_reverse.1 hk)

theorem currentSections_isSome_of_carried (s : State) (id : String) (h : carried s id = true) :
    ∃ k, currentSections s id = some k := by
  unfold carried at h
  rw [List.any_eq_true] at h
  obtain ⟨k, hk, hid⟩ := h
  cases hc : currentSections s id with
  | some j => exact ⟨j, rfl⟩
  | none =>
    unfold currentSections at hc
    rw [List.find?_eq_none] at hc
    exact absurd hid (hc k (List.mem_reverse.2 hk))

theorem restoreTitles_filter (s0 : State) (ts : List (String × String)) :
    ∀ s : State, s.grid = s0.grid → s.body = s0.body →
      s.sections.map (fun x => x.id) = s0.sections.map (fun x => x.id) →
      restoreTitles (ts.filter fun e => carried s0 e.1) s = restoreTitles ts s := by
  induction ts with
  | nil => intro s _ _ _; rfl
  | cons e ts ih =>
    intro s hg hb hi
    by_cases hc : carried s0 e.1 = true
    · have hf : (List.filter (fun e => carried s0 e.1) (e :: ts))
          = e :: List.filter (fun e => carried s0 e.1) ts := by
        rw [List.filter_cons]; simp only [hc, if_true]
      rw [hf]
      simp only [restoreTitles, List.foldl_cons]
      cases hq : querySection s e.1 with
      | none => exact ih s hg hb hi
      | some k =>
        exact ih _ hg hb
          ((ids_modify s k (fun x => { x with title := e.2 }) (fun _ => rfl)).trans hi)
    · have hc' : carried s0 e.1 = false := by simpa using hc
      have hf : (List.filter (fun e => carried s0 e.1) (e :: ts))
          = List.filter (fun e => carried s0 e.1) ts := by
        rw [List.filter_cons]; simp only [hc', Bool.false_eq_true, if_false]
      rw [hf]
      have hq : querySection s e.1 = none := by
        rw [querySection_congr s0 s hg hb hi]
        exact querySection_of_not_carried s0 _ hc'
      rw [ih s hg hb hi]
      simp only [restoreTitles, List.foldl_cons, hq]

theorem foldl_filter_of_id {α β : Type} (f : β → α → β) (p : α → Bool)
    (h : ∀ b a, p a = false → f b a = b) :
    ∀ (l : List α) (b : β), (l.filter p).foldl f b = l.foldl f b
  | [], _ => rfl
  | a :: l, b => by
    by_cases hp : p a = true
    · rw [List.filter_cons_of_pos hp]
      simp only [List.foldl_cons]
      exact foldl_filter_of_id f p h l (f b a)
    · rw [List.filter_cons_of_neg hp]
      simp only [List.foldl_cons]
      rw [h b a (by simpa using hp)]
      exact foldl_filter_of_id f p h l b

/-- A stored order entry that pruning drops resolves to nothing. -/
theorem resolve_of_not_kept (s : State) (e : Option String)
    (h : (match e with
          | some id => carried s id
          | none => false) = false) : resolve s e = none := by
  cases e with
  | none => rfl
  | some id => exact currentSections_of_not_carried s id h

theorem restoreOrder_filter (s0 s : State) (hg : s.grid = s0.grid) (hb : s.body = s0.body)
    (hi : s.sections.map (fun x => x.id) = s0.sections.map (fun x => x.id))
    (order : List (Option String)) :
    restoreOrder
        (order.filter fun e =>
          match e with
          | some id => carried s0 id
          | none => false) s
      = restoreOrder order s := by
  unfold restoreOrder
  apply foldl_filter_of_id
  intro b a ha
  have : resolve s a = none := by
    rw [resolve_congr s0 s hg hb hi]
    exact resolve_of_not_kept s0 a ha
  simp only [this]

theorem restoreOrder_nil (s : State) : restoreOrder [] s = { s with grid := [] } := rfl

/-- The effect of a non-empty stored order is that of `restoreOrder`; an empty
or missing one has none. -/
theorem restore_eq (v : SavedState) (s : State) :
    restore v s =
      match v.order with
      | some (e :: es) => restoreOrder (e :: es) (restore { v with order := none } s)
      | _ => restore { v with order := none } s := by
  unfold restore
  cases v.order with
  | none => rfl
  | some o => cases o <;> rfl

theorem restore_storage (v : SavedState) (s : State) (x : Stored) :
    restore v { s with storage := x } = { restore v s with storage := x } := by
  have ht : ∀ (ts : List (String × String)) (s : State),
      restoreTitles ts { s with storage := x } = { restoreTitles ts s with storage := x } := by
    intro ts
    induction ts with
    | nil => intro s; rfl
    | cons e ts ih =>
      intro s
      simp only [restoreTitles, List.foldl_cons]
      have hq : querySection { s with storage := x } e.1 = querySection s e.1 := rfl
      rw [hq]
      cases querySection s e.1 with
      | none => exact ih s
      | some k => exact ih (s.modify k fun y => { y with title := e.2 })
  have hfold : ∀ (res : Option String → Option Nat) (o : List (Option String)) (s : State),
      o.foldl (fun st e =>
          match res e with
          | some k => appendToGrid k st
          | none => st) { s with storage := x }
        = { o.foldl (fun st e =>
          match res e with
          | some k => appendToGrid k st
          | none => st) s with storage := x } := by
    intro res o
    induction o with
    | nil => intro s; rfl
    | cons e o ih =>
      intro s
      simp only [List.foldl_cons]
      cases res e with
      | none => exact ih s
      | some k => exact ih (appendToGrid k s)
  have ho : ∀ (o : List (Option String)) (s : State),
      restoreOrder o { s with storage := x } = { restoreOrder o s with storage := x } := by
    intro o s
    unfold restoreOrder
    have hr : resolve { s with storage := x } = resolve s := rfl
    rw [hr]
    exact hfold (resolve s) o { s with grid := [] }
  unfold restore
  cases v.titles with
  | none =>
    cases v.order with
    | none => rfl
    | some o =>
      cases o with
      | nil => rfl
      | cons e es => exact ho _ s
  | some ts =>
    cases v.order with
    | none => exact ht ts s
    | some o =>
      cases o with
      | nil => exact ht ts s
      | cons e es =>
        simp only []
        rw [ht ts s]
        exact ho _ _

theorem restore_titles_prune (s : State) (v : SavedState) :
    restore { prune s v with order := none } s = restore { v with order := none } s := by
  unfold restore prune
  cases v.titles with
  | none => rfl
  | some ts => exact restoreTitles_filter s ts s rfl rfl rfl

theorem restore_titles_frame (v : SavedState) (s : State) :
    (restore { v with order := none } s).grid = s.grid ∧
    (restore { v with order := none } s).body = s.body ∧
    (restore { v with order := none } s).sections.map (fun x => x.id)
      = s.sections.map (fun x => x.id) := by
  unfold restore
  cases v.titles with
  | none => exact ⟨rfl, rfl, rfl⟩
  | some ts => exact restoreTitles_frame ts s

theorem restore_prune (s : State) (v : SavedState)
    (h : ∀ o, v.order = some o → o = [] ∨ ∃ id, some id ∈ o ∧ carried s id = true) :
    restore (prune s v) s = restore v s := by
  rw [restore_eq (prune s v), restore_eq v, restore_titles_prune]
  obtain ⟨hg, hb, hi⟩ := restore_titles_frame v s
  cases ho : v.order with
  | none => simp [prune, ho]
  | some o =>
    rcases h o ho with hnil | ⟨id, hid, hcar⟩
    · subst hnil
      simp [prune, ho]
    · have hmem : some id ∈ o.filter fun e =>
          match e with
          | some id => carried s id
          | none => false := by
        rw [List.mem_filter]
        exact ⟨hid, hcar⟩
      have hpo : (prune s v).order = some (o.filter fun e =>
          match e with
          | some id => carried s id
          | none => false) := by
        simp [prune, ho]
      rw [hpo]
      have hrest := restoreOrder_filter s (restore { v with order := none } s) hg hb hi o
      cases hf : (o.filter fun e =>
          match e with
          | some id => carried s id
          | none => false) with
      | nil => rw [hf] at hmem; simp at hmem
      | cons e' es' =>
        rw [hf] at hrest
        cases o with
        | nil => simp at hid
        | cons e es => exact hrest

theorem plainKeys_prune (s : State) (v : SavedState) (h : plainKeys v.titles = true) :
    plainKeys (prune s v).titles = true := by
  cases ht : v.titles with
  | none => simp [prune, ht, plainKeys]
  | some ts =>
    rw [ht] at h
    simp only [plainKeys, List.all_eq_true] at h
    simp only [prune, ht, Option.map_some', plainKeys, List.all_eq_true]
    intro e he
    exact h e (List.mem_filter.1 he).1

/-- C9 (counterexample).  One section A and the stored order `["Z"]`, which no
section carries: `loadState` empties the grid, while with the unknown
identifier removed from the record (an empty order) it leaves A in place.
With a stored title under the unknown key `x"y`, `loadState` ends with the
exception of `querySelector`, while with the key removed it raises nothing.
With the stored text `null`, which parses, reading `savedState.titles` raises
a `TypeError`. -/
theorem loadState_unknown_order_empties :
    ((Script7.loadState (page [plain (some "A") "Alpha"]
        (.record { order := some [some "Z"], titles := some [] }))).state.grid = [] ∧
    prune (page [plain (some "A") "Alpha"] .absent) { order := some [some "Z"], titles := some [] }
      = { order := some [], titles := some [] } ∧
    (Script7.loadState (page [plain (some "A") "Alpha"]
        (.record { order := some [], titles := some [] }))).state.grid = [.panel 0]) ∧
    ((Script7.loadState (page [plain (some "A") "Alpha"]
        (.record { order := none, titles := some [("x\"y", "Q")] }))).error = some .selector ∧
    prune (page [plain (some "A") "Alpha"] .absent) { order := none, titles := some [("x\"y", "Q")] }
      = { order := none, titles := some [] } ∧
    (Script7.loadState (page [plain (some "A") "Alpha"]
        (.record { order := none, titles := some [] }))).error = none) ∧
    (Script7.loadState (page [plain (some "A") "Alpha"] .null)).error = some .typeError := by
  decide

/-- C9 (amended).  For every page and every stored string that parses to
something other than `null`, whose `order`, where it passes the guard
`order && order.length > 0`, is an array, and whose title keys stand for
themselves in the selector (no double quote, backslash, line feed, carriage
return, form feed or NUL): `loadState` raises no error; when the stored order
is missing, empty, or names at least one section of the document, `loadState`
has the same effect on the page as with the record pruned of the identifiers
no section carries; when the stored order is non-empty and names no section of
the document, `loadState` empties the grid, whereas with the pruned record it
leaves the grid as it was. -/
theorem loadState_unknown_ids (s : State) (v : SavedState) (hs : s.storage = .record v)
    (hk : plainKeys v.titles = true) :
    (Script7.loadState s).error = none ∧
    ((∀ o, v.order = some o → o = [] ∨ ∃ id, some id ∈ o ∧ carried s id = true) →
      (Script7.loadState { s with storage := .record (prune s v) }).state
        = { (Script7.loadState s).state with storage := .record (prune s v) }) ∧
    (∀ e es, v.order = some (e :: es) →
      (∀ id, some id ∈ e :: es → carried s id = false) →
      (Script7.loadState s).state.grid = [] ∧
      (Script7.loadState { s with storage := .record (prune s v) }).state.grid = s.grid) := by
  have h7 := (loadState_record s v hs hk).1
  have h7p := (loadState_record { s with storage := .record (prune s v) } (prune s v) rfl
    (plainKeys_prune s v hk)).1
  rw [h7, h7p]
  refine ⟨rfl, ?_, ?_⟩
  · intro h
    dsimp only
    rw [restore_storage, restore_prune s v h]
  · intro e es ho hnone
    have hres : ∀ x ∈ e :: es, resolve s x = none := by
      intro x hx
      cases x with
      | none => rfl
      | some id => exact currentSections_of_not_carried s id (hnone id hx)
    have h1 : (restore v s).grid
        = ((e :: es).filterMap (resolve s)).dedup.map Node.panel :=
      restore_grid s v e es ho
    have hfm : (e :: es).filterMap (resolve s) = [] := by
      rw [List.filterMap_eq_nil_iff]
      exact hres
    rw [hfm] at h1
    refine ⟨by simpa using h1, ?_⟩
    dsimp only
    rw [restore_storage, restore_eq, restore_titles_prune]
    have hpo : (prune s v).order = some [] := by
      simp only [prune, ho, Option.map_some']
      congr 1
      rw [List.filter_eq_nil_iff]
      intro x hx
      cases x with
      | none => simp
      | some id => simp [hnone id hx]
    rw [hpo]
    exact (restore_titles_frame v s).1

/-- Witness for C9: the page A, B, C with a stored order naming B and an
unknown Z, and a title for the unknown Z. -/
theorem loadState_unknown_ids_witness :
    (Script7.loadState (page abc (.record
      { order := some [some "Z", some "B"], titles := some [("Z", "Zeta")] }))).error = none ∧
    (Script7.loadState { page abc (.record
        { order := some [some "Z", some "B"], titles := some [("Z", "Zeta")] }) with
        storage := .record (prune (page abc (.record
          { order := some [some "Z", some "B"], titles := some [("Z", "Zeta")] }))
          { order := some [some "Z", some "B"], titles := some [("Z", "Zeta")] }) }).state
      = { (Script7.loadState (page abc (.record
          { order := some [some "Z", some "B"], titles := some [("Z", "Zeta")] }))).state with
          storage := .record (prune (page abc (.record
            { order := some [some "Z", some "B"], titles := some [("Z", "Zeta")] }))
            { order := some [some "Z", some "B"], titles := some [("Z", "Zeta")] }) } :=
  ⟨(loadState_unknown_ids
      (page abc (.record { order := some [some "Z", some "B"], titles := some [("Z", "Zeta")] }))
      { order := some [some "Z", some "B"], titles := some [("Z", "Zeta")] } rfl (by decide)).1,
    (loadState_unknown_ids
      (page abc (.record { order := some [some "Z", some "B"], titles := some [("Z", "Zeta")] }))
      { order := some [some "Z", some "B"], titles := some [("Z", "Zeta")] } rfl (by decide)).2.1
      (fun o ho => Or.inr ⟨"B", by cases ho; simp, by decide⟩)⟩

/-! ## What `saveState` writes -/

theorem mem_docPanels (s : State) (k : Nat) :
    k ∈ s.docPanels ↔ Node.panel k ∈ s.grid ++ s.body ∧ k < s.sections.length := by
  unfold State.docPanels panelsOf
  rw [List.mem_filterMap]
  constructor
  · rintro ⟨n, hn, h⟩
    cases n with
    | placeholder p => simp at h
    | panel j =>
      by_cases hj : j < s.sections.length
      · simp [hj] at h
        subst h
        exact ⟨hn, hj⟩
      · simp [hj] at h
  · rintro ⟨hn, hk⟩
    exact ⟨.panel k, hn, by simp [hk]⟩

theorem mem_insertKey (e e' : String × String) :
    ∀ l : List (String × String), e' ∈ insertKey e l → e' ∈ l ∨ e' = e := by
  intro l
  induction l with
  | nil => intro h; exact Or.inr (by simpa [insertKey] using h)
  | cons x rest ih =>
    intro h
    have hcons : e' ∈ e :: x :: rest → e' ∈ x :: rest ∨ e' = e := by
      intro h'
      rcases List.mem_cons.1 h' with h' | h'
      · exact Or.inr h'
      · exact Or.inl h'
    have hrec : e' ∈ x :: insertKey e rest → e' ∈ x :: rest ∨ e' = e := by
      intro h'
      rcases List.mem_cons.1 h' with h' | h'
      · exact Or.inl (h' ▸ List.mem_cons_self _ _)
      · rcases ih h' with h' | h'
        · exact Or.inl (List.mem_cons_of_mem _ h')
        · exact Or.inr h'
    unfold insertKey at h
    split at h
    · split at h
      · exact hcons h
      · exact hrec h
    · exact hcons h
    · exact hrec h

theorem mem_setTitle (ts : List (String × String)) (id title : String) (e : String × String)
    (h : e ∈ setTitle ts id title) : e ∈ ts ∨ e = (id, title) := by
  unfold setTitle at h
  split at h
  · exact Or.inl h
  · split at h
    · rw [List.mem_map] at h
      obtain ⟨a, ha, hae⟩ := h
      split at hae
      · exact Or.inr hae.symm
      · exact Or.inl (hae ▸ ha)
    · exact mem_insertKey _ _ _ h

theorem foldl_record_fst (s : State) :
    ∀ (L : List Node) (st : List String × List (String × String)),
      (L.foldl (Script7.record s) st).1 =
        st.1 ++ (L.filter fun el => truthy (Script7.idFor s el)).map
          fun el => (Script7.idFor s el).getD ""
  | [], st => by simp
  | el :: L, st => by
    simp only [List.foldl_cons]
    rw [foldl_record_fst s L]
    by_cases h : truthy (Script7.idFor s el) = true
    · simp [Script7.record, h, List.filter_cons]
    · simp [Script7.record, h, List.filter_cons]

theorem foldl_record_snd (s : State) (P : String × String → Prop) :
    ∀ (L : List Node) (st : List String × List (String × String)),
      (∀ e ∈ st.2, P e) →
      (∀ el ∈ L, truthy (Script7.idFor s el) = true →
        P ((Script7.idFor s el).getD "",
          ((querySection s ((Script7.idFor s el).getD "")).map fun o => (s.get o).title).getD "")) →
      ∀ e ∈ (L.foldl (Script7.record s) st).2, P e
  | [], st, h, _ => by simpa using h
  | el :: L, st, h, hL => by
    simp only [List.foldl_cons]
    apply foldl_record_snd s P L
    · intro e he
      by_cases ht : truthy (Script7.idFor s el) = true
      · simp only [Script7.record, ht, if_true] at he
        rcases mem_setTitle _ _ _ _ he with he | he
        · exact h e he
        · rw [he]
          exact hL el (List.mem_cons_self _ _) ht
      · simp only [Script7.record, ht] at he
        exact h e he
    · intro el' hel'
      exact hL el' (List.mem_cons_of_mem _ hel')

theorem querySection_isSome (s : State) (k : Nat) (id : String) (hk : k ∈ s.docPanels)
    (hid : (s.get k).id = some id) : ∃ j, querySection s id = some j := by
  cases hq : querySection s id with
  | some j => exact ⟨j, rfl⟩
  | none =>
    unfold querySection at hq
    rw [List.find?_eq_none] at hq
    exact absurd (by simpa using hid) (hq k hk)

theorem truthy_eq_some (o : Option String) (h : truthy o = true) : o = some (o.getD "") := by
  cases o with
  | none => simp [truthy] at h
  | some i => rfl

/-- The section `originalSection` that `saveState` reads the title from is
always found: the identifier was read from a section of the document. -/
theorem originalSection_found (s : State) (el : Node) (hel : el ∈ Script7.sectionsOnGrid s)
    (ht : truthy (Script7.idFor s el) = true) :
    ∃ j, querySection s ((Script7.idFor s el).getD "") = some j := by
  have hid := truthy_eq_some _ ht
  unfold Script7.sectionsOnGrid at hel
  rw [List.mem_filter] at hel
  cases el with
  | panel k =>
    have hk : k < s.sections.length := by
      have := hel.2
      simp at this
      exact this.1
    exact querySection_isSome s k _
      ((mem_docPanels s k).2 ⟨List.mem_append_left _ hel.1, hk⟩) hid
  | placeholder p =>
    simp only [Script7.idFor] at hid ht ⊢
    revert hid ht
    cases hp : pickedUpElement s with
    | none => intro ht _; simp [truthy] at ht
    | some k =>
      intro _ hid
      have hk : k ∈ s.docPanels := by
        unfold pickedUpElement at hp
        exact List.mem_of_find?_eq_some hp
      exact querySection_isSome s k _ hk hid

theorem modify_self (s : State) (k : Nat) (f : Section → Section) (h : f (s.get k) = s.get k) :
    s.modify k f = s := by
  unfold State.modify
  rw [h]
  have : s.sections.set k (s.get k) = s.sections := by
    apply List.ext_getElem?
    intro j
    rw [List.getElem?_set]
    by_cases hkj : k = j
    · subst hkj
      by_cases hk : k < s.sections.length
      · simp [hk, State.get, List.getD_eq_getElem?_getD]
      · simp [hk, List.getElem?_eq_none (Nat.le_of_not_lt hk)]
    · simp [hkj]
  rw [this]

theorem restoreTitles_of_same (ts : List (String × String)) (s : State)
    (h : ∀ e ∈ ts, ∃ k, querySection s e.1 = some k ∧ (s.get k).title = e.2) :
    restoreTitles ts s = s := by
  induction ts with
  | nil => rfl
  | cons e ts ih =>
    simp only [restoreTitles, List.foldl_cons]
    obtain ⟨k, hq, ht⟩ := h e (List.mem_cons_self _ _)
    rw [hq]
    have : (s.modify k fun x => { x with title := e.2 }) = s :=
      modify_self s k _ (by rw [← ht])
    simp only [this]
    exact ih (fun e' he' => h e' (List.mem_cons_of_mem _ he'))

/-- Restoring the titles `saveState` has just written changes no title, on
every page. -/
theorem restoreTitles_serialize (s : State) :
    ∀ ts, (Script7.serialize s).titles = some ts → restoreTitles ts s = s := by
  intro ts hts
  apply restoreTitles_of_same
  have hts' : ts = ((Script7.sectionsOnGrid s).foldl (Script7.record s) ([], [])).2 := by
    simp only [Script7.serialize] at hts
    exact (Option.some.inj hts).symm
  rw [hts']
  refine foldl_record_snd s
    (fun e => ∃ k, querySection s e.1 = some k ∧ (s.get k).title = e.2)
    (Script7.sectionsOnGrid s) ([], []) (by simp) ?_
  intro el hel ht
  obtain ⟨j, hj⟩ := originalSection_found s el hel ht
  exact ⟨j, hj, by simp [hj]⟩

theorem serialize_order (s : State) :
    (Script7.serialize s).order =
      some (((Script7.sectionsOnGrid s).filter fun el => truthy (Script7.idFor s el)).map
        fun el => some ((Script7.idFor s el).getD "")) := by
  simp [Script7.serialize, foldl_record_fst, Function.comp_def]


/-- The identifier `saveState` reads for a walked element is the identifier of
a section of the document. -/
theorem idFor_carried (s : State) (el : Node) (hel : el ∈ Script7.sectionsOnGrid s)
    (ht : truthy (Script7.idFor s el) = true) :
    ∃ k ∈ s.docPanels, (s.get k).id = some ((Script7.idFor s el).getD "") := by
  have hid := truthy_eq_some _ ht
  unfold Script7.sectionsOnGrid at hel
  rw [List.mem_filter] at hel
  cases el with
  | panel k =>
    have hk : k < s.sections.length := by
      have := hel.2
      simp at this
      exact this.1
    exact ⟨k, (mem_docPanels s k).2 ⟨List.mem_append_left _ hel.1, hk⟩, hid⟩
  | placeholder p =>
    simp only [Script7.idFor] at hid ht ⊢
    revert hid ht
    cases hp : pickedUpElement s with
    | none => intro ht _; simp [truthy] at ht
    | some k =>
      intro _ hid
      have hk : k ∈ s.docPanels := by
        unfold pickedUpElement at hp
        exact List.mem_of_find?_eq_some hp
      exact ⟨k, hk, hid⟩

theorem idFor_plain (s : State) (hp : s.PlainIds) (el : Node)
    (hel : el ∈ Script7.sectionsOnGrid s) (ht : truthy (Script7.idFor s el) = true) :
    plainId ((Script7.idFor s el).getD "") = true := by
  obtain ⟨k, hk, hid⟩ := idFor_carried s el hel ht
  have := hp k hk
  rw [hid] at this
  exact this

/-- The walk of `saveState` raises nothing when every walked identifier stands
for itself in the selector. -/
theorem walk_eq (s : State) :
    ∀ (L : List Node) (st : List String × List (String × String)),
      (∀ el ∈ L, truthy (Script7.idFor s el) = true →
        plainId ((Script7.idFor s el).getD "") = true ∧
          ∃ j, querySection s ((Script7.idFor s el).getD "") = some j) →
      Script7.walk s L st = .ok (L.foldl (Script7.record s) st)
  | [], st, _ => rfl
  | el :: L, st, h => by
    have hv : Script7.visit s st el = .ok (Script7.record s st el) := by
      by_cases ht : truthy (Script7.idFor s el) = true
      · obtain ⟨hpl, j, hj⟩ := h el (List.mem_cons_self _ _) ht
        simp [Script7.visit, Script7.record, ht, selectSection, hpl, hj]
      · simp [Script7.visit, Script7.record, ht]
    simp only [Script7.walk, hv, List.foldl_cons]
    exact walk_eq s L _ fun el' hel' => h el' (List.mem_cons_of_mem _ hel')

/-- On a page whose identifiers stand for themselves in the selector,
`saveState` raises nothing and stores the record `serialize` describes. -/
theorem saveState_eq (s : State) (hp : s.PlainIds) :
    Script7.saveState s =
      { state := { s with storage := .record (Script7.serialize s) }, error := none } := by
  unfold Script7.saveState
  rw [walk_eq s (Script7.sectionsOnGrid s) ([], []) fun el hel ht =>
    ⟨idFor_plain s hp el hel ht, originalSection_found s el hel ht⟩]
  rfl

theorem plainKeys_serialize (s : State) (hp : s.PlainIds) :
    plainKeys (Script7.serialize s).titles = true := by
  simp only [Script7.serialize, plainKeys, List.all_eq_true]
  refine foldl_record_snd s (fun e => plainId e.1 = true)
    (Script7.sectionsOnGrid s) ([], []) (by simp) ?_
  intro el hel ht
  exact idFor_plain s hp el hel ht

/-! ## The enumeration order of stored titles is immaterial -/

theorem querySection_some (s : State) (id : String) (k : Nat) (h : querySection s id = some k) :
    (s.get k).id = some id ∧ k ∈ s.docPanels := by
  unfold querySection at h
  exact ⟨by simpa using List.find?_some h, List.mem_of_find?_eq_some h⟩

theorem modify_comm (s : State) (k j : Nat) (f g : Section → Section) (h : k ≠ j) :
    (s.modify k f).modify j g = (s.modify j g).modify k f := by
  have h1 : (s.modify k f).get j = s.get j := get_modify_ne s k j f (Ne.symm h)
  have h2 : (s.modify j g).get k = s.get k := get_modify_ne s j k g h
  unfold State.modify at h1 h2 ⊢
  simp only [h1, h2]
  rw [List.set_comm _ _ _ h]

theorem restoreTitles_perm (ts ts' : List (String × String)) (s : State) (hp : ts.Perm ts')
    (hk : (ts.map Prod.fst).Nodup) : restoreTitles ts s = restoreTitles ts' s := by
  unfold restoreTitles
  apply List.Perm.foldl_eq' hp
  intro x hx y hy z
  by_cases hxy : x = y
  · subst hxy; rfl
  · have hne : x.1 ≠ y.1 := fun h => hxy (List.inj_on_of_nodup_map hk hx hy h)
    have hq : ∀ (a b : String × String) (k : Nat),
        querySection (z.modify k fun u => { u with title := a.2 }) b.1 = querySection z b.1 := by
      intro a b k
      exact querySection_congr z (z.modify k fun u => { u with title := a.2 }) rfl rfl
        (ids_modify z k (fun u => { u with title := a.2 }) (fun _ => rfl)) b.1
    cases hx1 : querySection z x.1 with
    | none =>
      cases hy1 : querySection z y.1 with
      | none => simp only [hx1, hy1]
      | some j => simp only [hx1, hy1, hq y x j]
    | some k =>
      cases hy1 : querySection z y.1 with
      | none => simp only [hx1, hy1, hq x y k]
      | some j =>
        simp only [hx1, hy1, hq x y k, hq y x j]
        have hkj : k ≠ j := by
          intro e
          subst e
          have h1 := (querySection_some z _ _ hx1).1
          have h2 := (querySection_some z _ _ hy1).1
          rw [h1] at h2
          exact hne (Option.some.inj h2)
        exact modify_comm z k j _ _ hkj

/-! ## Round trip of `saveState` and `loadState` -/

theorem find?_of_unique (f : Nat → Option String) :
    ∀ (l : List Nat) (k : Nat), (l.map f).Nodup → k ∈ l →
      l.find? (fun j => decide (f j = f k)) = some k
  | [], _, _, hk => by simp at hk
  | a :: l, k, hn, hk => by
    rw [List.map_cons, List.nodup_cons] at hn
    by_cases hak : a = k
    · subst hak
      simp
    · have hkl : k ∈ l := by
        rcases List.mem_cons.1 hk with h | h
        · exact absurd h.symm hak
        · exact h
      have hne : f a ≠ f k := by
        intro h
        exact hn.1 (h ▸ List.mem_map_of_mem f hkl)
      rw [List.find?_cons]
      simp only [hne, decide_False]
      exact find?_of_unique f l k hn.2 hkl

theorem querySection_of_valid (s : State) (hv : s.ValidIds) (k : Nat) (hk : k ∈ s.docPanels)
    (id : String) (hid : (s.get k).id = some id) : querySection s id = some k := by
  unfold querySection
  rw [← hid]
  exact find?_of_unique (fun j => (s.get j).id) s.docPanels k hv.2 hk

theorem currentSections_of_valid (s : State) (hv : s.ValidIds) (k : Nat)
    (hk : k ∈ s.docPanels) (id : String) (hid : (s.get k).id = some id) :
    currentSections s id = some k := by
  unfold currentSections
  rw [← hid]
  apply find?_of_unique (fun j => (s.get j).id) s.docPanels.reverse k
  · rw [List.map_reverse]
    exact List.nodup_reverse.2 hv.2
  · exact List.mem_reverse.2 hk

theorem State.ext_fields (s t : State) (h1 : s.sections = t.sections) (h2 : s.grid = t.grid)
    (h3 : s.body = t.body) (h4 : s.placeholder = t.placeholder) (h5 : s.overlay = t.overlay)
    (h6 : s.storage = t.storage) : s = t := by
  cases s; cases t; simp_all

theorem foldl_append_fields (res : Option String → Option Nat) :
    ∀ (order : List (Option String)) (st : State),
      let r := order.foldl
        (fun st e =>
          match res e with
          | some k => appendToGrid k st
          | none => st) st
      r.sections = st.sections ∧ r.placeholder = st.placeholder ∧ r.overlay = st.overlay ∧
        r.storage = st.storage ∧ (st.body = [] → r.body = [])
  | [], st => by simp
  | e :: order, st => by
    simp only [List.foldl_cons]
    cases hr : res e with
    | none => exact foldl_append_fields res order st
    | some k =>
      have h := foldl_append_fields res order (appendToGrid k st)
      simp only [] at h ⊢
      refine ⟨h.1, h.2.1, h.2.2.1, h.2.2.2.1, fun hb => h.2.2.2.2 ?_⟩
      simp [appendToGrid, hb, detach]

theorem restoreOrder_fields (order : List (Option String)) (s : State) :
    (restoreOrder order s).sections = s.sections ∧
    (restoreOrder order s).placeholder = s.placeholder ∧
    (restoreOrder order s).overlay = s.overlay ∧
    (restoreOrder order s).storage = s.storage ∧
    (s.body = [] → (restoreOrder order s).body = []) :=
  foldl_append_fields (resolve s) order { s with grid := [] }

theorem filterMap_map_panel (g : Node → Option Nat) :
    ∀ l : List Node, (∀ n ∈ l, ∃ k, n = .panel k ∧ g n = some k) →
      (l.filterMap g).map Node.panel = l
  | [], _ => rfl
  | n :: l, h => by
    obtain ⟨k, hn, hg⟩ := h n (List.mem_cons_self _ _)
    rw [List.filterMap_cons, hg]
    simp only [List.map_cons]
    rw [filterMap_map_panel g l (fun m hm => h m (List.mem_cons_of_mem _ hm)), hn]

/-- In a state with nothing lifted every child of the grid is an unlifted
section of the document. -/
theorem grid_of_unlifted (s : State) (hu : s.Unlifted) (n : Node) (hn : n ∈ s.grid) :
    ∃ k, n = .panel k ∧ k < s.sections.length ∧ k ∈ s.docPanels ∧
      (s.get k).pickedUp = false := by
  obtain ⟨_, _, hg, hp⟩ := hu
  have h := hg n hn
  cases n with
  | placeholder p => simp [Node.isPanelOf] at h
  | panel k =>
    have hk : k < s.sections.length := by simpa [Node.isPanelOf] using h
    refine ⟨k, rfl, hk, (mem_docPanels s k).2 ⟨List.mem_append_left _ hn, hk⟩, ?_⟩
    apply hp
    unfold State.get
    rw [List.getD_eq_getElem?_getD, List.getElem?_eq_getElem hk]
    exact List.getElem_mem _

theorem sectionsOnGrid_of_unlifted (s : State) (hu : s.Unlifted) :
    Script7.sectionsOnGrid s = s.grid := by
  unfold Script7.sectionsOnGrid
  rw [List.filter_eq_self]
  intro n hn
  obtain ⟨k, rfl, hk, _, hp⟩ := grid_of_unlifted s hu n hn
  simp [hk, hp]

/-- The order `saveState` writes when nothing is lifted and the registry is
valid: the identifiers of the grid's sections, in grid order. -/
theorem serialize_order_of_unlifted (s : State) (hu : s.Unlifted) (hv : s.ValidIds) :
    (Script7.serialize s).order =
      some (s.grid.map fun el => some ((Script7.idFor s el).getD "")) := by
  rw [serialize_order, sectionsOnGrid_of_unlifted s hu]
  congr 2
  rw [List.filter_eq_self]
  intro n hn
  obtain ⟨k, rfl, _, hk, _⟩ := grid_of_unlifted s hu n hn
  exact hv.1 k hk

theorem restoreOrder_serialize (s : State) (hwf : s.WellFormed) (hu : s.Unlifted)
    (hv : s.ValidIds) :
    restoreOrder (s.grid.map fun el => some ((Script7.idFor s el).getD "")) s = s := by
  obtain ⟨hs, hp, ho, hst, hb⟩ := restoreOrder_fields
    (s.grid.map fun el => some ((Script7.idFor s el).getD "")) s
  refine State.ext_fields _ _ hs ?_ ?_ hp ho hst
  · rw [restoreOrder_grid, List.filterMap_map]
    have hmap : (s.grid.filterMap
        (resolve s ∘ fun el => some ((Script7.idFor s el).getD ""))).map Node.panel = s.grid := by
      apply filterMap_map_panel
      intro n hn
      obtain ⟨k, rfl, _, hk, _⟩ := grid_of_unlifted s hu n hn
      refine ⟨k, rfl, ?_⟩
      have hid := truthy_eq_some _ (hv.1 k hk)
      exact currentSections_of_valid s hv k hk _ hid
    have hnd : (s.grid.filterMap
        (resolve s ∘ fun el => some ((Script7.idFor s el).getD ""))).Nodup := by
      apply List.Nodup.of_map Node.panel
      rw [hmap]
      exact (List.nodup_append.1 hwf.1).1
    rw [List.Nodup.dedup hnd, hmap]
  · rw [hb hu.1, hu.1]

/-- C1 (counterexample).  The page with the sections `a"b`, B, C is a valid
registry: the identifiers are non-empty and pairwise distinct.  `saveState` of
`script7.js` splices `a"b` into the selector, `querySelector` throws and
nothing is stored: there is no blob to load.  `saveState` of `script.js`, which
uses no selector, stores the record, and `loadState` on that record ends with
the exception of `querySelector` in the title loop.

On the page A, B, C with B lifted, a valid registry with plain identifiers,
`saveState` stores the order A, B, C and `loadState` on that record does not
leave the arrangement as it was: the grid held A, the placeholder and C, with B
relocated behind it; afterwards the placeholder is gone and B stands in the
grid. -/
theorem saveState_quoted_id_raises :
    ((page quoted .absent).WellFormed ∧ (page quoted .absent).Unlifted ∧
      (page quoted .absent).ValidIds) ∧
    Script7.saveState (page quoted .absent)
      = { state := page quoted .absent, error := some .selector } ∧
    (Script.saveState (page quoted .absent)).storage
      = .record { order := some [some "a\"b", some "B", some "C"],
                  titles := some [("a\"b", "Alpha"), ("B", "Beta"), ("C", "Gamma")] } ∧
    (Script.loadState (Script.saveState (page quoted .absent))).error = some .selector ∧
    ((Script7.togglePickup (page abc .absent) 1).ValidIds ∧
      (Script7.togglePickup (page abc .absent) 1).PlainIds ∧
      (Script7.saveState (Script7.togglePickup (page abc .absent) 1)).error = none ∧
      (Script7.togglePickup (page abc .absent) 1).grid
        = [.panel 0, .placeholder 0, .panel 2] ∧
      (Script7.togglePickup (page abc .absent) 1).body = [.panel 1] ∧
      (Script7.loadState
        (Script7.saveState (Script7.togglePickup (page abc .absent) 1)).state).state.grid
        = [.panel 0, .panel 1, .panel 2] ∧
      (Script7.loadState
        (Script7.saveState (Script7.togglePickup (page abc .absent) 1)).state).state.body
        = []) := by
  refine ⟨⟨by unfold State.WellFormed; decide, by unfold State.Unlifted; decide,
    by unfold State.ValidIds; decide⟩, by decide, by decide, by decide,
    ⟨by unfold State.ValidIds; decide, by unfold State.PlainIds; decide, by decide, by decide,
      by decide, by decide, by decide⟩⟩

/-- C1 (amended).  For every valid registry (every section of the document has
a non-empty identifier of its own) whose identifiers stand for themselves in
the selector (no double quote, backslash, line feed, carriage return, form feed
or NUL), on a well-formed page with nothing lifted (every section in the grid,
no placeholder), the state `loadState` runs in: `saveState` raises nothing and stores a record, and `loadState` on the
record `saveState` has just written raises no error and leaves the page as it
was: the grid order and every title are unchanged. -/
theorem loadState_saveState (s : State) (hwf : s.WellFormed) (hu : s.Unlifted)
    (hv : s.ValidIds) (hp : s.PlainIds) :
    ((Script7.saveState s).error = none ∧
      ∃ v, (Script7.saveState s).state = { s with storage := .record v }) ∧
    Script7.loadState (Script7.saveState s).state
      = { state := (Script7.saveState s).state, error := none } ∧
    (Script7.loadState (Script7.saveState s).state).state.grid = s.grid ∧
    (Script7.loadState (Script7.saveState s).state).state.sections = s.sections := by
  have hrestore : restore (Script7.serialize s) s = s := by
    have ht := restoreTitles_serialize s
    have ho := serialize_order_of_unlifted s hu hv
    unfold restore
    rw [ho]
    cases hts : (Script7.serialize s).titles with
    | none => simp [Script7.serialize] at hts
    | some ts =>
      simp only [ht ts hts]
      cases hg : s.grid with
      | nil => rfl
      | cons n l =>
        have := restoreOrder_serialize s hwf hu hv
        rw [hg] at this
        exact this
  have hsave := saveState_eq s hp
  have hmain : Script7.loadState { s with storage := .record (Script7.serialize s) }
      = { state := { s with storage := .record (Script7.serialize s) }, error := none } := by
    rw [(loadState_record { s with storage := .record (Script7.serialize s) }
      (Script7.serialize s) rfl (plainKeys_serialize s hp)).1, restore_storage, hrestore]
  rw [hsave]
  dsimp only
  rw [hmain]
  exact ⟨⟨rfl, _, rfl⟩, rfl, rfl, rfl⟩

/-- Witness for C1: the page A, B, C. -/
theorem loadState_saveState_witness :
    (page abc .absent).WellFormed ∧ (page abc .absent).Unlifted ∧ (page abc .absent).ValidIds ∧
    (page abc .absent).PlainIds ∧
    Script7.loadState (Script7.saveState (page abc .absent)).state
      = { state := (Script7.saveState (page abc .absent)).state, error := none } :=
  ⟨by unfold State.WellFormed; decide, by unfold State.Unlifted; decide,
    by unfold State.ValidIds; decide, by unfold State.PlainIds; decide,
    (loadState_saveState (page abc .absent) (by unfold State.WellFormed; decide)
      (by unfold State.Unlifted; decide) (by unfold State.ValidIds; decide)
      (by unfold State.PlainIds; decide)).2.1⟩

/-! ## Lifting a section and putting it back -/

theorem detach_of_not_mem (a : Node) (l : List Node) (h : a ∉ l) : detach a l = l := by
  unfold detach
  rw [List.filter_eq_self]
  intro n hn
  have : n ≠ a := fun e => h (e ▸ hn)
  simpa using this

theorem replaceNode_of_not_mem (a new : Node) (l : List Node) (h : a ∉ l) :
    replaceNode a new l = l := by
  unfold replaceNode
  conv_rhs => rw [← List.map_id l]
  apply List.map_congr_left
  intro n hn
  have : n ≠ a := fun e => h (e ▸ hn)
  simp [this]

theorem detach_insertAfter (a new : Node) (hne : new ≠ a) :
    ∀ l : List Node, l.Nodup → a ∈ l → detach a (insertAfter a new l) = replaceNode a new l
  | [], _, h => by simp at h
  | n :: rest, hnd, h => by
    rw [List.nodup_cons] at hnd
    by_cases hn : n = a
    · subst hn
      have h1 := detach_of_not_mem n rest hnd.1
      have h2 := replaceNode_of_not_mem n new rest hnd.1
      simp only [insertAfter, if_true]
      unfold detach at h1 ⊢
      unfold replaceNode at h2 ⊢
      simp [List.filter_cons, hne, h1, h2]
    · have hmem : a ∈ rest := by
        rcases List.mem_cons.1 h with e | e
        · exact absurd e.symm hn
        · exact e
      have ih := detach_insertAfter a new hne rest hnd.2 hmem
      simp only [insertAfter, hn, if_false]
      unfold detach at ih ⊢
      unfold replaceNode at ih ⊢
      simp [List.filter_cons, hn, ih]

theorem mem_replaceNode_self (a new : Node) (l : List Node) (h : a ∈ l) :
    new ∈ replaceNode a new l := by
  unfold replaceNode
  rw [List.mem_map]
  exact ⟨a, h, by simp⟩

theorem not_mem_replaceNode (a new : Node) (hne : new ≠ a) (l : List Node) :
    a ∉ replaceNode a new l := by
  unfold replaceNode
  rw [List.mem_map]
  rintro ⟨n, _, hn⟩
  by_cases h : n = a
  · rw [if_pos h] at hn
    exact hne hn
  · rw [if_neg h] at hn
    exact h hn

theorem replaceNode_inverse (a new : Node) (l : List Node) (h : new ∉ l) :
    replaceNode new a (replaceNode a new l) = l := by
  unfold replaceNode
  rw [List.map_map]
  conv_rhs => rw [← List.map_id l]
  apply List.map_congr_left
  intro n hn
  have hnew : n ≠ new := fun e => h (e ▸ hn)
  by_cases hna : n = a
  · simp [hna]
  · simp [hna, hnew]

/-- The name of the new placeholder is not in use. -/
theorem fresh_not_mem_of_unlifted (s : State) (hu : s.Unlifted) (p : Nat) :
    Node.placeholder p ∉ s.grid := by
  intro h
  obtain ⟨k, hk, _⟩ := grid_of_unlifted s hu _ h
  cases hk

/-- The page right after a section of the grid is lifted, nothing having been
lifted before: the placeholder stands in the section's place and the section
is last in the grid (`script2.js`) or behind it in the body (`script7.js`). -/
theorem lift_eq (t : Target) (s : State) (k : Nat) (hwf : s.WellFormed) (hu : s.Unlifted)
    (hk : Node.panel k ∈ s.grid) :
    togglePickupTo t s k =
      { sections := s.sections.set k { s.get k with pickedUp := true, draggable := false }
        grid :=
          match t with
          | .grid => replaceNode (.panel k) (.placeholder (freshPlaceholder s)) s.grid ++ [.panel k]
          | .body => replaceNode (.panel k) (.placeholder (freshPlaceholder s)) s.grid
        body :=
          match t with
          | .grid => []
          | .body => [.panel k]
        placeholder := some (freshPlaceholder s)
        overlay := true
        storage := s.storage } := by
  have hkl : k < s.sections.length := by
    obtain ⟨j, hj, hjl, _⟩ := grid_of_unlifted s hu _ hk
    cases hj
    exact hjl
  have hp : (s.get k).pickedUp = false := by
    obtain ⟨j, hj, _, _, hjp⟩ := grid_of_unlifted s hu _ hk
    cases hj
    exact hjp
  have hnd : s.grid.Nodup := (List.nodup_append.1 hwf.1).1
  have hd := detach_insertAfter (.panel k) (.placeholder (freshPlaceholder s)) (by simp)
    s.grid hnd hk
  apply State.ext_fields
  · rw [sections_togglePickupTo t s k hkl]
    simp [hp]
  · unfold togglePickupTo
    rw [if_pos hkl]
    simp only [hp]
    cases t <;> simp [State.modify, appendToGrid, appendToBody, hd]
  · unfold togglePickupTo
    rw [if_pos hkl]
    simp only [hp]
    cases t <;> simp [State.modify, appendToGrid, appendToBody, hu.1, insertAfter, detach]
  · unfold togglePickupTo
    rw [if_pos hkl]
    simp only [hp]
    cases t <;> simp [State.modify, appendToGrid, appendToBody]
  · unfold togglePickupTo
    rw [if_pos hkl]
    simp only [hp]
    cases t <;> simp [State.modify, appendToGrid, appendToBody]
  · unfold togglePickupTo
    rw [if_pos hkl]
    simp only [hp]
    cases t <;> simp [State.modify, appendToGrid, appendToBody]

/-- The tree after a lifted section is put back while its placeholder is in
the document. -/
theorem unlift_fields (t : Target) (s : State) (k p : Nat)
    (hp : (s.get k).pickedUp = true) (hph : s.placeholder = some p)
    (hmem : Node.placeholder p ∈ s.grid ++ s.body) :
    (togglePickupTo t s k).grid
      = replaceNode (.placeholder p) (.panel k) (detach (.panel k) s.grid) ∧
    (togglePickupTo t s k).body
      = replaceNode (.placeholder p) (.panel k) (detach (.panel k) s.body) ∧
    (togglePickupTo t s k).placeholder = none ∧
    (togglePickupTo t s k).overlay = false ∧
    (togglePickupTo t s k).storage = s.storage := by
  have hk := lt_of_pickedUp s k hp
  unfold togglePickupTo
  rw [if_pos hk, if_pos hp]
  have hmem' : Node.placeholder p ∈ s.grid ∨ Node.placeholder p ∈ s.body :=
    List.mem_append.1 hmem
  simp [State.modify, replaceWith, hph, hmem']

/-- Lifting a section of the grid and putting it back restores the page, with
the section's `draggable` attribute set. -/
theorem unlift_lift (t : Target) (s : State) (k : Nat) (hwf : s.WellFormed) (hu : s.Unlifted)
    (hk : Node.panel k ∈ s.grid) :
    togglePickupTo t (togglePickupTo t s k) k =
      { s with
        sections := s.sections.set k { s.get k with draggable := true }
        overlay := false } := by
  have hkl : k < s.sections.length := by
    obtain ⟨j, hj, hjl, _⟩ := grid_of_unlifted s hu _ hk
    cases hj
    exact hjl
  have hpk : (s.get k).pickedUp = false := by
    obtain ⟨j, hj, _, _, hjp⟩ := grid_of_unlifted s hu _ hk
    cases hj
    exact hjp
  have hfresh := fresh_not_mem_of_unlifted s hu (freshPlaceholder s)
  have hl := lift_eq t s k hwf hu hk
  generalize togglePickupTo t s k = s1 at hl
  have hsec : s1.sections = s.sections.set k { s.get k with pickedUp := true, draggable := false } := by
    rw [hl]
  have hget := get_of_set s s1 k _ hkl hsec k
  rw [if_pos rfl] at hget
  have hp1 : (s1.get k).pickedUp = true := by rw [hget]
  have hph1 : s1.placeholder = some (freshPlaceholder s) := by rw [hl]
  have hk1 : k < s1.sections.length := by rw [hsec]; simpa using hkl
  have hne : Node.placeholder (freshPlaceholder s) ≠ Node.panel k := by simp
  have hrep : Node.placeholder (freshPlaceholder s)
      ∈ replaceNode (.panel k) (.placeholder (freshPlaceholder s)) s.grid :=
    mem_replaceNode_self _ _ _ hk
  have hnot : Node.panel k ∉ replaceNode (.panel k) (.placeholder (freshPlaceholder s)) s.grid :=
    not_mem_replaceNode _ _ hne _
  have hgrid1 : detach (.panel k) s1.grid
      = replaceNode (.panel k) (.placeholder (freshPlaceholder s)) s.grid := by
    rw [hl]
    cases t
    · simp only []
      unfold detach
      rw [List.filter_append]
      have := detach_of_not_mem _ _ hnot
      unfold detach at this
      rw [this]
      simp
    · exact detach_of_not_mem _ _ hnot
  have hbody1 : detach (.panel k) s1.body = [] := by
    rw [hl]
    cases t <;> simp [detach]
  have hmem1 : Node.placeholder (freshPlaceholder s) ∈ s1.grid ++ s1.body := by
    rw [hl]
    cases t <;> simp [hrep]
  obtain ⟨hg, hb, hph, hov, hst⟩ := unlift_fields t s1 k _ hp1 hph1 hmem1
  apply State.ext_fields
  · rw [sections_togglePickupTo t s1 k hk1, if_pos hp1, hget, hsec]
    simp [hpk]
  · rw [hg, hgrid1]
    exact replaceNode_inverse _ _ _ hfresh
  · rw [hb, hbody1]
    simp [replaceNode, hu.1]
  · rw [hph]
    exact hu.2.1.symm
  · exact hov
  · rw [hst, hl]

/-- C7.  For every well-formed page with nothing lifted and every section P
of the grid, `togglePickup(P)` twice in succession leaves every child of the
grid, P included, at its original index, leaves no placeholder in the grid or
behind it, and clears the `placeholder` variable; of the sections only P's
`draggable` attribute may differ (it is now `true`).  Holds for both
relocation targets (`script2.js` and `script7.js`). -/
theorem togglePickup_twice (t : Target) (s : State) (k : Nat) (hwf : s.WellFormed)
    (hu : s.Unlifted) (hk : Node.panel k ∈ s.grid) :
    (togglePickupTo t (togglePickupTo t s k) k).grid = s.grid ∧
    (∀ p, Node.placeholder p ∉ (togglePickupTo t (togglePickupTo t s k) k).grid) ∧
    (togglePickupTo t (togglePickupTo t s k) k).body = [] ∧
    (togglePickupTo t (togglePickupTo t s k) k).placeholder = none ∧
    (togglePickupTo t (togglePickupTo t s k) k).sections
      = s.sections.set k { s.get k with draggable := true } ∧
    Node.placeholder (freshPlaceholder s) ∈ (togglePickupTo t s k).grid ∧
    (togglePickupTo t s k).placeholder = some (freshPlaceholder s) := by
  rw [unlift_lift t s k hwf hu hk]
  refine ⟨rfl, fun p => fresh_not_mem_of_unlifted s hu p, hu.1, hu.2.1, rfl, ?_, ?_⟩
  · rw [lift_eq t s k hwf hu hk]
    cases t <;> simp [mem_replaceNode_self _ _ _ hk]
  · rw [lift_eq t s k hwf hu hk]

/-- Witness for C7: lifting B on the page A, B, C and putting it back. -/
theorem togglePickup_twice_witness :
    (Script7.togglePickup (Script7.togglePickup (page abc .absent) 1) 1).grid
      = [.panel 0, .panel 1, .panel 2] :=
  (togglePickup_twice .body (page abc .absent) 1 (by unfold State.WellFormed; decide)
    (by unfold State.Unlifted; decide) (by decide)).1

/-! ## What `saveState` writes while a section is lifted -/

theorem panelsOf_append (s : State) (l l' : List Node) :
    panelsOf s (l ++ l') = panelsOf s l ++ panelsOf s l' := by
  simp [panelsOf, List.filterMap_append]

theorem panelsOf_replaceNode (s : State) (k p : Nat) :
    ∀ l : List Node,
      panelsOf s (replaceNode (.panel k) (.placeholder p) l)
        = (panelsOf s l).filter fun j => j != k
  | [] => rfl
  | n :: l => by
    have ih := panelsOf_replaceNode s k p l
    unfold replaceNode panelsOf at ih ⊢
    cases n with
    | placeholder q => simpa using ih
    | panel j =>
      by_cases hj : j = k
      · subst hj
        by_cases hl : j < s.sections.length
        · simp [hl, List.filter_cons]
          simpa using ih
        · simp [hl]
          simpa using ih
      · by_cases hl : j < s.sections.length
        · simp [hj, hl, List.filter_cons]
          simpa using ih
        · simp [hj, hl]
          simpa using ih

theorem perm_filter_ne_append (k : Nat) :
    ∀ l : List Nat, l.Nodup → k ∈ l → ((l.filter fun j => j != k) ++ [k]).Perm l
  | [], _, h => by simp at h
  | a :: l, hnd, h => by
    rw [List.nodup_cons] at hnd
    by_cases ha : a = k
    · subst ha
      have : (l.filter fun j => j != a) = l := by
        rw [List.filter_eq_self]
        intro j hj
        have : j ≠ a := fun e => hnd.1 (e ▸ hj)
        simpa using this
      simp only [List.filter_cons, bne_self_eq_false, Bool.false_eq_true, if_false, this]
      exact List.perm_append_singleton a l
    · have hk : k ∈ l := by
        rcases List.mem_cons.1 h with e | e
        · exact absurd e.symm ha
        · exact e
      have ih := perm_filter_ne_append k l hnd.2 hk
      have hak : (a != k) = true := by simpa using ha
      simp only [List.filter_cons, hak, if_true, List.cons_append]
      exact List.Perm.cons a ih

theorem docPanels_of_unlifted (s : State) (hu : s.Unlifted) :
    s.docPanels = panelsOf s s.grid := by
  unfold State.docPanels
  rw [hu.1, List.append_nil]

theorem nodup_docPanels (s : State) (hwf : s.WellFormed) : s.docPanels.Nodup := by
  unfold State.docPanels panelsOf
  apply List.Nodup.filterMap _ hwf.1
  intro a a' b hb hb'
  cases a with
  | placeholder p => simp at hb
  | panel j =>
    cases a' with
    | placeholder p => simp at hb'
    | panel j' =>
      by_cases h1 : j < s.sections.length
      · by_cases h2 : j' < s.sections.length
        · simp [h1] at hb
          simp [h2] at hb'
          rw [hb, hb']
        · simp [h2] at hb'
      · simp [h1] at hb

/-- The sections of the document after a lift: the lifted one has moved to
the end. -/
theorem docPanels_lift (t : Target) (s : State) (k : Nat) (hwf : s.WellFormed)
    (hu : s.Unlifted) (hk : Node.panel k ∈ s.grid) :
    (togglePickupTo t s k).docPanels = (s.docPanels.filter fun j => j != k) ++ [k] := by
  have hkl : k < s.sections.length := by
    obtain ⟨j, hj, hjl, _⟩ := grid_of_unlifted s hu _ hk
    cases hj
    exact hjl
  have hl := lift_eq t s k hwf hu hk
  have hlen : (togglePickupTo t s k).sections.length = s.sections.length := by
    rw [hl]; simp
  have htree : (togglePickupTo t s k).grid ++ (togglePickupTo t s k).body
      = replaceNode (.panel k) (.placeholder (freshPlaceholder s)) s.grid ++ [.panel k] := by
    rw [hl]
    cases t <;> simp
  unfold State.docPanels
  rw [htree, panelsOf_congr s _ hlen, panelsOf_append, panelsOf_replaceNode, hu.1,
    List.append_nil]
  simp [panelsOf, hkl]

theorem get_lift (t : Target) (s : State) (k : Nat) (hu : s.Unlifted)
    (hk : Node.panel k ∈ s.grid) (j : Nat) :
    (togglePickupTo t s k).get j =
      if j = k then { s.get k with pickedUp := true, draggable := false } else s.get j := by
  obtain ⟨i, hi, hil, _, hip⟩ := grid_of_unlifted s hu _ hk
  cases hi
  rw [get_togglePickupTo t s k hil j]
  simp [hip]

theorem id_lift (t : Target) (s : State) (k : Nat) (hu : s.Unlifted)
    (hk : Node.panel k ∈ s.grid) (j : Nat) :
    ((togglePickupTo t s k).get j).id = (s.get j).id := by
  rw [get_lift t s k hu hk]
  by_cases h : j = k
  · subst h; simp
  · simp [h]

theorem title_lift (t : Target) (s : State) (k : Nat) (hu : s.Unlifted)
    (hk : Node.panel k ∈ s.grid) (j : Nat) :
    ((togglePickupTo t s k).get j).title = (s.get j).title := by
  rw [get_lift t s k hu hk]
  by_cases h : j = k
  · subst h; simp
  · simp [h]

theorem mem_docPanels_lift (t : Target) (s : State) (k : Nat) (hwf : s.WellFormed)
    (hu : s.Unlifted) (hk : Node.panel k ∈ s.grid) (j : Nat) :
    j ∈ (togglePickupTo t s k).docPanels ↔ j ∈ s.docPanels :=
  by
    rw [docPanels_lift t s k hwf hu hk]
    have hkd : k ∈ s.docPanels := by
      obtain ⟨i, hi, _, hid, _⟩ := grid_of_unlifted s hu _ hk
      cases hi
      exact hid
    exact (perm_filter_ne_append k s.docPanels (nodup_docPanels s hwf) hkd).mem_iff

theorem validIds_lift (t : Target) (s : State) (k : Nat) (hwf : s.WellFormed)
    (hu : s.Unlifted) (hv : s.ValidIds) (hk : Node.panel k ∈ s.grid) :
    (togglePickupTo t s k).ValidIds := by
  have hkd : k ∈ s.docPanels := by
    obtain ⟨i, hi, _, hid, _⟩ := grid_of_unlifted s hu _ hk
    cases hi
    exact hid
  have hperm := perm_filter_ne_append k s.docPanels (nodup_docPanels s hwf) hkd
  constructor
  · intro j hj
    rw [id_lift t s k hu hk]
    exact hv.1 j ((mem_docPanels_lift t s k hwf hu hk j).1 hj)
  · have hfun : (fun j => ((togglePickupTo t s k).get j).id) = fun j => (s.get j).id := by
      funext j
      exact id_lift t s k hu hk j
    rw [hfun, docPanels_lift t s k hwf hu hk]
    exact (List.Perm.nodup_iff (hperm.map _)).2 hv.2

theorem pickedUpElement_lift (t : Target) (s : State) (k : Nat) (hwf : s.WellFormed)
    (hu : s.Unlifted) (hk : Node.panel k ∈ s.grid) :
    pickedUpElement (togglePickupTo t s k) = some k := by
  unfold pickedUpElement
  rw [docPanels_lift t s k hwf hu hk, List.find?_append]
  have h1 : (s.docPanels.filter fun j => j != k).find?
      (fun j => ((togglePickupTo t s k).get j).pickedUp) = none := by
    rw [List.find?_eq_none]
    intro j hj
    rw [List.mem_filter] at hj
    have hjk : j ≠ k := by simpa using hj.2
    rw [get_lift t s k hu hk, if_neg hjk]
    have hjn := ((mem_docPanels s j).1 hj.1).1
    rw [hu.1, List.append_nil] at hjn
    obtain ⟨i, hi, _, _, hip⟩ := grid_of_unlifted s hu _ hjn
    cases hi
    simp [hip]
  rw [h1]
  simp [get_lift t s k hu hk]

theorem sectionsOnGrid_lift (t : Target) (s : State) (k : Nat) (hwf : s.WellFormed)
    (hu : s.Unlifted) (hk : Node.panel k ∈ s.grid) :
    Script7.sectionsOnGrid (togglePickupTo t s k)
      = s.grid.map fun n => if n = .panel k then .placeholder (freshPlaceholder s) else n := by
  have hkl : k < s.sections.length := by
    obtain ⟨j, hj, hjl, _⟩ := grid_of_unlifted s hu _ hk
    cases hj
    exact hjl
  have hl := lift_eq t s k hwf hu hk
  have hlen : (togglePickupTo t s k).sections.length = s.sections.length := by
    rw [hl]; simp
  have hkeep : (replaceNode (.panel k) (.placeholder (freshPlaceholder s)) s.grid).filter
      (fun n =>
        match n with
        | .panel j => decide (j < (togglePickupTo t s k).sections.length)
            && !((togglePickupTo t s k).get j).pickedUp
        | .placeholder _ => true)
      = replaceNode (.panel k) (.placeholder (freshPlaceholder s)) s.grid := by
    rw [List.filter_eq_self]
    intro n hn
    unfold replaceNode at hn
    rw [List.mem_map] at hn
    obtain ⟨m, hm, hmn⟩ := hn
    obtain ⟨i, hi, hil, _, hip⟩ := grid_of_unlifted s hu _ hm
    subst hi
    by_cases hik : i = k
    · subst hik
      simp at hmn
      subst hmn
      rfl
    · have : Node.panel i ≠ Node.panel k := by simpa using hik
      rw [if_neg this] at hmn
      subst hmn
      simp [hlen, hil, get_lift t s k hu hk, hik, hip]
  have hgrid : (togglePickupTo t s k).grid
      = replaceNode (.panel k) (.placeholder (freshPlaceholder s)) s.grid
        ++ (match t with
            | .grid => [.panel k]
            | .body => []) := by
    rw [hl]
    cases t <;> simp
  unfold Script7.sectionsOnGrid
  rw [hgrid, List.filter_append, hkeep]
  cases t
  · simp [get_lift Target.grid s k hu hk, replaceNode]
  · simp [replaceNode]

theorem foldl_record_map (s s' : State) (r : Node → Node) :
    ∀ (L : List Node) (st : List String × List (String × String)),
      (∀ el ∈ L, Script7.idFor s' (r el) = Script7.idFor s el) →
      (∀ el ∈ L, truthy (Script7.idFor s el) = true →
        ((querySection s' ((Script7.idFor s el).getD "")).map fun o => (s'.get o).title)
          = (querySection s ((Script7.idFor s el).getD "")).map fun o => (s.get o).title) →
      (L.map r).foldl (Script7.record s') st = L.foldl (Script7.record s) st
  | [], _, _, _ => rfl
  | el :: L, st, h1, h2 => by
    simp only [List.map_cons, List.foldl_cons]
    have hstep : Script7.record s' st (r el) = Script7.record s st el := by
      unfold Script7.record
      rw [h1 el (List.mem_cons_self _ _)]
      by_cases ht : truthy (Script7.idFor s el) = true
      · simp only [ht, if_true]
        rw [h2 el (List.mem_cons_self _ _) ht]
      · have ht' : truthy (Script7.idFor s el) = false := by simpa using ht
        simp [ht']
    rw [hstep]
    exact foldl_record_map s s' r L _ (fun e he => h1 e (List.mem_cons_of_mem _ he))
      (fun e he => h2 e (List.mem_cons_of_mem _ he))

/-- What the walk of `saveState` reads at the elements of the grid is the
same right after a lift as right before it: the placeholder gives the
identifier of the lifted section, and every identifier selects a section of
the same title. -/
theorem lift_reads (t : Target) (s : State) (k : Nat) (hwf : s.WellFormed)
    (hu : s.Unlifted) (hv : s.ValidIds) (hk : Node.panel k ∈ s.grid) :
    (∀ el ∈ s.grid,
      Script7.idFor (togglePickupTo t s k)
        (if el = .panel k then .placeholder (freshPlaceholder s) else el) = Script7.idFor s el) ∧
    ∀ el ∈ s.grid, truthy (Script7.idFor s el) = true →
      ((querySection (togglePickupTo t s k) ((Script7.idFor s el).getD "")).map
          fun o => ((togglePickupTo t s k).get o).title)
        = (querySection s ((Script7.idFor s el).getD "")).map fun o => (s.get o).title := by
  have hv1 := validIds_lift t s k hwf hu hv hk
  constructor
  · intro el hel
    obtain ⟨i, hi, _, _, _⟩ := grid_of_unlifted s hu _ hel
    subst hi
    by_cases hik : i = k
    · subst hik
      simp [Script7.idFor, pickedUpElement_lift t s i hwf hu hk, id_lift t s i hu hk]
    · have : Node.panel i ≠ Node.panel k := by simpa using hik
      rw [if_neg this]
      simp [Script7.idFor, id_lift t s k hu hk]
  · intro el hel ht
    obtain ⟨i, hi, _, hid, _⟩ := grid_of_unlifted s hu _ hel
    subst hi
    have hidi := truthy_eq_some _ ht
    simp only [Script7.idFor] at hidi ⊢
    rw [querySection_of_valid s hv i hid _ hidi,
      querySection_of_valid _ hv1 i ((mem_docPanels_lift t s k hwf hu hk i).2 hid) _
        ((id_lift t s k hu hk i).trans hidi)]
    simp [title_lift t s k hu hk]

/-- The record `saveState` writes is the same right after a lift as right
before it. -/
theorem serialize_lift (t : Target) (s : State) (k : Nat) (hwf : s.WellFormed)
    (hu : s.Unlifted) (hv : s.ValidIds) (hk : Node.panel k ∈ s.grid) :
    Script7.serialize (togglePickupTo t s k) = Script7.serialize s := by
  obtain ⟨h1, h2⟩ := lift_reads t s k hwf hu hv hk
  have hfold : (Script7.sectionsOnGrid (togglePickupTo t s k)).foldl
      (Script7.record (togglePickupTo t s k)) ([], [])
      = (Script7.sectionsOnGrid s).foldl (Script7.record s) ([], []) := by
    rw [sectionsOnGrid_lift t s k hwf hu hk, sectionsOnGrid_of_unlifted s hu]
    exact foldl_record_map s _ _ s.grid _ h1 h2
  unfold Script7.serialize
  simp only [hfold]

theorem plainIds_lift (t : Target) (s : State) (k : Nat) (hwf : s.WellFormed)
    (hu : s.Unlifted) (hk : Node.panel k ∈ s.grid) (hp : s.PlainIds) :
    (togglePickupTo t s k).PlainIds := by
  intro i hi
  rw [id_lift t s k hu hk i]
  exact hp i ((mem_docPanels_lift t s k hwf hu hk i).1 hi)

/-- With identifiers that stand for themselves, `saveState` right after a lift
stores the record of the page before the lift. -/
theorem saveState_lift (t : Target) (s : State) (k : Nat) (hwf : s.WellFormed)
    (hu : s.Unlifted) (hv : s.ValidIds) (hk : Node.panel k ∈ s.grid) (hp : s.PlainIds) :
    Script7.saveState (togglePickupTo t s k)
      = { state := { togglePickupTo t s k with storage := .record (Script7.serialize s) },
          error := none } := by
  rw [saveState_eq _ (plainIds_lift t s k hwf hu hk hp), serialize_lift t s k hwf hu hv hk]

theorem serialize_eq_of_order (s : State) (o : List (Option String))
    (h : (Script7.serialize s).order = some o) :
    ∃ ts, Script7.serialize s = { order := some o, titles := some ts } := by
  refine ⟨((Script7.sectionsOnGrid s).foldl (Script7.record s) ([], [])).2, ?_⟩
  have : Script7.serialize s
      = { order := (Script7.serialize s).order,
          titles := some ((Script7.sectionsOnGrid s).foldl (Script7.record s) ([], [])).2 } := rfl
  rw [this, h]

/-- C8 (counterexample).  On the valid registry `a"b`, B, C, after
`togglePickup` of B, `saveState` ends with the exception of `querySelector` at
`a"b` and stores nothing: it produces no order in which the lifted section's
identifier could stand. -/
theorem saveState_after_lift_raises :
    ((page quoted .absent).WellFormed ∧ (page quoted .absent).Unlifted ∧
      (page quoted .absent).ValidIds) ∧
    (Script7.saveState (Script7.togglePickup (page quoted .absent) 1)).error = some .selector ∧
    (Script7.saveState (Script7.togglePickup (page quoted .absent) 1)).state.storage = .absent ∧
    (Script7.saveState (Script2.togglePickup (page quoted .absent) 1)).error = some .selector ∧
    (Script7.saveState (Script2.togglePickup (page quoted .absent) 1)).state.storage = .absent := by
  refine ⟨⟨by unfold State.WellFormed; decide, by unfold State.Unlifted; decide,
    by unfold State.ValidIds; decide⟩, by decide, by decide, by decide, by decide⟩

/-- C8 (amended).  For every well-formed page with nothing lifted whose
sections have distinct non-empty identifiers that stand for themselves in the
selector (no double quote, backslash, line feed, carriage return, form feed or
NUL), and every section P of the grid: `saveState` raises nothing, before the
lift and right after `togglePickup(P)`, and the order and titles it writes
right after the lift equal those it writes right before: the order is the
identifiers of the grid before the lift, P's identifier at the index of its
placeholder, not at the end where P was relocated.  Holds for both relocation
targets (`script2.js` and `script7.js`). -/
theorem saveState_after_lift (t : Target) (s : State) (k : Nat) (hwf : s.WellFormed)
    (hu : s.Unlifted) (hv : s.ValidIds) (hp : s.PlainIds) (hk : Node.panel k ∈ s.grid) :
    ((Script7.saveState (togglePickupTo t s k)).error = none ∧
      (Script7.saveState s).error = none) ∧
    (Script7.saveState (togglePickupTo t s k)).state.storage
      = (Script7.saveState s).state.storage ∧
    ∃ ts, (Script7.saveState (togglePickupTo t s k)).state.storage
      = .record { order := some (s.grid.map fun el => some ((Script7.idFor s el).getD "")),
                  titles := some ts } := by
  rw [saveState_lift t s k hwf hu hv hk hp, saveState_eq s hp]
  obtain ⟨ts, hts⟩ := serialize_eq_of_order s _ (serialize_order_of_unlifted s hu hv)
  exact ⟨⟨rfl, rfl⟩, rfl, ts, by rw [hts]⟩

/-- Witness for C8: lifting B on the page A, B, C. -/
theorem saveState_after_lift_witness :
    (Script7.saveState (Script7.togglePickup (page abc .absent) 1)).state.storage
      = (Script7.saveState (page abc .absent)).state.storage ∧
    (Script7.saveState (Script2.togglePickup (page abc .absent) 1)).state.storage
      = (Script7.saveState (page abc .absent)).state.storage :=
  ⟨(saveState_after_lift .body (page abc .absent) 1 (by unfold State.WellFormed; decide)
      (by unfold State.Unlifted; decide) (by unfold State.ValidIds; decide)
      (by unfold State.PlainIds; decide) (by decide)).2.1,
    (saveState_after_lift .grid (page abc .absent) 1 (by unfold State.WellFormed; decide)
      (by unfold State.Unlifted; decide) (by unfold State.ValidIds; decide)
      (by unfold State.PlainIds; decide) (by decide)).2.1⟩

/-! ## Integrity of the written order -/

theorem foldl_script_record_fst (s : State) :
    ∀ (L : List Nat) (st : List (Option String) × List (String × String)),
      (L.foldl (Script.record s) st).1 = st.1 ++ L.map fun k => (s.get k).id
  | [], st => by simp
  | k :: L, st => by
    simp only [List.foldl_cons]
    rw [foldl_script_record_fst s L]
    simp [Script.record]

theorem script_serialize_order (s : State) :
    (Script.serialize s).order = some (s.docPanels.map fun k => (s.get k).id) := by
  simp [Script.serialize, foldl_script_record_fst]

theorem grid_eq_map_docPanels (s : State) (hu : s.Unlifted) :
    s.grid = s.docPanels.map Node.panel := by
  rw [docPanels_of_unlifted s hu]
  unfold panelsOf
  symm
  apply filterMap_map_panel
  intro n hn
  obtain ⟨k, hk, hkl, _, _⟩ := grid_of_unlifted s hu n hn
  subst hk
  exact ⟨k, rfl, by simp [hkl]⟩

/-- With nothing lifted and a valid registry the written order lists the
identifiers of the document's sections. -/
theorem serialize_order_eq_ids (s : State) (hu : s.Unlifted) (hv : s.ValidIds) :
    (Script7.serialize s).order = some (s.docPanels.map fun k => (s.get k).id) := by
  rw [serialize_order_of_unlifted s hu hv]
  congr 1
  conv_lhs => rw [grid_eq_map_docPanels s hu]
  rw [List.map_map]
  apply List.map_congr_left
  intro k hk
  exact (truthy_eq_some _ (hv.1 k hk)).symm

theorem nodup_filterMap_on {α β : Type} (f : α → Option β) :
    ∀ l : List α, (∀ a ∈ l, ∀ a' ∈ l, ∀ b, f a = some b → f a' = some b → a = a') →
      l.Nodup → (l.filterMap f).Nodup
  | [], _, _ => by simp
  | a :: l, h, hnd => by
    rw [List.nodup_cons] at hnd
    have ih := nodup_filterMap_on f l
      (fun x hx x' hx' b hb hb' =>
        h x (List.mem_cons_of_mem _ hx) x' (List.mem_cons_of_mem _ hx') b hb hb') hnd.2
    cases hfa : f a with
    | none => rw [List.filterMap_cons_none hfa]; exact ih
    | some b =>
      rw [List.filterMap_cons_some hfa, List.nodup_cons]
      refine ⟨?_, ih⟩
      intro hb
      obtain ⟨a', ha', hfa'⟩ := List.mem_filterMap.1 hb
      have := h a (List.mem_cons_self _ _) a' (List.mem_cons_of_mem _ ha') b hfa hfa'
      exact hnd.1 (this ▸ ha')

theorem idFor_eq (s : State) (el : Node) :
    Script7.idFor s el = (sectionFor s el).bind fun k => (s.get k).id := by
  cases el <;> rfl

/-- The written order, read off the sections the walked elements stand for. -/
theorem order_eq_map_sectionFor (s : State) :
    ∀ W : List Node,
      (∀ el ∈ W, ∀ k, sectionFor s el = some k → truthy (s.get k).id = true) →
      (W.filter fun el => truthy (Script7.idFor s el)).map
          (fun el => some ((Script7.idFor s el).getD ""))
        = (W.filterMap (sectionFor s)).map fun k => (s.get k).id
  | [], _ => rfl
  | el :: W, h => by
    have ih := order_eq_map_sectionFor s W fun e he => h e (List.mem_cons_of_mem _ he)
    cases hf : sectionFor s el with
    | none =>
      have hid : Script7.idFor s el = none := by rw [idFor_eq, hf]; rfl
      rw [List.filterMap_cons_none hf, List.filter_cons]
      simp only [hid, truthy]
      exact ih
    | some k =>
      have hid : Script7.idFor s el = (s.get k).id := by rw [idFor_eq, hf]; rfl
      have ht := h el (List.mem_cons_self _ _) k hf
      rw [List.filterMap_cons_some hf, List.filter_cons]
      simp only [hid, ht, if_true, List.map_cons]
      rw [← truthy_eq_some _ ht, ih]

theorem pickedUpElement_of_lifted (s : State) (k0 : Nat)
    (h : (s.docPanels.filter fun k => (s.get k).pickedUp) = [k0]) :
    pickedUpElement s = some k0 := by
  unfold pickedUpElement
  rw [← List.filter_head?, h]
  rfl

/-- On a slotted page the sections the walked elements stand for are the
sections of the document, each once. -/
theorem perm_sectionFor (s : State) (hwf : s.WellFormed) (hs : s.Slotted) :
    ((Script7.sectionsOnGrid s).filterMap (sectionFor s)).Perm s.docPanels := by
  have hgnd : s.grid.Nodup := (List.nodup_append.1 hwf.1).1
  have hmemW : ∀ el, el ∈ Script7.sectionsOnGrid s ↔
      el ∈ s.grid ∧ ((∃ k, el = .panel k ∧ k < s.sections.length ∧ (s.get k).pickedUp = false) ∨
        ∃ p, el = .placeholder p) := by
    intro el
    unfold Script7.sectionsOnGrid
    rw [List.mem_filter]
    cases el with
    | panel k => simp
    | placeholder p => simp
  have hpick : ∀ b, pickedUpElement s = some b →
      b ∈ s.docPanels ∧ (s.get b).pickedUp = true := by
    intro b hb
    unfold pickedUpElement at hb
    exact ⟨List.mem_of_find?_eq_some hb, by simpa using List.find?_some hb⟩
  apply (List.perm_ext_iff_of_nodup ?_ (nodup_docPanels s hwf)).2
  · intro k
    rw [List.mem_filterMap]
    constructor
    · rintro ⟨el, hel, hf⟩
      obtain ⟨hg, hcase⟩ := (hmemW el).1 hel
      rcases hcase with ⟨j, rfl, hj, _⟩ | ⟨p, rfl⟩
      · have : j = k := by simpa [sectionFor] using hf
        subst this
        exact (mem_docPanels s j).2 ⟨List.mem_append_left _ hg, hj⟩
      · exact (hpick k hf).1
    · intro hk
      by_cases hp : (s.get k).pickedUp = true
      · have hkl : k ∈ s.docPanels.filter fun k => (s.get k).pickedUp :=
          List.mem_filter.2 ⟨hk, hp⟩
        rcases hs.2 with hnil | ⟨hone, hholder⟩
        · rw [hnil] at hkl; simp at hkl
        · obtain ⟨k0, hk0⟩ := List.length_eq_one.1 hone
          obtain ⟨h0, hh0⟩ := List.length_eq_one.1 hholder
          have hkk : k = k0 := by rw [hk0] at hkl; simpa using hkl
          have hmem : h0 ∈ s.grid.filter Node.isPlaceholder := by rw [hh0]; simp
          obtain ⟨hg, hph⟩ := List.mem_filter.1 hmem
          cases h0 with
          | panel j => simp [Node.isPlaceholder] at hph
          | placeholder p =>
            refine ⟨.placeholder p, (hmemW _).2 ⟨hg, Or.inr ⟨p, rfl⟩⟩, ?_⟩
            rw [hkk]
            exact pickedUpElement_of_lifted s k0 hk0
      · have hp' : (s.get k).pickedUp = false := by simpa using hp
        have hkl := ((mem_docPanels s k).1 hk).2
        exact ⟨.panel k, (hmemW _).2 ⟨hs.1 k hk hp', Or.inl ⟨k, rfl, hkl, hp'⟩⟩, rfl⟩
  · apply nodup_filterMap_on
    · intro a ha a' ha' b hb hb'
      obtain ⟨hg, hcase⟩ := (hmemW a).1 ha
      obtain ⟨hg', hcase'⟩ := (hmemW a').1 ha'
      rcases hcase with ⟨j, rfl, _, hjp⟩ | ⟨p, rfl⟩
      · have hjb : j = b := by simpa [sectionFor] using hb
        rcases hcase' with ⟨j', rfl, _, _⟩ | ⟨p', rfl⟩
        · have : j' = b := by simpa [sectionFor] using hb'
          rw [hjb, this]
        · have := (hpick b hb').2
          rw [← hjb, hjp] at this
          exact absurd this (by simp)
      · have hbl := hpick b hb
        rcases hcase' with ⟨j', rfl, _, hjp'⟩ | ⟨p', rfl⟩
        · have : j' = b := by simpa [sectionFor] using hb'
          rw [this, hbl.2] at hjp'
          exact absurd hjp' (by simp)
        · rcases hs.2 with hnil | ⟨_, hholder⟩
          · have : b ∈ s.docPanels.filter fun k => (s.get k).pickedUp :=
              List.mem_filter.2 hbl
            rw [hnil] at this
            simp at this
          · obtain ⟨h0, hh0⟩ := List.length_eq_one.1 hholder
            have h1 : Node.placeholder p ∈ s.grid.filter Node.isPlaceholder :=
              List.mem_filter.2 ⟨hg, rfl⟩
            have h2 : Node.placeholder p' ∈ s.grid.filter Node.isPlaceholder :=
              List.mem_filter.2 ⟨hg', rfl⟩
            rw [hh0] at h1 h2
            simp only [List.mem_singleton] at h1 h2
            rw [h1, h2]
    · unfold Script7.sectionsOnGrid
      exact hgnd.filter _

/-- On a slotted page with a valid registry the written order is a rearrangement
of the identifiers of the document's sections. -/
theorem serialize_order_perm (s : State) (hwf : s.WellFormed) (hv : s.ValidIds)
    (hs : s.Slotted) :
    ∃ o, (Script7.serialize s).order = some o ∧
      o.Perm (s.docPanels.map fun k => (s.get k).id) := by
  have hperm := perm_sectionFor s hwf hs
  refine ⟨_, serialize_order s, ?_⟩
  rw [order_eq_map_sectionFor s (Script7.sectionsOnGrid s)]
  · exact hperm.map _
  · intro el hel k hk
    exact hv.1 k (hperm.subset (List.mem_filterMap.2 ⟨el, hel, hk⟩))

theorem slotted_of_unlifted (s : State) (hu : s.Unlifted) : s.Slotted := by
  refine ⟨fun k hk _ => ?_, Or.inl ?_⟩
  · have := ((mem_docPanels s k).1 hk).1
    rw [hu.1, List.append_nil] at this
    exact this
  · rw [List.filter_eq_nil_iff]
    intro k hk
    have hkl := ((mem_docPanels s k).1 hk).2
    have hmem : s.get k ∈ s.sections := by
      unfold State.get
      rw [List.getD_eq_getElem _ _ hkl]
      exact List.getElem_mem hkl
    rw [hu.2.2.2 _ hmem]
    simp

/-- C5 (counterexample).  A section without identifier is left out of the
order `saveState` writes (order of length 0 for a registry of one section), and
two sections sharing the identifier `A` give the order `["A", "A"]`.  On the
registry `a"b`, B, C, with distinct non-empty identifiers, `saveState` ends
with the exception of `querySelector` and writes no order.  On the page
A, B, C, after `togglePickup` of A and then of B, both lifted, the order is
`["A", "A", "C"]`; after two more calls, on A and then on B, no section is
lifted, B has stayed outside the grid, and the order is `["A", "C"]` for three
sections. -/
theorem saveState_order_defects :
    ((Script7.saveState (page bare .absent)).state.storage
        = .record { order := some [], titles := some [] } ∧
      (page bare .absent).docPanels.length = 1) ∧
    ((Script7.saveState (page [plain (some "A") "Alpha", plain (some "A") "Beta"]
        .absent)).state.storage
        = .record { order := some [some "A", some "A"], titles := some [("A", "Alpha")] } ∧
      (Script.saveState (page [plain (some "A") "Alpha", plain (some "A") "Beta"]
        .absent)).storage
        = .record { order := some [some "A", some "A"], titles := some [("A", "Beta")] }) ∧
    (Script7.saveState (page quoted .absent)
        = { state := page quoted .absent, error := some .selector }) ∧
    ((toggleAll .body (page abc .absent) [0, 1]).ValidIds ∧
      (toggleAll .body (page abc .absent) [0, 1]).PlainIds ∧
      (Script7.saveState (toggleAll .body (page abc .absent) [0, 1])).state.storage
        = .record { order := some [some "A", some "A", some "C"],
                    titles := some [("A", "Alpha"), ("C", "Gamma")] }) ∧
    ((toggleAll .body (page abc .absent) [0, 1, 0, 1]).ValidIds ∧
      (toggleAll .body (page abc .absent) [0, 1, 0, 1]).PlainIds ∧
      liftedCount (toggleAll .body (page abc .absent) [0, 1, 0, 1]) = 0 ∧
      (toggleAll .body (page abc .absent) [0, 1, 0, 1]).docPanels.length = 3 ∧
      (Script7.saveState (toggleAll .body (page abc .absent) [0, 1, 0, 1])).state.storage
        = .record { order := some [some "A", some "C"],
                    titles := some [("A", "Alpha"), ("C", "Gamma")] }) := by
  refine ⟨by decide, by decide, by decide,
    ⟨by unfold State.ValidIds; decide, by unfold State.PlainIds; decide, by decide⟩,
    ⟨by unfold State.ValidIds; decide, by unfold State.PlainIds; decide, by decide, by decide,
      by decide⟩⟩

/-- C5 (amended).  For every well-formed page whose sections have distinct
non-empty identifiers that stand for themselves in the selector (no double
quote, backslash, line feed, carriage return, form feed or NUL), and on which
every section has one slot in the grid (a section that is not lifted is a child
of the grid, at most one section is lifted, and while one is lifted the grid
holds exactly one placeholder): `saveState` raises nothing and the order it
writes contains no identifier twice and is as long as the number of sections
of the document.  This covers every such page with nothing lifted, and the
same holds right after any section of its grid has been lifted (either
relocation target).  The order `saveState` of `script.js` writes has the same
two properties. -/
theorem saveState_order_integrity (s : State) (hwf : s.WellFormed) (hv : s.ValidIds)
    (hp : s.PlainIds) :
    (s.Slotted → (Script7.saveState s).IntactOrder s.docPanels.length) ∧
    (s.Unlifted → s.Slotted ∧
      ∀ (t : Target) (k : Nat), Node.panel k ∈ s.grid →
        (Script7.saveState (togglePickupTo t s k)).IntactOrder
          (togglePickupTo t s k).docPanels.length) ∧
    Outcome.IntactOrder { state := Script.saveState s, error := none } s.docPanels.length := by
  refine ⟨?_, ?_, ?_⟩
  · intro hs
    obtain ⟨o, ho, hperm⟩ := serialize_order_perm s hwf hv hs
    obtain ⟨ts, hts⟩ := serialize_eq_of_order s o ho
    rw [saveState_eq s hp]
    refine ⟨rfl, o, ts, by rw [hts], (List.Perm.nodup_iff hperm).2 hv.2, ?_⟩
    rw [hperm.length_eq, List.length_map]
  · intro hu
    refine ⟨slotted_of_unlifted s hu, ?_⟩
    intro t k hk
    obtain ⟨ts, hts⟩ := serialize_eq_of_order s _ (serialize_order_eq_ids s hu hv)
    rw [saveState_lift t s k hwf hu hv hk hp]
    refine ⟨rfl, _, ts, by rw [hts], hv.2, ?_⟩
    have hkd : k ∈ s.docPanels := by
      obtain ⟨i, hi, _, hid, _⟩ := grid_of_unlifted s hu _ hk
      cases hi
      exact hid
    rw [docPanels_lift t s k hwf hu hk, List.length_map]
    exact (perm_filter_ne_append k s.docPanels (nodup_docPanels s hwf) hkd).length_eq.symm
  · refine ⟨rfl, _, ((s.docPanels.foldl (Script.record s) ([], [])).2), ?_, hv.2, by simp⟩
    have ho := script_serialize_order s
    have : Script.serialize s
        = { order := (Script.serialize s).order,
            titles := some (s.docPanels.foldl (Script.record s) ([], [])).2 } := rfl
    show Stored.record (Script.serialize s) = _
    rw [this, ho]

/-- Witness for C5: the page A, B, C, before and after lifting B. -/
theorem saveState_order_integrity_witness :
    (page abc .absent).Slotted ∧
    (Script7.saveState (page abc .absent)).IntactOrder (page abc .absent).docPanels.length ∧
    (togglePickupTo .body (page abc .absent) 1).Slotted ∧
    (Script7.saveState (togglePickupTo .body (page abc .absent) 1)).IntactOrder
      (togglePickupTo .body (page abc .absent) 1).docPanels.length :=
  ⟨by unfold State.Slotted; decide,
    (saveState_order_integrity (page abc .absent) (by unfold State.WellFormed; decide)
      (by unfold State.ValidIds; decide) (by unfold State.PlainIds; decide)).1
      (by unfold State.Slotted; decide),
    by unfold State.Slotted; decide,
    (saveState_order_integrity (togglePickupTo .body (page abc .absent) 1)
      (by unfold State.WellFormed; decide) (by unfold State.ValidIds; decide)
      (by unfold State.PlainIds; decide)).1 (by unfold State.Slotted; decide)⟩

/-! ## The live move of the dragged section -/

theorem mem_detach (a n : Node) (l : List Node) : n ∈ detach a l ↔ n ∈ l ∧ n ≠ a := by
  unfold detach
  simp [List.mem_filter]

theorem detach_append (a : Node) (l l' : List Node) :
    detach a (l ++ l') = detach a l ++ detach a l' := by
  unfold detach
  exact List.filter_append _ _

theorem detach_cons_self (a : Node) (l : List Node) : detach a (a :: l) = detach a l := by
  unfold detach
  simp [List.filter_cons]

theorem detach_detach (a : Node) (l : List Node) : detach a (detach a l) = detach a l := by
  apply detach_of_not_mem
  intro h
  exact ((mem_detach a a l).1 h).2 rfl

theorem perm_detach_append (a : Node) :
    ∀ l : List Node, l.Nodup → a ∈ l → (detach a l ++ [a]).Perm l
  | [], _, h => by simp at h
  | n :: l, hnd, h => by
    rw [List.nodup_cons] at hnd
    by_cases hn : n = a
    · subst hn
      rw [detach_cons_self, detach_of_not_mem n l hnd.1]
      exact List.perm_append_singleton n l
    · have hmem : a ∈ l := by
        rcases List.mem_cons.1 h with e | e
        · exact absurd e.symm hn
        · exact e
      have ih := perm_detach_append a l hnd.2 hmem
      have hcons : detach a (n :: l) = n :: detach a l := by
        unfold detach
        simp [List.filter_cons, hn]
      rw [hcons, List.cons_append]
      exact List.Perm.cons n ih

theorem insertBefore_eq (new ref : Node) :
    ∀ l : List Node, ref ∈ l →
      ∃ pre post, l = pre ++ ref :: post ∧ insertBefore new ref l = pre ++ new :: ref :: post
  | [], h => by simp at h
  | n :: l, h => by
    by_cases hn : n = ref
    · subst hn
      exact ⟨[], l, rfl, by simp [insertBefore]⟩
    · have hmem : ref ∈ l := by
        rcases List.mem_cons.1 h with e | e
        · exact absurd e.symm hn
        · exact e
      obtain ⟨pre, post, hl, hi⟩ := insertBefore_eq new ref l hmem
      refine ⟨n :: pre, post, by rw [hl]; rfl, ?_⟩
      simp only [insertBefore, hn, if_false, hi, List.cons_append]

theorem mem_draggableElements (s : State) (a : Nat) (h : a ∈ draggableElements s) :
    Node.panel a ∈ s.grid ∧ a < s.sections.length ∧ (s.get a).dragging = false ∧
      (s.get a).pickedUp = false := by
  unfold draggableElements at h
  rw [List.mem_filter] at h
  obtain ⟨hp, hf⟩ := h
  unfold panelsOf at hp
  rw [List.mem_filterMap] at hp
  obtain ⟨n, hn, hna⟩ := hp
  cases n with
  | placeholder p => simp at hna
  | panel j =>
    by_cases hj : j < s.sections.length
    · simp [hj] at hna
      subst hna
      simp at hf
      exact ⟨hn, hj, hf.1, hf.2⟩
    · simp [hj] at hna

theorem getDragAfterElement_mem (rect : Nat → Box) (s : State) (y : Double) (a : Nat)
    (h : getDragAfterElement rect s y = some a) : a ∈ draggableElements s := by
  have hs := foldl_closer_spec rect y (draggableElements s)
  unfold getDragAfterElement at h
  rcases hacc : (draggableElements s).foldl (closer rect y) (⊥, none) with ⟨o, e⟩
  rw [hacc] at h hs
  cases e with
  | none => simp at h
  | some k =>
    obtain ⟨_, _, _, _, i, hi, _⟩ :
        o = offset rect y k ∧ o < 0 ∧ ⊥ < o ∧
          (∀ d ∈ draggableElements s, offset rect y d < 0 → offset rect y d ≤ o) ∧
          ∃ i : Nat, (draggableElements s)[i]? = some k ∧
            ∀ (j : Nat) (d : Nat), j < i → (draggableElements s)[j]? = some d →
              offset rect y d < 0 → offset rect y d < o := hs
    have : k = a := by simpa using h
    rw [← this]
    exact List.getElem?_mem hi

theorem draggingItem_eq (s : State) (d : Nat) (hd : d ∈ s.docPanels)
    (hdrag : (s.get d).dragging = true)
    (huniq : ∀ k ∈ s.docPanels, (s.get k).dragging = true → k = d) :
    draggingItem s = some d := by
  unfold draggingItem
  cases hf : s.docPanels.find? (fun k => (s.get k).dragging) with
  | none =>
    rw [List.find?_eq_none] at hf
    exact absurd hdrag (hf d hd)
  | some k =>
    have hk := List.mem_of_find?_eq_some hf
    have hkd := List.find?_some hf
    rw [huniq k hk hkd]

/-- The effect of one `dragover` when exactly the section `d` of the grid is
flagged dragging. -/
theorem dragover_eq (rect : Nat → Box) (s : State) (y : Double) (d : Nat) (hwf : s.WellFormed)
    (hmem : Node.panel d ∈ s.grid) (hdrag : (s.get d).dragging = true)
    (huniq : ∀ k ∈ s.docPanels, (s.get k).dragging = true → k = d) :
    (Script7.dragover rect s y).sections = s.sections ∧
    (Script7.dragover rect s y).body = s.body ∧
    (getDragAfterElement rect s y = none →
      (Script7.dragover rect s y).grid = detach (.panel d) s.grid ++ [.panel d]) ∧
    (∀ a, getDragAfterElement rect s y = some a →
      (Script7.dragover rect s y).grid
        = insertBefore (.panel d) (.panel a) (detach (.panel d) s.grid)) := by
  have hdl : d < s.sections.length := by
    have := hwf.2 _ (List.mem_append_left _ hmem)
    simpa [Node.named] using this
  have hdoc : d ∈ s.docPanels := (mem_docPanels s d).2 ⟨List.mem_append_left _ hmem, hdl⟩
  have hitem := draggingItem_eq s d hdoc hdrag huniq
  have hbody : detach (.panel d) s.body = s.body := by
    apply detach_of_not_mem
    intro hb
    exact (List.nodup_append.1 hwf.1).2.2 hmem hb
  unfold Script7.dragover
  rw [hitem]
  cases hg : getDragAfterElement rect s y with
  | none => simp [appendToGrid, hbody]
  | some a => simp [hbody]

/-- C11.  For every well-formed page in which exactly one section D, a child
of the grid, is flagged dragging, and every pointer height `y`, after one
`dragover` the grid is a permutation of the grid before (the same children,
each once), the relative order of all children other than D is unchanged, and
D sits immediately before the section `getDragAfterElement` returned, or last
when it returned end of list; the returned section is never D and never a
lifted section.  Nothing else on the page changes. -/
theorem dragover_moves_dragged (rect : Nat → Box) (s : State) (y : Double) (d : Nat)
    (hwf : s.WellFormed) (hmem : Node.panel d ∈ s.grid) (hdrag : (s.get d).dragging = true)
    (huniq : ∀ k ∈ s.docPanels, (s.get k).dragging = true → k = d) :
    (Script7.dragover rect s y).grid.Perm s.grid ∧
    (Script7.dragover rect s y).grid.Nodup ∧
    detach (.panel d) (Script7.dragover rect s y).grid = detach (.panel d) s.grid ∧
    (getDragAfterElement rect s y = none →
      ∃ pre, (Script7.dragover rect s y).grid = pre ++ [.panel d]) ∧
    (∀ a, getDragAfterElement rect s y = some a →
      a ≠ d ∧ (s.get a).pickedUp = false ∧
      ∃ pre post, (Script7.dragover rect s y).grid = pre ++ .panel d :: .panel a :: post) ∧
    (Script7.dragover rect s y).body = s.body ∧
    (Script7.dragover rect s y).sections = s.sections := by
  obtain ⟨hsec, hbody, hnone, hsome⟩ := dragover_eq rect s y d hwf hmem hdrag huniq
  have hnd : s.grid.Nodup := (List.nodup_append.1 hwf.1).1
  have hperm0 := perm_detach_append (.panel d) s.grid hnd hmem
  have hkey : (Script7.dragover rect s y).grid.Perm s.grid ∧
      detach (.panel d) (Script7.dragover rect s y).grid = detach (.panel d) s.grid ∧
      (getDragAfterElement rect s y = none →
        ∃ pre, (Script7.dragover rect s y).grid = pre ++ [.panel d]) ∧
      (∀ a, getDragAfterElement rect s y = some a →
        a ≠ d ∧ (s.get a).pickedUp = false ∧
        ∃ pre post, (Script7.dragover rect s y).grid = pre ++ .panel d :: .panel a :: post) := by
    cases hg : getDragAfterElement rect s y with
    | none =>
      rw [hnone hg]
      refine ⟨hperm0, ?_, fun _ => ⟨_, rfl⟩, fun a ha => by simp at ha⟩
      rw [detach_append, detach_detach]
      simp [detach]
    | some a =>
      rw [hsome a hg]
      obtain ⟨hag, _, hadrag, hapick⟩ :=
        mem_draggableElements s a (getDragAfterElement_mem rect s y a hg)
      have had : a ≠ d := by
        intro e
        rw [e, hdrag] at hadrag
        exact absurd hadrag (by simp)
      have hne : Node.panel a ≠ Node.panel d := by simpa using had
      have hamem : Node.panel a ∈ detach (.panel d) s.grid :=
        (mem_detach _ _ _).2 ⟨hag, hne⟩
      obtain ⟨pre, post, hl, hi⟩ :=
        insertBefore_eq (.panel d) (.panel a) (detach (.panel d) s.grid) hamem
      rw [hi]
      refine ⟨?_, ?_, fun h => by simp at h, fun b hb => ?_⟩
      · have h1 : (pre ++ Node.panel d :: Node.panel a :: post).Perm
            (Node.panel d :: (pre ++ Node.panel a :: post)) := List.perm_middle
        have h2 : (Node.panel d :: (pre ++ Node.panel a :: post)).Perm
            (detach (.panel d) s.grid ++ [.panel d]) := by
          rw [← hl]
          exact (List.perm_append_singleton _ _).symm
        exact (h1.trans h2).trans hperm0
      · rw [detach_append, detach_cons_self, ← detach_append, ← hl, detach_detach]
      · have hba : a = b := by simpa using hb
        subst hba
        exact ⟨had, hapick, pre, post, rfl⟩
  exact ⟨hkey.1, (List.Perm.nodup_iff hkey.1).2 hnd, hkey.2.1, hkey.2.2.1, hkey.2.2.2, hbody, hsec⟩

/-- Witness for C11: B is dragged on the page A, B, C with the pointer above
every midpoint, at 5 pixels. -/
theorem dragover_moves_dragged_witness :
    (Script7.dragover rows abcDragging (px 5)).grid.Perm abcDragging.grid ∧
    detach (.panel 1) (Script7.dragover rows abcDragging (px 5)).grid
      = detach (.panel 1) abcDragging.grid :=
  ⟨(dragover_moves_dragged rows abcDragging (px 5) 1 (by unfold State.WellFormed; decide)
      (by decide) (by decide) (by decide)).1,
    (dragover_moves_dragged rows abcDragging (px 5) 1 (by unfold State.WellFormed; decide)
      (by decide) (by decide) (by decide)).2.2.1⟩

/-! ## The end of a drag -/

theorem modify_of_not_lt (s : State) (k : Nat) (f : Section → Section)
    (hk : ¬ k < s.sections.length) : s.modify k f = s := by
  unfold State.modify
  rw [List.set_eq_of_length_le (Nat.le_of_not_lt hk)]

theorem get_modify (s : State) (k : Nat) (f : Section → Section) (j : Nat) :
    (s.modify k f).get j = if j = k ∧ k < s.sections.length then f (s.get k) else s.get j := by
  by_cases hk : k < s.sections.length
  · by_cases hj : j = k
    · subst hj
      rw [get_modify_self s j f hk]
      simp [hk]
    · rw [get_modify_ne s k j f hj]
      simp [hj]
  · rw [modify_of_not_lt s k f hk]
    simp [hk]

/-- The record `saveState` writes depends on the tree and on the identifiers,
titles and lifted flags only. -/
theorem serialize_congr (s s' : State) (hg : s'.grid = s.grid) (hb : s'.body = s.body)
    (hl : s'.sections.length = s.sections.length)
    (hid : ∀ j, (s'.get j).id = (s.get j).id)
    (ht : ∀ j, (s'.get j).title = (s.get j).title)
    (hp : ∀ j, (s'.get j).pickedUp = (s.get j).pickedUp) :
    Script7.serialize s' = Script7.serialize s := by
  have hdoc : s'.docPanels = s.docPanels := by
    unfold State.docPanels
    rw [hg, hb, panelsOf_congr s s' hl]
  have hon : Script7.sectionsOnGrid s' = Script7.sectionsOnGrid s := by
    unfold Script7.sectionsOnGrid
    rw [hg, hl]
    congr 1
    funext n
    cases n with
    | panel k => simp [hp]
    | placeholder p => rfl
  have hpick : pickedUpElement s' = pickedUpElement s := by
    unfold pickedUpElement
    rw [hdoc]
    congr 1
    funext k
    exact hp k
  have hq : ∀ id, querySection s' id = querySection s id := by
    intro id
    unfold querySection
    rw [hdoc]
    congr 1
    funext k
    rw [hid]
  have hfor : ∀ el, Script7.idFor s' el = Script7.idFor s el := by
    intro el
    cases el with
    | panel k => exact hid k
    | placeholder p =>
      simp only [Script7.idFor, hpick]
      congr 1
      funext k
      exact hid k
  have hrec : Script7.record s' = Script7.record s := by
    funext st el
    have htitle : (fun o => (s'.get o).title) = fun o => (s.get o).title := by
      funext o
      exact ht o
    simp only [Script7.record, hfor, hq, htitle]
  unfold Script7.serialize
  rw [hon, hrec]

theorem serialize_dragend (s : State) (k : Nat) :
    Script7.serialize (Script7.dragend s k) = Script7.serialize s := by
  apply serialize_congr
  · rfl
  · rfl
  · exact length_modify s k _
  all_goals
    intro j
    unfold Script7.dragend
    rw [get_modify]
    split <;> simp_all

theorem draggingItem_dragend (s : State) (d : Nat)
    (huniq : ∀ k ∈ s.docPanels, (s.get k).dragging = true → k = d) :
    draggingItem (Script7.dragend s d) = none := by
  unfold draggingItem
  rw [List.find?_eq_none]
  intro k hk
  have hdoc : (Script7.dragend s d).docPanels = s.docPanels := by
    unfold State.docPanels
    exact panelsOf_congr s _ (length_modify s d _) _
  rw [hdoc] at hk
  have hkl : k < s.sections.length := ((mem_docPanels s k).1 hk).2
  unfold Script7.dragend
  rw [get_modify]
  by_cases hkd : k = d
  · subst hkd
    simp [hkl]
  · have : ¬ (s.get k).dragging = true := fun h => hkd (huniq k hk h)
    simp [hkd, this]

theorem docPanels_dragend (s : State) (k : Nat) :
    (Script7.dragend s k).docPanels = s.docPanels := by
  unfold State.docPanels
  exact panelsOf_congr s _ (length_modify s k _) _

theorem plainIds_dragend (s : State) (k : Nat) (hp : s.PlainIds) :
    (Script7.dragend s k).PlainIds := by
  intro j hj
  rw [docPanels_dragend] at hj
  have hj' := hp j hj
  unfold Script7.dragend
  rw [get_modify]
  split
  · rename_i h
    rw [h.1] at hj'
    exact hj'
  · exact hj'

/-- Once `saveState` has stored the record of a page whose identifiers stand
for themselves, a second `saveState` changes nothing. -/
theorem saveState_stored (s : State) (hp : s.PlainIds)
    (hs : s.storage = .record (Script7.serialize s)) :
    Script7.saveState s = { state := s, error := none } := by
  rw [saveState_eq s hp, ← hs]

/-- C12 (counterexample).  B was dragged below C on the saved page A, B, C.
A `dragend` clears the flag but writes nothing: the stored order is still
A, B, C while `saveState` on the arrangement as it stands would store A, C, B.
A `drop` writes the record but B is still flagged dragging afterwards.  On the
page `a"b`, B, C with B flagged dragging a `drop` ends with the exception of
`querySelector` in `saveState` and writes nothing. -/
theorem drag_end_events_split :
    (draggingItem (Script7.dragend abcMoved 1) = none ∧
      (Script7.dragend abcMoved 1).storage
        = .record { order := some [some "A", some "B", some "C"],
                    titles := some [("A", "Alpha"), ("B", "Beta"), ("C", "Gamma")] } ∧
      (Script7.saveState (Script7.dragend abcMoved 1)).state.storage
        = .record { order := some [some "A", some "C", some "B"],
                    titles := some [("A", "Alpha"), ("C", "Gamma"), ("B", "Beta")] }) ∧
    (Script7.saveState (Script7.drop abcMoved).state
        = { state := (Script7.drop abcMoved).state, error := none } ∧
      draggingItem (Script7.drop abcMoved).state = some 1) ∧
    (draggingItem (Script7.dragstart (page quoted .absent) 1) = some 1 ∧
      Script7.drop (Script7.dragstart (page quoted .absent) 1)
        = { state := Script7.dragstart (page quoted .absent) 1, error := some .selector }) := by
  decide

/-- C12 (amended).  For every page whose identifiers stand for themselves in
the selector (no double quote, backslash, line feed, carriage return, form feed
or NUL) and on which exactly one section D of the document is flagged
dragging: a `drop` raises nothing and leaves the stored record equal to the
one `saveState` writes for the arrangement as it stands, changes nothing else,
and D is still flagged dragging; a `dragend` on D leaves no section flagged
dragging and does not touch the storage; after `drop` followed by `dragend` no
section is flagged dragging and the stored record equals the one `saveState`
writes for the arrangement as it stands.  In `script.js` a `drop` likewise
leaves the stored record equal to the one `saveState` writes. -/
theorem drop_then_dragend (s : State) (d : Nat) (hd : d ∈ s.docPanels)
    (hdrag : (s.get d).dragging = true)
    (huniq : ∀ k ∈ s.docPanels, (s.get k).dragging = true → k = d) (hp : s.PlainIds) :
    (Script7.drop s = Script7.saveState s ∧
      (Script7.drop s).error = none ∧
      Script7.saveState (Script7.drop s).state
        = { state := (Script7.drop s).state, error := none } ∧
      ((Script7.drop s).state.grid = s.grid ∧ (Script7.drop s).state.body = s.body ∧
        (Script7.drop s).state.sections = s.sections) ∧
      draggingItem (Script7.drop s).state = some d) ∧
    (draggingItem (Script7.dragend s d) = none ∧
      (Script7.dragend s d).storage = s.storage ∧
      (Script7.dragend s d).grid = s.grid) ∧
    (draggingItem (Script7.dragend (Script7.drop s).state d) = none ∧
      Script7.saveState (Script7.dragend (Script7.drop s).state d)
        = { state := Script7.dragend (Script7.drop s).state d, error := none }) ∧
    Script.saveState (Script.drop s) = Script.drop s := by
  have hitem := draggingItem_eq s d hd hdrag huniq
  have hdrop : Script7.drop s
      = { state := { s with storage := .record (Script7.serialize s) }, error := none } := by
    unfold Script7.drop
    rw [hitem]
    exact saveState_eq s hp
  have hdrop' : Script7.drop s = Script7.saveState s := by
    rw [hdrop, saveState_eq s hp]
  have hp1 : State.PlainIds { s with storage := .record (Script7.serialize s) } := hp
  have huniq1 : ∀ k ∈ State.docPanels { s with storage := .record (Script7.serialize s) },
      (State.get { s with storage := .record (Script7.serialize s) } k).dragging = true →
        k = d := huniq
  refine ⟨⟨hdrop', ?_, ?_, ?_, ?_⟩, ⟨draggingItem_dragend s d huniq, rfl, rfl⟩, ⟨?_, ?_⟩, rfl⟩
  · rw [hdrop]
  · rw [hdrop]
    exact saveState_stored _ hp1 rfl
  · rw [hdrop]
    exact ⟨rfl, rfl, rfl⟩
  · rw [hdrop]
    exact hitem
  · rw [hdrop]
    exact draggingItem_dragend _ d huniq1
  · rw [hdrop]
    apply saveState_stored _ (plainIds_dragend _ d hp1)
    rw [serialize_dragend]
    rfl

/-- Witness for C12: the page A, B, C on which B is being dragged. -/
theorem drop_then_dragend_witness :
    draggingItem (Script7.dragend (Script7.drop abcDragging).state 1) = none ∧
    Script7.saveState (Script7.dragend (Script7.drop abcDragging).state 1)
      = { state := Script7.dragend (Script7.drop abcDragging).state 1, error := none } :=
  (drop_then_dragend abcDragging 1 (by decide) (by decide) (by decide)
    (by unfold State.PlainIds; decide)).2.2.1

/-! ## A lifted section does not start a drag -/

/-- C14.  For every page, a `dragstart` delivered to a lifted section changes
nothing, so the section is not flagged dragging by it: unless it was flagged
before, it is not the element a subsequent `dragover` moves, and when no
section is flagged dragging that `dragover` leaves the page as it was.
`togglePickup` sets the section's `draggable` attribute to `false` on lift
and to `true` on unlift (both relocation targets). -/
theorem lifted_never_drags (t : Target) (s : State) (k : Nat) :
    ((s.get k).pickedUp = true → Script7.dragstart s k = s) ∧
    ((s.get k).pickedUp = true → (s.get k).dragging = false →
      draggingItem (Script7.dragstart s k) ≠ some k) ∧
    ((s.get k).pickedUp = true → (∀ j ∈ s.docPanels, (s.get j).dragging = false) →
      ∀ (rect : Nat → Box) (y : Double), Script7.dragover rect (Script7.dragstart s k) y = s) ∧
    (k < s.sections.length → (s.get k).pickedUp = false →
      ((togglePickupTo t s k).get k).draggable = false ∧
      ((togglePickupTo t s k).get k).pickedUp = true) ∧
    ((s.get k).pickedUp = true →
      ((togglePickupTo t s k).get k).draggable = true ∧
      ((togglePickupTo t s k).get k).pickedUp = false) := by
  have hstart : (s.get k).pickedUp = true → Script7.dragstart s k = s := by
    intro hp
    unfold Script7.dragstart
    rw [if_pos hp]
  refine ⟨hstart, ?_, ?_, ?_, ?_⟩
  · intro hp hnd h
    rw [hstart hp] at h
    unfold draggingItem at h
    have := List.find?_some h
    rw [hnd] at this
    exact absurd this (by simp)
  · intro hp hall rect y
    rw [hstart hp]
    have hnone : draggingItem s = none := by
      unfold draggingItem
      rw [List.find?_eq_none]
      intro j hj
      rw [hall j hj]
      simp
    unfold Script7.dragover
    rw [hnone]
  · intro hk hp
    rw [get_togglePickupTo t s k hk k]
    simp [hp]
  · intro hp
    rw [get_togglePickupTo t s k (lt_of_pickedUp s k hp) k]
    simp [hp]

set_option exponentiation.threshold 5000 in
/-- The page `abcMoved` is what one `dragover` below every midpoint makes of
the saved page A, B, C on which B is being dragged. -/
theorem abcMoved_eq :
    Script7.dragover rows (Script7.dragstart (Script7.saveState (page abc .absent)).state 1)
      (px 95) = abcMoved := by
  decide

/-! ## Identifier assignment -/

theorem digitChar_val (m : Nat) (h : m < 10) : (Nat.digitChar m).toNat - 48 = m := by
  interval_cases m <;> rfl

theorem decode_toDigitsCore :
    ∀ (fuel n : Nat) (ds : List Char), n < fuel →
      (Nat.toDigitsCore 10 fuel n ds).foldl (fun a c => 10 * a + (c.toNat - 48)) 0
        = ds.foldl (fun a c => 10 * a + (c.toNat - 48)) n
  | 0, _, _, h => by omega
  | fuel + 1, n, ds, h => by
    unfold Nat.toDigitsCore
    simp only []
    by_cases h0 : n / 10 = 0
    · rw [if_pos h0]
      have hn : n < 10 := by omega
      simp only [List.foldl_cons]
      rw [digitChar_val _ (Nat.mod_lt _ (by omega))]
      congr 1
      omega
    · rw [if_neg h0]
      rw [decode_toDigitsCore fuel (n / 10) _ (by omega)]
      simp only [List.foldl_cons]
      rw [digitChar_val _ (Nat.mod_lt _ (by omega))]
      congr 1
      omega

theorem toString_nat_injective (a b : Nat) (h : toString a = toString b) : a = b := by
  have hd : ∀ n : Nat, (toString n).data = Nat.toDigits 10 n := fun n => rfl
  have h1 : Nat.toDigits 10 a = Nat.toDigits 10 b := by rw [← hd, ← hd, h]
  have ha := decode_toDigitsCore (a + 1) a [] (by omega)
  have hb := decode_toDigitsCore (b + 1) b [] (by omega)
  unfold Nat.toDigits at h1
  rw [h1, hb] at ha
  simpa using ha.symm

theorem section_name_injective (a b : Nat)
    (h : "section-" ++ toString a = "section-" ++ toString b) : a = b := by
  apply toString_nat_injective
  have h1 := congrArg String.data h
  rw [String.data_append, String.data_append] at h1
  exact String.ext (List.append_cancel_left h1)

theorem truthy_section_name (i : Nat) : truthy (some ("section-" ++ toString i)) = true := by
  have h : ("section-" ++ toString i) ≠ "" := by
    intro e
    have := congrArg String.length e
    rw [String.length_append] at this
    have h8 : "section-".length = 8 := by decide
    have h0 : "".length = 0 := by decide
    omega
  simpa [truthy] using h

theorem assign_step (st : State) (i k : Nat) :
    (if truthy (st.get k).id then st
      else st.modify k fun x => { x with id := some ("section-" ++ toString i) })
      = st.modify k (assigned i) := by
  by_cases h : truthy (st.get k).id = true
  · rw [if_pos h]
    exact (modify_self st k (assigned i) (by simp [assigned, h])).symm
  · rw [if_neg h]
    unfold State.modify
    simp [assigned, h]

theorem assignIds_eq (s : State) :
    assignIds s = s.docPanels.enum.foldl (fun st ik => st.modify ik.2 (assigned ik.1)) s := by
  unfold assignIds
  congr 1
  funext st ik
  exact assign_step st ik.1 ik.2

theorem foldl_assign :
    ∀ (L : List (Nat × Nat)) (st : State), (L.map Prod.snd).Nodup →
      (∀ ik ∈ L, ik.2 < st.sections.length) →
      (L.foldl (fun st ik => st.modify ik.2 (assigned ik.1)) st).grid = st.grid ∧
      (L.foldl (fun st ik => st.modify ik.2 (assigned ik.1)) st).body = st.body ∧
      (L.foldl (fun st ik => st.modify ik.2 (assigned ik.1)) st).placeholder = st.placeholder ∧
      (L.foldl (fun st ik => st.modify ik.2 (assigned ik.1)) st).overlay = st.overlay ∧
      (L.foldl (fun st ik => st.modify ik.2 (assigned ik.1)) st).storage = st.storage ∧
      (L.foldl (fun st ik => st.modify ik.2 (assigned ik.1)) st).sections.length
        = st.sections.length ∧
      (∀ ik ∈ L, (L.foldl (fun st ik => st.modify ik.2 (assigned ik.1)) st).get ik.2
        = assigned ik.1 (st.get ik.2)) ∧
      (∀ j, j ∉ L.map Prod.snd →
        (L.foldl (fun st ik => st.modify ik.2 (assigned ik.1)) st).get j = st.get j)
  | [], st, _, _ => by simp
  | ik :: L, st, hnd, hlt => by
    rw [List.map_cons, List.nodup_cons] at hnd
    have hk : ik.2 < st.sections.length := hlt ik (List.mem_cons_self _ _)
    have hlt1 : ∀ ik' ∈ L, ik'.2 < (st.modify ik.2 (assigned ik.1)).sections.length := by
      intro ik' h'
      rw [length_modify]
      exact hlt ik' (List.mem_cons_of_mem _ h')
    obtain ⟨hg, hb, hp, ho, hs, hl, hin, hout⟩ :=
      foldl_assign L (st.modify ik.2 (assigned ik.1)) hnd.2 hlt1
    simp only [List.foldl_cons]
    refine ⟨hg, hb, hp, ho, hs, by rw [hl, length_modify], ?_, ?_⟩
    · intro ik' h'
      rcases List.mem_cons.1 h' with e | e
      · subst e
        rw [hout _ hnd.1, get_modify_self st _ _ hk]
      · have hne : ik'.2 ≠ ik.2 := by
          intro e2
          exact hnd.1 (e2 ▸ List.mem_map_of_mem Prod.snd e)
        rw [hin ik' e, get_modify_ne st _ _ _ hne]
    · intro j hj
      rw [List.map_cons, List.mem_cons, not_or] at hj
      rw [hout j hj.2, get_modify_ne st _ _ _ hj.1]

/-- What the identifier loop does on a well-formed page. -/
theorem assignIds_spec (s : State) (hwf : s.WellFormed) :
    (assignIds s).grid = s.grid ∧ (assignIds s).body = s.body ∧
    (assignIds s).placeholder = s.placeholder ∧ (assignIds s).overlay = s.overlay ∧
    (assignIds s).storage = s.storage ∧
    (assignIds s).sections.length = s.sections.length ∧
    (∀ ik ∈ s.docPanels.enum, (assignIds s).get ik.2 = assigned ik.1 (s.get ik.2)) ∧
    (∀ j, j ∉ s.docPanels → (assignIds s).get j = s.get j) := by
  rw [assignIds_eq]
  have hnd : (s.docPanels.enum.map Prod.snd).Nodup := by
    rw [List.enum_map_snd]
    exact nodup_docPanels s hwf
  have hlt : ∀ ik ∈ s.docPanels.enum, ik.2 < s.sections.length := by
    intro ik hik
    have : ik.2 ∈ s.docPanels := by
      rw [← List.enum_map_snd s.docPanels]
      exact List.mem_map_of_mem Prod.snd hik
    exact ((mem_docPanels s ik.2).1 this).2
  have h := foldl_assign s.docPanels.enum s hnd hlt
  rw [List.enum_map_snd] at h
  exact h

theorem docPanels_assignIds (s : State) (hwf : s.WellFormed) :
    (assignIds s).docPanels = s.docPanels := by
  obtain ⟨hg, hb, _, _, _, hl, _, _⟩ := assignIds_spec s hwf
  unfold State.docPanels
  rw [hg, hb, panelsOf_congr s _ hl]

theorem truthy_assigned (i : Nat) (x : Section) : truthy (assigned i x).id = true := by
  unfold assigned
  by_cases h : truthy x.id = true
  · rw [if_pos h]; exact h
  · rw [if_neg h]; exact truthy_section_name i

theorem foldl_assign_of_truthy :
    ∀ (L : List (Nat × Nat)) (st : State), (∀ ik ∈ L, truthy (st.get ik.2).id = true) →
      L.foldl
        (fun st ik =>
          if truthy (st.get ik.2).id then st
          else st.modify ik.2 fun x => { x with id := some ("section-" ++ toString ik.1) })
        st = st
  | [], _, _ => rfl
  | ik :: L, st, h => by
    simp only [List.foldl_cons]
    rw [if_pos (h ik (List.mem_cons_self _ _))]
    exact foldl_assign_of_truthy L st (fun ik' h' => h ik' (List.mem_cons_of_mem _ h'))

theorem assignIds_idempotent (s : State) (hwf : s.WellFormed) :
    assignIds (assignIds s) = assignIds s := by
  have hspec := assignIds_spec s hwf
  have hdoc := docPanels_assignIds s hwf
  have hall : ∀ ik ∈ (assignIds s).docPanels.enum,
      truthy ((assignIds s).get ik.2).id = true := by
    intro ik hik
    rw [hdoc] at hik
    rw [hspec.2.2.2.2.2.2.1 ik hik]
    exact truthy_assigned _ _
  generalize assignIds s = s' at hall
  unfold assignIds
  exact foldl_assign_of_truthy _ _ hall

/-- C16.  For every well-formed page, the identifier loop gives each section
of the document that lacks an identifier (none, or the empty string) the
identifier `section-n` with `n` its index among the document's sections at
call time, leaves every section that already has one, and every section's
other attributes and position, unchanged; running it a second time changes
nothing.  The loop is the one of `script.js` and, on a first visit, of
`loadState` in `script7.js`. -/
theorem assignIds_rule (s : State) (hwf : s.WellFormed) :
    (∀ (i k : Nat), s.docPanels[i]? = some k →
      (truthy (s.get k).id = false →
        (assignIds s).get k = { s.get k with id := some ("section-" ++ toString i) }) ∧
      (truthy (s.get k).id = true → (assignIds s).get k = s.get k)) ∧
    (assignIds s).grid = s.grid ∧ (assignIds s).body = s.body ∧
    assignIds (assignIds s) = assignIds s ∧
    (s.storage = .absent → (Script7.loadState s).state = assignIds s) ∧
    (Script.startup s).state = (Script.loadState (assignIds s)).state := by
  obtain ⟨hg, hb, _, _, _, _, hin, _⟩ := assignIds_spec s hwf
  refine ⟨?_, hg, hb, assignIds_idempotent s hwf, ?_, rfl⟩
  · intro i k hik
    have hmem : (i, k) ∈ s.docPanels.enum := List.mk_mem_enum_iff_getElem?.2 hik
    have h := hin (i, k) hmem
    constructor
    · intro hf
      rw [h]
      simp [assigned, hf]
    · intro ht
      rw [h]
      simp [assigned, ht]
  · intro habs
    simp [Script7.loadState, habs]

/-- Witness for C16: a page of three sections of which the first has no
identifier and the third an empty one. -/
theorem assignIds_rule_witness :
    (assignIds (page mixed .absent)).sections.map (fun x => x.id)
        = [some "section-0", some "notes", some "section-2"] ∧
    assignIds (assignIds (page mixed .absent)) = assignIds (page mixed .absent) :=
  ⟨by decide,
    (assignIds_rule (page mixed .absent) (by unfold State.WellFormed; decide)).2.2.2.1⟩

/-- C15 (the code at the failing input).  The first section has no identifier
and the markup names the second `section-0`: the identifiers present are
pairwise distinct, yet after the loop, which `script.js` introduces as giving
each section a unique identifier, both sections are called `section-0`. -/
theorem assignIds_clash :
    (page clash .absent).DistinctPreset ∧
    (assignIds (page clash .absent)).sections.map (fun x => x.id)
      = [some "section-0", some "section-0"] ∧
    ¬ (assignIds (page clash .absent)).DistinctIds := by
  refine ⟨?_, ?_, ?_⟩
  · unfold State.DistinctPreset; decide
  · decide
  · unfold State.DistinctIds; decide

/-- Where the loop does keep identifiers unique: on a well-formed page whose
identifiers already present are pairwise distinct and none of which is a name
the loop hands out on this page (`section-n` for the index `n` of a section
lacking one), the identifiers of all sections of the document are non-empty
and pairwise distinct after the loop. -/
theorem assignIds_distinct (s : State) (hwf : s.WellFormed) (hpre : s.DistinctPreset)
    (hfree : s.NamesFree) :
    (assignIds s).DistinctIds ∧ (assignIds s).ValidIds := by
  obtain ⟨_, _, _, _, _, _, hin, _⟩ := assignIds_spec s hwf
  have hdoc := docPanels_assignIds s hwf
  have hsnd : ∀ ik ∈ s.docPanels.enum, ik.2 ∈ s.docPanels := by
    intro ik hik
    rw [← List.enum_map_snd s.docPanels]
    exact List.mem_map_of_mem Prod.snd hik
  have hndD := nodup_docPanels s hwf
  have hnsnd : (s.docPanels.enum.map Prod.snd).Nodup := by
    rw [List.enum_map_snd]; exact hndD
  have hnenum : s.docPanels.enum.Nodup := List.Nodup.of_map _ hnsnd
  have hmap : ((assignIds s).docPanels.map fun k => ((assignIds s).get k).id)
      = s.docPanels.enum.map fun ik => (assigned ik.1 (s.get ik.2)).id := by
    rw [hdoc]
    conv_lhs => rw [← List.enum_map_snd s.docPanels]
    rw [List.map_map]
    apply List.map_congr_left
    intro ik hik
    simp only [Function.comp]
    rw [hin ik hik]
  have hdistinct : (assignIds s).DistinctIds := by
    unfold State.DistinctIds
    rw [hmap]
    apply List.Nodup.map_on _ hnenum
    intro ik hik ik' hik' heq
    by_cases ht : truthy (s.get ik.2).id = true
    · by_cases ht' : truthy (s.get ik'.2).id = true
      · simp only [assigned, ht, ht', if_true] at heq
        have h1 : ik.2 ∈ s.docPanels.filter fun k => truthy (s.get k).id :=
          List.mem_filter.2 ⟨hsnd ik hik, ht⟩
        have h2 : ik'.2 ∈ s.docPanels.filter fun k => truthy (s.get k).id :=
          List.mem_filter.2 ⟨hsnd ik' hik', ht'⟩
        have := List.inj_on_of_nodup_map hpre h1 h2 heq
        exact List.inj_on_of_nodup_map hnsnd hik hik' this
      · have hf' : truthy (s.get ik'.2).id = false := by simpa using ht'
        simp only [assigned, ht, if_true, hf'] at heq
        exact absurd (by simpa using heq) (hfree ik' hik' hf' ik.2 (hsnd ik hik))
    · have hf : truthy (s.get ik.2).id = false := by simpa using ht
      by_cases ht' : truthy (s.get ik'.2).id = true
      · simp only [assigned, ht', if_true, hf] at heq
        exact absurd (by simpa using heq.symm) (hfree ik hik hf ik'.2 (hsnd ik' hik'))
      · have hf' : truthy (s.get ik'.2).id = false := by simpa using ht'
        simp only [assigned, hf, hf'] at heq
        have hname : "section-" ++ toString ik.1 = "section-" ++ toString ik'.1 := by
          simpa using heq
        have hfst := section_name_injective _ _ hname
        exact List.inj_on_of_nodup_map (List.nodup_enum_map_fst _) hik hik' hfst
  refine ⟨hdistinct, ?_, hdistinct⟩
  intro k hk
  rw [hdoc] at hk
  obtain ⟨i, hi⟩ := List.getElem?_of_mem hk
  have hmem : (i, k) ∈ s.docPanels.enum := List.mk_mem_enum_iff_getElem?.2 hi
  rw [hin (i, k) hmem]
  exact truthy_assigned _ _

/-- The page with identifiers none, `notes` and empty ends with distinct
identifiers. -/
theorem assignIds_distinct_mixed :
    (assignIds (page mixed .absent)).DistinctIds :=
  (assignIds_distinct (page mixed .absent) (by unfold State.WellFormed; decide)
    (by unfold State.DistinctPreset; decide) (by unfold State.NamesFree; decide)).1

/-! ## Restored titles -/

theorem title_step (s z : State) (hg : z.grid = s.grid) (hb : z.body = s.body)
    (hi : z.sections.map (fun x => x.id) = s.sections.map (fun x => x.id))
    (hd : s.DistinctIds) (k : Nat) (hk : k ∈ s.docPanels) (e : String × String) :
    ((match querySection z e.1 with
      | some j => z.modify j fun x => { x with title := e.2 }
      | none => z).get k).title
      = if (s.get k).id = some e.1 then e.2 else (z.get k).title := by
  have hkl : k < z.sections.length := by
    have h1 := ((mem_docPanels s k).1 hk).2
    have h2 := congrArg List.length hi
    simp at h2
    omega
  rw [querySection_congr s z hg hb hi]
  by_cases hid : (s.get k).id = some e.1
  · have hq : querySection s e.1 = some k := by
      unfold querySection
      rw [← hid]
      exact find?_of_unique (fun j => (s.get j).id) s.docPanels k hd hk
    rw [hq, if_pos hid]
    simp only []
    rw [get_modify_self z k _ hkl]
  · rw [if_neg hid]
    cases hq : querySection s e.1 with
    | none => rfl
    | some j =>
      have hj := (querySection_some s _ _ hq).1
      have hne : k ≠ j := by
        intro e'
        rw [e'] at hid
        exact hid hj
      simp only []
      rw [get_modify_ne z j k _ hne]

theorem restoreTitles_title (s : State) (hd : s.DistinctIds) (k : Nat) (hk : k ∈ s.docPanels) :
    ∀ (ts : List (String × String)) (z : State), z.grid = s.grid → z.body = s.body →
      z.sections.map (fun x => x.id) = s.sections.map (fun x => x.id) →
      ((restoreTitles ts z).get k).title
        = ts.foldl (fun t e => if (s.get k).id = some e.1 then e.2 else t) (z.get k).title
  | [], _, _, _, _ => rfl
  | e :: ts, z, hg, hb, hi => by
    simp only [restoreTitles, List.foldl_cons]
    have hstep := title_step s z hg hb hi hd k hk e
    cases hq : querySection z e.1 with
    | none =>
      rw [hq] at hstep
      have ih := restoreTitles_title s hd k hk ts z hg hb hi
      simp only [restoreTitles] at ih
      rw [ih, ← hstep]
    | some j =>
      rw [hq] at hstep
      have ih := restoreTitles_title s hd k hk ts
        (z.modify j fun x => { x with title := e.2 }) hg hb
        ((ids_modify z j (fun x => { x with title := e.2 }) (fun _ => rfl)).trans hi)
      simp only [restoreTitles] at ih
      rw [ih, ← hstep]

theorem foldl_title_of_not_key (id : Option String) :
    ∀ (ts : List (String × String)) (t0 : String), (∀ e ∈ ts, id ≠ some e.1) →
      ts.foldl (fun t e => if id = some e.1 then e.2 else t) t0 = t0
  | [], _, _ => rfl
  | e :: ts, t0, h => by
    simp only [List.foldl_cons]
    rw [if_neg (h e (List.mem_cons_self _ _))]
    exact foldl_title_of_not_key id ts t0 (fun e' h' => h e' (List.mem_cons_of_mem _ h'))

theorem foldl_title_of_mem (i t : String) :
    ∀ (ts : List (String × String)) (t0 : String), (ts.map Prod.fst).Nodup → (i, t) ∈ ts →
      ts.foldl (fun t e => if some i = some e.1 then e.2 else t) t0 = t
  | [], _, _, h => by simp at h
  | e :: ts, t0, hnd, h => by
    rw [List.map_cons, List.nodup_cons] at hnd
    simp only [List.foldl_cons]
    rcases List.mem_cons.1 h with he | he
    · subst he
      simp only [if_true]
      apply foldl_title_of_not_key
      intro e' he' heq
      have : i = e'.1 := Option.some.inj heq
      have hmem' : e'.1 ∈ ts.map Prod.fst := List.mem_map_of_mem Prod.fst he'
      rw [← this] at hmem'
      exact hnd.1 hmem'
    · exact foldl_title_of_mem i t ts _ hnd.2 he

theorem get_restore (v : SavedState) (s : State) (k : Nat) :
    (restore v s).get k = (restore { v with order := none } s).get k := by
  rw [restore_eq v s]
  cases v.order with
  | none => rfl
  | some o =>
    cases o with
    | nil => rfl
    | cons e es =>
      simp only []
      unfold State.get
      rw [(restoreOrder_fields (e :: es) _).1]

/-- C13 (counterexample).  The page A, B, C, identifiers pairwise distinct,
with stored titles under the keys `x"y` and `B`, in that order: the title loop
ends with the exception of `querySelector` at `x"y`, before it reaches `B`, and
B, whose identifier is a key of `titles`, keeps its title `Beta` instead of the
stored `Bravo`. -/
theorem loadState_titles_quoted_key :
    (page abc .absent).DistinctIds ∧
    (Script7.loadState (page abc (.record
      { order := none, titles := some [("x\"y", "Q"), ("B", "Bravo")] }))).error
      = some .selector ∧
    ((Script7.loadState (page abc (.record
      { order := none, titles := some [("x\"y", "Q"), ("B", "Bravo")] }))).state.get 1).id
      = some "B" ∧
    ((Script7.loadState (page abc (.record
      { order := none, titles := some [("x\"y", "Q"), ("B", "Bravo")] }))).state.get 1).title
      = "Beta" ∧
    (Script.loadState (page abc (.record
      { order := none, titles := some [("x\"y", "Q"), ("B", "Bravo")] }))).error
      = some .selector := by
  refine ⟨by unfold State.DistinctIds; decide, by decide, by decide, by decide, by decide⟩

/-- C13 (amended).  For every page whose sections have pairwise distinct
identifiers and every stored record (its `titles` an object, so no key twice)
whose title keys stand for themselves in the selector (no double quote,
backslash, line feed, carriage return, form feed or NUL), `loadState` raises
nothing and afterwards every section of the document whose identifier is a key
of `titles` has exactly the stored title, and every section whose identifier
is not a key of `titles` (or when `titles` is missing) keeps the title it had;
no identifier changes.  Holds for `script7.js` and `script.js`. -/
theorem loadState_titles (s : State) (v : SavedState) (hs : s.storage = .record v)
    (hpk : plainKeys v.titles = true) (hd : s.DistinctIds) (k : Nat) (hk : k ∈ s.docPanels) :
    (Script7.loadState s).error = none ∧
    (∀ ts i t, v.titles = some ts → (ts.map Prod.fst).Nodup → (s.get k).id = some i →
      (i, t) ∈ ts → ((Script7.loadState s).state.get k).title = t) ∧
    ((∀ ts, v.titles = some ts → ∀ e ∈ ts, (s.get k).id ≠ some e.1) →
      ((Script7.loadState s).state.get k).title = (s.get k).title) ∧
    ((Script7.loadState s).state.get k).id = (s.get k).id ∧
    Script.loadState s = Script7.loadState s := by
  obtain ⟨h7, h1⟩ := loadState_record s v hs hpk
  rw [h1, h7]
  dsimp only
  rw [get_restore]
  refine ⟨rfl, ?_, ?_, ?_, rfl⟩
  · intro ts i t hts hnd hid hmem
    have h := restoreTitles_title s hd k hk ts s rfl rfl rfl
    simp only [restore, hts]
    rw [h, hid]
    exact foldl_title_of_mem i t ts _ hnd hmem
  · intro hnot
    cases hts : v.titles with
    | none => simp only [restore, hts]
    | some ts =>
      have h := restoreTitles_title s hd k hk ts s rfl rfl rfl
      simp only [restore, hts]
      rw [h]
      exact foldl_title_of_not_key _ ts _ (hnot ts hts)
  · exact id_get_congr s _ (restore_titles_frame v s).2.2 k

/-- Witness for C13: on the page A, B, C the stored titles rename B and an
unknown Z; B gets the stored title. -/
theorem loadState_titles_witness :
    ((Script7.loadState (page abc (.record
        { order := none, titles := some [("B", "Bravo"), ("Z", "Zulu")] }))).state.get 1).title
      = "Bravo" :=
  (loadState_titles
    (page abc (.record { order := none, titles := some [("B", "Bravo"), ("Z", "Zulu")] }))
    { order := none, titles := some [("B", "Bravo"), ("Z", "Zulu")] } rfl (by decide)
    (by unfold State.DistinctIds; decide) 1 (by decide)).2.1
    [("B", "Bravo"), ("Z", "Zulu")] "B" "Bravo" rfl (by decide) rfl (by decide)

end Portal
